import Mathlib

/-!
# MultiServer: buffered connections and the chat session engine

A shallow embedding of `src/connection.c`, `src/enhanced_chat.c`, the
accept, protocol-detection, read, write and per-connection event paths of
`src/server.c`, and the numeric settings of `src/config.c`.

Representation conventions.

* A `char[]` field or `char *` argument holding a C string is a `CStr`
  (`List Char`): the bytes before the terminating NUL.  Raw receive data
  may contain NUL bytes; `cstr` cuts it where C string functions stop.
* A buffer with a `*_used` counter is the list of its first `*_used`
  bytes, so `read_buffer_used` is `read_buffer.length`, `user_count` is
  `users.length`, and so on.
* Pointers to heap objects (`Connection *`, `ChatUser *`, `ChatRoom *`)
  are natural-number addresses into the heaps `connAt`, `userAt`,
  `roomAt` of a `World`.  `malloc` is a bump allocator and is assumed to
  succeed.
* `time(NULL)`, `strftime`, `ctime` and the result of `send(2)` come from
  an environment record `Env`.
* The bytes a socket accepted from `send(2)` are appended to the
  connection's `wire`.
* The slot array of a `ConnectionPool` is a list of optional connection
  addresses, one entry per slot; a `Process` pairs the pool with the
  `World` that holds the connection objects and records the connections
  handed to `connection_destroy`.  A function pointer stored in
  `cleanup_func` is an address; what calling it does is a parameter `run`.
* The `int` counters `total_messages` and `total_connections` are
  integers incremented by `int_incr`: one more, and from `INT_MAX` the
  wrap to `INT_MIN`.
* `Reachable` collects the chat states the program can be in and
  `ServerReachable` the process states of the reactor; `rooms_open` and
  `pool_classified` are invariants of these.
-/

namespace MultiServer

/-- C string contents: the bytes before the terminating NUL. -/
abbrev CStr := List Char

/-- The NUL byte. -/
def NUL : Char := Char.ofNat 0

/-- The newline byte. -/
def NL : Char := Char.ofNat 10

/-- The C string that starts at the first byte of `bytes`. -/
def cstr (bytes : List Char) : CStr := bytes.takeWhile (fun c => c != NUL)

/-- Result of `snprintf(buf, size, ...)` for the fully expanded text `s`:
at most `size - 1` bytes are stored. -/
def snprintf (size : Nat) (s : CStr) : CStr := s.take (size - 1)

/-- Decimal rendering of a non-negative `int` as `%d` prints it. -/
def fmt_d (n : Nat) : CStr := Nat.toDigits 10 n

/-- Decimal rendering of a signed integer as `%ld` prints a `long` and `%d`
an `int`. -/
def fmt_ld (n : Int) : CStr :=
  match n with
  | Int.ofNat k => fmt_d k
  | Int.negSucc k => '-' :: fmt_d (k + 1)

/-- The largest value of a 32-bit `int`. -/
def INT_MAX : Int := 2147483647

/-- The value `x++` stores in an `int` counter: one more, and from `INT_MAX`
the two's-complement wrap to `INT_MIN`. -/
def int_incr (x : Int) : Int := if x = 2147483647 then -2147483648 else x + 1

/-- Update of a heap at one address. -/
def upd {α : Type} (f : Nat → α) (a : Nat) (v : α) : Nat → α :=
  fun x => if x = a then v else f x

/-! ## Constants (`common.h`, `enhanced_chat.h`) -/

def MAX_CONNECTIONS : Nat := 1000
def BUFFER_SIZE : Nat := 8192
def MAX_NICKNAME_LENGTH : Nat := 32
def MAX_ROOM_NAME_LENGTH : Nat := 32
def MAX_USERS_PER_ROOM : Nat := 50
def MAX_ROOMS : Nat := 100

/-! ## Buffered connection (`connection.h`, `connection.c`) -/

/-- Outcome of one non-blocking `send(2)`: a byte count (possibly zero),
`EAGAIN`/`EWOULDBLOCK`, or any other error. -/
inductive SendResult where
  | sent (k : Nat)
  | wouldBlock
  | error
  deriving DecidableEq, Repr

/-- `ProtocolType` (`common.h`). -/
inductive ProtocolType where
  | PROTOCOL_UNKNOWN
  | PROTOCOL_HTTP
  | PROTOCOL_CHAT
  | PROTOCOL_HTTPS
  deriving DecidableEq, Repr

/-- `ConnectionState` (`connection.h`). -/
inductive ConnectionState where
  | CONN_STATE_NEW
  | CONN_STATE_READING
  | CONN_STATE_PROCESSING
  | CONN_STATE_WRITING
  | CONN_STATE_CLOSING
  deriving DecidableEq, Repr

/-- The struct `Connection`, identified by its address; the socket, peer
address and creation time are not represented.  `read_buffer` and
`write_buffer` hold the first `read_buffer_used` / `write_buffer_used`
bytes; `wire` is the byte stream the socket has accepted so far;
`protocol_data` and `cleanup_func` are addresses (none for NULL). -/
structure Connection where
  last_activity : Nat
  protocol : ProtocolType
  state : ConnectionState
  protocol_data : Option Nat
  cleanup_func : Option Nat
  read_buffer : List Char
  read_buffer_size : Nat
  write_buffer : List Char
  write_buffer_size : Nat
  write_buffer_sent : Nat
  keep_alive : Bool
  has_data_to_send : Bool
  wire : List Char
  deriving DecidableEq, Repr

def Connection.read_buffer_used (conn : Connection) : Nat := conn.read_buffer.length

def Connection.write_buffer_used (conn : Connection) : Nat := conn.write_buffer.length

/-- The state `connection_create` leaves a connection in (`connection.c` 57-90). -/
def connection_create (now : Nat) : Connection :=
  { last_activity := now
    protocol := ProtocolType.PROTOCOL_UNKNOWN
    state := ConnectionState.CONN_STATE_NEW
    protocol_data := none
    cleanup_func := none
    read_buffer := []
    read_buffer_size := BUFFER_SIZE
    write_buffer := []
    write_buffer_size := BUFFER_SIZE
    write_buffer_sent := 0
    keep_alive := false
    has_data_to_send := false
    wire := [] }

/-- Outcome of one non-blocking `recv(2)`: the bytes received (none on an
orderly peer close), `EAGAIN`/`EWOULDBLOCK`, or any other error. -/
inductive RecvResult where
  | data (bytes : List Char)
  | wouldBlock
  | error
  deriving DecidableEq, Repr

/-- `conn->read_buffer_size - 1` of line 223, in `size_t` (64-bit): the
subtraction wraps for a capacity of 0. -/
def read_limit (conn : Connection) : Nat :=
  if conn.read_buffer_size = 0 then 2 ^ 64 - 1 else conn.read_buffer_size - 1

/-- Length argument of the `recv` call of lines 230-233,
`read_buffer_size - read_buffer_used - 1` in `size_t` (64-bit). -/
def recv_length (conn : Connection) : Nat :=
  if conn.read_buffer_used + 1 ≤ conn.read_buffer_size then
    conn.read_buffer_size - conn.read_buffer_used - 1
  else conn.read_buffer_size + 2 ^ 64 - conn.read_buffer_used - 1

/-- `connection_read` (`connection.c` 217-263), given the outcome `r` of its
`recv` call.  Returns the new connection and the return value. -/
def connection_read (now : Nat) (r : RecvResult) (conn : Connection) : Connection × Int :=
  if conn.read_buffer_used ≥ read_limit conn then (conn, -1)
  else
    match r with
    | RecvResult.data [] => (conn, 0)
    | RecvResult.data (b :: bs) =>
      ({ conn with read_buffer := conn.read_buffer ++ (b :: bs), last_activity := now },
        (((b :: bs).length : Nat) : Int))
    | RecvResult.wouldBlock => (conn, 0)
    | RecvResult.error => (conn, -1)

/-- `connection_prepare_response` (`connection.c` 334-363); `realloc` succeeds. -/
def connection_prepare_response (conn : Connection) (data : List Char) : Connection :=
  if data.length = 0 then conn
  else
    { conn with
      write_buffer_size :=
        if data.length > conn.write_buffer_size then data.length else conn.write_buffer_size
      write_buffer := data
      write_buffer_sent := 0
      has_data_to_send := true }

/-- `size_t remaining = write_buffer_used - write_buffer_sent` (64-bit). -/
def write_remaining (conn : Connection) : Nat :=
  if conn.write_buffer_sent ≤ conn.write_buffer_used then
    conn.write_buffer_used - conn.write_buffer_sent
  else conn.write_buffer_used + 2 ^ 64 - conn.write_buffer_sent

/-- `connection_write` (`connection.c` 265-317), given the outcome `r` of
its `send` call.  Returns the new connection and the return value. -/
def connection_write (now : Nat) (r : SendResult) (conn : Connection) : Connection × Int :=
  if conn.has_data_to_send = false then (conn, 0)
  else if write_remaining conn = 0 then ({ conn with has_data_to_send := false }, 0)
  else
    match r with
    | SendResult.sent 0 => (conn, 0)
    | SendResult.sent (k + 1) =>
      let conn1 : Connection :=
        { conn with
          write_buffer_sent := conn.write_buffer_sent + (k + 1)
          last_activity := now
          wire := conn.wire ++ (conn.write_buffer.drop conn.write_buffer_sent).take (k + 1) }
      if conn1.write_buffer_sent ≥ conn1.write_buffer_used then
        ({ conn1 with has_data_to_send := false, write_buffer := [], write_buffer_sent := 0 },
          ((k + 1 : Nat) : Int))
      else (conn1, ((k + 1 : Nat) : Int))
    | SendResult.wouldBlock => (conn, 0)
    | SendResult.error => (conn, -1)

/-! ## Chat data model (`enhanced_chat.h`) -/

structure ChatUser where
  nickname : CStr
  connection : Nat
  current_room : Option Nat
  join_time : Nat
  last_activity : Nat
  authenticated : Bool
  is_admin : Bool
  deriving DecidableEq, Repr

structure ChatRoom where
  name : CStr
  users : List Nat
  created_at : Nat
  topic : CStr
  password_protected : Bool
  password : CStr
  private_room : Bool
  deriving DecidableEq, Repr

/-- The struct `ChatServer`; `rooms` and `users` hold the first `room_count`
and `user_count` pointers of the arrays. -/
structure ChatServer where
  rooms : List Nat
  users : List Nat
  start_time : Nat
  total_messages : Int
  total_users_served : Nat
  peak_concurrent_users : Nat
  deriving DecidableEq, Repr

def ChatServer.room_count (s : ChatServer) : Nat := s.rooms.length

def ChatServer.user_count (s : ChatServer) : Nat := s.users.length

/-- What the C code reads from outside the process during one call. -/
structure Env where
  /-- Value of `time(NULL)`. -/
  now : Nat
  /-- Expansion of `%H:%M:%S` by `strftime` for the local time. -/
  hms : CStr
  /-- Value of `ctime(&now)`. -/
  ctime : CStr
  /-- Outcome of `send(2)` on a connection when offered a number of bytes. -/
  send : Nat → Nat → SendResult

/-- The process memory the chat engine works on: the global `ChatServer`,
the heaps of rooms, users and connections, and the next addresses `malloc`
hands out for rooms and users. -/
structure World where
  server : ChatServer
  roomAt : Nat → ChatRoom
  userAt : Nat → ChatUser
  connAt : Nat → Connection
  next_room : Nat
  next_user : Nat

/-- Zero-filled `ChatRoom` (`memset(room, 0, ...)`). -/
def ChatRoom.zero : ChatRoom :=
  { name := [], users := [], created_at := 0, topic := [], password_protected := false,
    password := [], private_room := false }

/-- Zero-filled `ChatUser`. -/
def ChatUser.zero : ChatUser :=
  { nickname := [], connection := 0, current_room := none, join_time := 0, last_activity := 0,
    authenticated := false, is_admin := false }

/-- `connection_prepare_response` on the connection at address `conn`. -/
def stage (w : World) (conn : Nat) (data : List Char) : World :=
  { w with connAt := upd w.connAt conn (connection_prepare_response (w.connAt conn) data) }

/-- `connection_write` on the connection at address `conn`, return value dropped. -/
def flush (env : Env) (w : World) (conn : Nat) : World :=
  { w with
    connAt := upd w.connAt conn
      (connection_write env.now (env.send conn (write_remaining (w.connAt conn)))
        (w.connAt conn)).1 }

/-! ## Chat engine (`enhanced_chat.c`) -/

/-- `chat_room_create` (96-113): returns the world with the new room and its address. -/
def chat_room_create (env : Env) (w : World) (name : CStr) : World × Nat :=
  let room : ChatRoom :=
    { ChatRoom.zero with
      name := name.take (MAX_ROOM_NAME_LENGTH - 1)
      created_at := env.now
      password_protected := false
      private_room := false }
  ({ w with roomAt := upd w.roomAt w.next_room room, next_room := w.next_room + 1 }, w.next_room)

/-- `chat_server_create` (7-30), on a memory with no chat objects. -/
def chat_server_create (env : Env) (connAt : Nat → Connection) : World :=
  let w0 : World :=
    { server := { rooms := [], users := [], start_time := env.now, total_messages := 0,
                  total_users_served := 0, peak_concurrent_users := 0 }
      roomAt := fun _ => ChatRoom.zero
      userAt := fun _ => ChatUser.zero
      connAt := connAt
      next_room := 0
      next_user := 0 }
  let (w1, lobby) := chat_room_create env w0 "lobby".toList
  let w2 : World :=
    { w1 with
      roomAt := upd w1.roomAt lobby
        { w1.roomAt lobby with
          topic := "Welcome to MultiServer Chat! Type /help for commands.".toList } }
  { w2 with server := { w2.server with rooms := [lobby] } }

/-- Default nickname of line 77: `snprintf(nickname, 32, "User%d", join_time % 10000)`. -/
def default_nickname (join_time : Nat) : CStr :=
  snprintf MAX_NICKNAME_LENGTH ("User".toList ++ fmt_d (join_time % 10000))

/-- `chat_user_create` (59-80). -/
def chat_user_create (env : Env) (w : World) (conn : Nat) : World × Nat :=
  let user : ChatUser :=
    { ChatUser.zero with
      connection := conn
      join_time := env.now
      last_activity := env.now
      authenticated := false
      is_admin := false
      current_room := none
      nickname := default_nickname env.now }
  ({ w with userAt := upd w.userAt w.next_user user, next_user := w.next_user + 1 }, w.next_user)

/-- `chat_find_user_by_nickname` (133-143). -/
def chat_find_user_by_nickname (w : World) (nickname : CStr) : Option Nat :=
  w.server.users.find? (fun u => decide ((w.userAt u).nickname = nickname))

/-- `chat_find_user_by_connection` (145-155). -/
def chat_find_user_by_connection (w : World) (conn : Nat) : Option Nat :=
  w.server.users.find? (fun u => decide ((w.userAt u).connection = conn))

/-- `chat_find_room` (157-167). -/
def chat_find_room (w : World) (name : CStr) : Option Nat :=
  w.server.rooms.find? (fun r => decide ((w.roomAt r).name = name))

/-- `chat_send_system_message` (267-273). -/
def chat_send_system_message (env : Env) (w : World) (user : Nat) (message : CStr) : World :=
  let response := snprintf BUFFER_SIZE ("*** ".toList ++ message ++ [NL])
  flush env (stage w (w.userAt user).connection response) (w.userAt user).connection

/-- `chat_announce_to_room` (304-320). -/
def chat_announce_to_room (w : World) (room : Nat) (message : CStr) : World :=
  let formatted_message := snprintf BUFFER_SIZE (message ++ [NL])
  (w.roomAt room).users.foldl
    (fun acc u => stage acc (acc.userAt u).connection formatted_message) w

/-- `chat_broadcast_to_room` (275-302). -/
def chat_broadcast_to_room (env : Env) (w : World) (room : Nat) (message : CStr)
    (sender : Nat) : World :=
  let stamp := snprintf BUFFER_SIZE ("[".toList ++ env.hms ++ "] ".toList)
  let formatted_message :=
    stamp ++ snprintf (BUFFER_SIZE - stamp.length)
      ("<".toList ++ (w.userAt sender).nickname ++ "> ".toList ++ message ++ [NL])
  let w1 := (w.roomAt room).users.foldl
    (fun acc u =>
      if u ≠ sender then stage acc (acc.userAt u).connection formatted_message else acc) w
  let confirmation :=
    snprintf BUFFER_SIZE ("Message sent to #".toList ++ (w1.roomAt room).name ++ [NL])
  stage w1 (w1.userAt sender).connection confirmation

/-- `chat_leave_room` (230-265). -/
def chat_leave_room (env : Env) (w : World) (user : Nat) : World × Int :=
  match (w.userAt user).current_room with
  | none => (chat_send_system_message env w user "You are not in a room".toList, -1)
  | some room =>
    let w1 : World :=
      { w with
        roomAt := upd w.roomAt room
          { w.roomAt room with users := (w.roomAt room).users.erase user } }
    let message := snprintf 256 ("*** ".toList ++ (w1.userAt user).nickname ++ " left the room".toList)
    let w2 := chat_announce_to_room w1 room message
    let w3 : World :=
      { w2 with userAt := upd w2.userAt user { w2.userAt user with current_room := none } }
    (chat_send_system_message env w3 user "You left the room".toList, 0)

/-- Condition of line 193:
`room->password_protected && password && strcmp(room->password, password) != 0`. -/
def password_rejected (room : ChatRoom) (password : Option CStr) : Bool :=
  room.password_protected &&
    (match password with
     | some p => decide (room.password ≠ p)
     | none => false)

/-- Lines 206-210 of `chat_join_room`: leave the current room if in one. -/
def leave_current_room (env : Env) (w : World) (user : Nat) : World :=
  if (w.userAt user).current_room.isSome then (chat_leave_room env w user).1 else w

/-- Text of the welcome sent by `chat_join_room` (221-223), before `snprintf`
cuts it to its 512-byte buffer. -/
def welcome_text (room : ChatRoom) : CStr :=
  "Welcome to #".toList ++ room.name ++ "!".toList ++ [NL] ++
    "Topic: ".toList ++ room.topic ++ [NL] ++
    "Users online: ".toList ++ fmt_d room.users.length ++ [NL] ++
    "Type /list users to see who's here.".toList

/-- Lines 192-228 of `chat_join_room`: the checks and the join itself, once
`room` has been found or created. -/
def chat_join_room_found (env : Env) (w : World) (user : Nat) (room : Nat)
    (password : Option CStr) : World × Int :=
  if password_rejected (w.roomAt room) password = true then
    (chat_send_system_message env w user "Incorrect room password".toList, -1)
  else if (w.roomAt room).users.length ≥ MAX_USERS_PER_ROOM then
    (chat_send_system_message env w user "Room is full".toList, -1)
  else
    let w1 := leave_current_room env w user
    let w2 : World :=
      { w1 with
        roomAt := upd w1.roomAt room
          { w1.roomAt room with users := (w1.roomAt room).users ++ [user] } }
    let w3 : World :=
      { w2 with userAt := upd w2.userAt user { w2.userAt user with current_room := some room } }
    let joined := snprintf 512
      ("*** ".toList ++ (w3.userAt user).nickname ++ " joined the room".toList)
    let w4 := chat_announce_to_room w3 room joined
    (chat_send_system_message env w4 user (snprintf 512 (welcome_text (w4.roomAt room))), 0)

/-- `chat_join_room` (169-228). -/
def chat_join_room (env : Env) (w : World) (user : Nat) (room_name : CStr)
    (password : Option CStr) : World × Int :=
  match chat_find_room w room_name with
  | some room => chat_join_room_found env w user room password
  | none =>
    if w.server.rooms.length ≥ MAX_ROOMS then
      (chat_send_system_message env w user "Cannot create room: Maximum rooms reached".toList, -1)
    else
      let (w1, room) := chat_room_create env w room_name
      let w2 : World := { w1 with server := { w1.server with rooms := w1.server.rooms ++ [room] } }
      chat_join_room_found env w2 user room password

/-- First `strtok(s, " ")` call: the token (if any) and the text left after
the delimiter that ended it. -/
def strtok_space (s : CStr) : Option CStr × CStr :=
  let s1 := s.dropWhile (fun c => c == ' ')
  if s1 = [] then (none, [])
  else (some (s1.takeWhile (fun c => c != ' ')), (s1.dropWhile (fun c => c != ' ')).drop 1)

/-- Follow-up `strtok(NULL, "")` call on the text left by the previous one. -/
def strtok_rest (rest : CStr) : Option CStr :=
  if rest = [] then none else some rest

/-- Text of `chat_handle_help_command`. -/
def help_text : CStr :=
  ("=== MultiServer Chat Commands ===\n" ++
   "/join <room> [password] - Join or create a room\n" ++
   "/leave                  - Leave current room\n" ++
   "/list rooms            - List available rooms\n" ++
   "/list users            - List users in current room\n" ++
   "/msg <user> <message>  - Send private message\n" ++
   "/nick <nickname>       - Change your nickname\n" ++
   "/stats                 - Show server statistics\n" ++
   "/time                  - Show current time\n" ++
   "/help                  - Show this help\n" ++
   "/quit                  - Disconnect\n" ++
   "\nTo chat, just type your message (must be in a room)\n" ++
   "================================\n").toList

/-- `chat_handle_help_command` (322-341). -/
def chat_handle_help_command (env : Env) (w : World) (user : Nat) : World :=
  flush env (stage w (w.userAt user).connection help_text) (w.userAt user).connection

/-- `chat_handle_join_command` (420-442). -/
def chat_handle_join_command (env : Env) (w : World) (user : Nat) (args : Option CStr) : World :=
  match args with
  | none => chat_send_system_message env w user "Usage: /join <room> [password]".toList
  | some a =>
    match strtok_space a with
    | (some room_name, rest) =>
      (chat_join_room env w user room_name (strtok_space rest).1).1
    | (none, _) => chat_send_system_message env w user "Usage: /join <room> [password]".toList

/-- `chat_handle_nick_command` (444-479). -/
def chat_handle_nick_command (env : Env) (w : World) (user : Nat) (args : Option CStr) : World :=
  match args with
  | none => chat_send_system_message env w user "Usage: /nick <new_nickname>".toList
  | some a =>
    if a.length = 0 then
      chat_send_system_message env w user "Usage: /nick <new_nickname>".toList
    else if a.length ≥ MAX_NICKNAME_LENGTH then
      chat_send_system_message env w user "Nickname too long".toList
    else if (chat_find_user_by_nickname w a).isSome then
      chat_send_system_message env w user "Nickname already taken".toList
    else
      let old_nick := (w.userAt user).nickname
      let w1 : World := { w with userAt := upd w.userAt user { w.userAt user with nickname := a } }
      let message := snprintf 256
        ("Your nickname changed from ".toList ++ old_nick ++ " to ".toList ++
          (w1.userAt user).nickname)
      let w2 := chat_send_system_message env w1 user message
      match (w2.userAt user).current_room with
      | some room =>
        chat_announce_to_room w2 room
          (snprintf 256
            ("*** ".toList ++ old_nick ++ " is now known as ".toList ++ (w2.userAt user).nickname))
      | none => w2

/-- Append as `strcat` does. -/
def strcat (dst src : CStr) : CStr := dst ++ src

/-- `chat_handle_list_command` (481-533). -/
def chat_handle_list_command (env : Env) (w : World) (user : Nat) (args : Option CStr) : World :=
  if args = none ∨ args = some "rooms".toList then
    let response := w.server.rooms.foldl
      (fun (response : CStr) r =>
        let room_info := snprintf 512
          ("#".toList ++ (w.roomAt r).name ++ " (".toList ++ fmt_d (w.roomAt r).users.length ++
            " users) - ".toList ++ (w.roomAt r).topic.take 100 ++ [NL])
        if response.length + room_info.length < BUFFER_SIZE - 1 then strcat response room_info
        else response)
      "=== Available Rooms ===\n".toList
    stage w (w.userAt user).connection (strcat response "=======================\n".toList)
  else if args = some "users".toList then
    match (w.userAt user).current_room with
    | none => chat_send_system_message env w user "You are not in a room".toList
    | some room =>
      let header := snprintf BUFFER_SIZE
        ("=== Users in #".toList ++ (w.roomAt room).name ++ " ===\n".toList)
      let response := (w.roomAt room).users.foldl
        (fun (response : CStr) u => strcat response (snprintf 128 ((w.userAt u).nickname ++ [NL])))
        header
      stage w (w.userAt user).connection (strcat response "===================\n".toList)
  else chat_send_system_message env w user "Usage: /list [rooms|users]".toList

/-- `chat_handle_stats_command` (535-554). -/
def chat_handle_stats_command (env : Env) (w : World) (user : Nat) : World :=
  let uptime : Int := (env.now : Int) - (w.server.start_time : Int)
  let response := snprintf BUFFER_SIZE
    ("=== Server Statistics ===\n".toList ++
     "Uptime: ".toList ++ fmt_ld uptime ++ " seconds\n".toList ++
     "Total rooms: ".toList ++ fmt_d w.server.rooms.length ++ [NL] ++
     "Active users: ".toList ++ fmt_d w.server.users.length ++ [NL] ++
     "Total messages: ".toList ++ fmt_ld w.server.total_messages ++ [NL] ++
     "Total users served: ".toList ++ fmt_d w.server.total_users_served ++ [NL] ++
     "Peak concurrent users: ".toList ++ fmt_d w.server.peak_concurrent_users ++ [NL] ++
     "========================\n".toList)
  stage w (w.userAt user).connection response

/-- `chat_process_command` (343-418). -/
def chat_process_command (env : Env) (w : World) (user : Nat) (input : CStr) : World × Int :=
  match strtok_space input with
  | (none, _) => (w, 0)
  | (some command, rest) =>
    let args := strtok_rest rest
    let w1 : World :=
      { w with userAt := upd w.userAt user { w.userAt user with last_activity := env.now } }
    if command.head? = some '/' then
      if command = "/help".toList then (chat_handle_help_command env w1 user, 0)
      else if command = "/join".toList then (chat_handle_join_command env w1 user args, 0)
      else if command = "/leave".toList then ((chat_leave_room env w1 user).1, 0)
      else if command = "/nick".toList then (chat_handle_nick_command env w1 user args, 0)
      else if command = "/list".toList then (chat_handle_list_command env w1 user args, 0)
      else if command = "/stats".toList then (chat_handle_stats_command env w1 user, 0)
      else if command = "/time".toList then
        (chat_send_system_message env w1 user
          (snprintf 128 ("Server time: ".toList ++ env.ctime)), 0)
      else if command = "/quit".toList then
        (chat_send_system_message env w1 user "Goodbye!".toList, -1)
      else
        (chat_send_system_message env w1 user
          "Unknown command. Type /help for available commands.".toList, 0)
    else
      match (w1.userAt user).current_room with
      | some room =>
        let w2 := chat_broadcast_to_room env w1 room input user
        ({ w2 with server := { w2.server with total_messages := int_incr w2.server.total_messages } }, 0)
      | none =>
        (chat_send_system_message env w1 user
          "You must join a room to chat. Type /join lobby".toList, 0)

/-- The complete newline-terminated lines of a buffer, in order, and the
bytes after the last newline: what the `memchr` scan of
`enhanced_chat_handler` (613-656) finds. -/
def split_lines : List Char → List (List Char) × List Char
  | [] => ([], [])
  | c :: cs =>
    if c = NL then ([] :: (split_lines cs).1, (split_lines cs).2)
    else
      match (split_lines cs).1 with
      | [] => ([], c :: (split_lines cs).2)
      | l :: ls => ((c :: l) :: ls, (split_lines cs).2)

/-- `conn->read_buffer_used = 0`. -/
def clear_read_buffer (w : World) (conn : Nat) : World :=
  { w with connAt := upd w.connAt conn { w.connAt conn with read_buffer := [] } }

/-- The `while` loop of `enhanced_chat_handler` (613-661) over the complete
lines found in the read buffer, followed by lines 658-660. -/
def chat_handler_lines (env : Env) (conn user : Nat) : World → List (List Char) → World × Int
  | w, [] => (clear_read_buffer w conn, 1)
  | w, line :: rest =>
    if line.length > 0 then
      if cstr line = "/quit".toList ∨ cstr line = "quit".toList ∨ cstr line = "QUIT".toList then
        (clear_read_buffer
          (flush env (stage w conn "Goodbye! Thanks for using MultiServer Chat.\n".toList) conn)
          conn, -1)
      else
        match chat_process_command env w user (cstr line) with
        | (w1, result) =>
          if result < 0 then (clear_read_buffer w1 conn, result)
          else chat_handler_lines env conn user (flush env (stage w1 conn ">>> ".toList) conn) rest
    else chat_handler_lines env conn user w rest

/-- Welcome banner of `enhanced_chat_handler` (595-599). -/
def welcome_banner : CStr :=
  ("Welcome to MultiServer Chat!\n" ++
   "You are now connected in a persistent session.\n" ++
   "Type /help for commands, /join lobby to start chatting, or /quit to disconnect.\n" ++
   ">>> ").toList

/-- Lines 579-603 of `enhanced_chat_handler`: create the user for a new
connection, mark the connection keep-alive, register the user, update the
statistics and send the welcome banner.  Returns the user's address. -/
def chat_register_user (env : Env) (w : World) (conn : Nat) : World × Nat :=
  let w1 := (chat_user_create env w conn).1
  let user := (chat_user_create env w conn).2
  let w2 : World :=
    { w1 with connAt := upd w1.connAt conn { w1.connAt conn with keep_alive := true } }
  let w3 : World :=
    { w2 with
      server :=
        { w2.server with
          users := w2.server.users ++ [user]
          total_users_served := w2.server.total_users_served + 1 } }
  let w4 : World :=
    if w3.server.users.length > w3.server.peak_concurrent_users then
      { w3 with server := { w3.server with peak_concurrent_users := w3.server.users.length } }
    else w3
  (flush env (stage w4 conn welcome_banner) conn, user)

/-- `enhanced_chat_handler` (556-661). -/
def enhanced_chat_handler (env : Env) (w : World) (conn : Nat) : World × Int :=
  if (w.connAt conn).read_buffer_used = 0 then (w, 0)
  else
    match chat_find_user_by_connection w conn with
    | some user =>
      chat_handler_lines env conn user w (split_lines (w.connAt conn).read_buffer).1
    | none =>
      if w.server.users.length ≥ MAX_CONNECTIONS then
        (stage w conn "Server full. Try again later.\n".toList, -1)
      else
        chat_handler_lines env conn (chat_register_user env w conn).2
          (chat_register_user env w conn).1
          (split_lines (((chat_register_user env w conn).1).connAt conn).read_buffer).1

/-- The connection at address `conn` performs a `connection_read` whose
`recv` delivers `data`. -/
def deliver (now : Nat) (w : World) (conn : Nat) (data : List Char) : World :=
  { w with connAt := upd w.connAt conn (connection_read now (RecvResult.data data) (w.connAt conn)).1 }

/-- Output of a connection: the bytes its socket accepted followed by the
bytes staged in the write buffer and not sent yet. -/
def Connection.output (conn : Connection) : List Char :=
  conn.wire ++ conn.write_buffer.drop conn.write_buffer_sent

/-- Chat states reachable from `chat_server_create`: any activity on the
connections (accept, close, read, write) and any call of
`enhanced_chat_handler`. -/
inductive Reachable : World → Prop where
  | init (env : Env) (connAt : Nat → Connection) : Reachable (chat_server_create env connAt)
  | network (w : World) (connAt : Nat → Connection) :
      Reachable w → Reachable { w with connAt := connAt }
  | handler (env : Env) (w : World) (conn : Nat) :
      Reachable w → Reachable (enhanced_chat_handler env w conn).1

/-! ## Concrete scenario data -/

/-- An environment at time 5 whose sockets accept every byte offered. -/
def env5 : Env :=
  { now := 5, hms := "12:00:00".toList, ctime := "Thu Jan  1 00:00:05 1970\n".toList,
    send := fun _ n => SendResult.sent n }

/-- Chat server just created, all connections fresh. -/
def world0 : World := chat_server_create env5 (fun _ => connection_create 0)

/-- A connection receives `data` and the chat handler runs on it. -/
def exchange (env : Env) (w : World) (conn : Nat) (data : String) : World :=
  (enhanced_chat_handler env (deliver env.now w conn data.toList) conn).1

/-- One user (address 0, connection 1) has joined `lobby`. -/
def lobby1 : World := exchange env5 world0 1 "/join lobby\n"

/-- A second user (address 1, connection 2) has joined `lobby` as well. -/
def lobby2 : World := exchange env5 lobby1 2 "/join lobby\n"

/-- Users `A` (address 0, connection 1) and `B` (address 1, connection 2)
have both joined `lobby`; every byte staged so far has been sent. -/
def lobbyAB : World :=
  flush env5
    (exchange env5 (exchange env5 world0 1 "/nick A\n/join lobby\n") 2 "/nick B\n/join lobby\n") 1

/-- The state `lobbyAB` after `INT_MAX` chat messages were counted. -/
def lobbyAB_int_max : World :=
  { lobbyAB with server := { lobbyAB.server with total_messages := 2147483647 } }

/-! ## Specification vocabulary -/

/-- Two worlds hold the same chat state: they differ at most in the
contents of connections. -/
def same_chat (a b : World) : Prop :=
  a.server = b.server ∧ a.roomAt = b.roomAt ∧ a.userAt = b.userAt ∧
    a.next_room = b.next_room ∧ a.next_user = b.next_user

/-- Every room holds at most `MAX_USERS_PER_ROOM` members. -/
def rooms_bounded (w : World) : Prop :=
  ∀ r : Nat, (w.roomAt r).users.length ≤ MAX_USERS_PER_ROOM

/-- Two worlds agree on the registered users, on the allocator for users
and on every user's nickname, join time and connection. -/
def same_names (a b : World) : Prop :=
  a.server.users = b.server.users ∧ a.next_user = b.next_user ∧
    ∀ v : Nat, (a.userAt v).nickname = (b.userAt v).nickname ∧
      (a.userAt v).join_time = (b.userAt v).join_time ∧
      (a.userAt v).connection = (b.userAt v).connection

/-- Nickname invariant: registered users were allocated, no user is
registered twice, and whenever two
different registered users hold the same nickname, the one registered
later holds the default nickname it was created with. -/
def nick_inv (w : World) : Prop :=
  (∀ u ∈ w.server.users, u < w.next_user) ∧
  w.server.users.Nodup ∧
  w.server.users.Pairwise (fun a b =>
    a ≠ b → (w.userAt a).nickname = (w.userAt b).nickname →
      (w.userAt b).nickname = default_nickname (w.userAt b).join_time)

/-- Membership invariant: a user is listed in a room exactly once when that
room is its current room and not at all otherwise; rooms that are
registered or referred to have been allocated, addresses not yet handed
out for users refer to no room, and registered users have been allocated. -/
def member_inv (w : World) : Prop :=
  (∀ u r : Nat,
    (w.roomAt r).users.count u = if (w.userAt u).current_room = some r then 1 else 0) ∧
  (∀ r ∈ w.server.rooms, r < w.next_room) ∧
  (∀ u r : Nat, (w.userAt u).current_room = some r → r < w.next_room) ∧
  (∀ v : Nat, w.next_user ≤ v → (w.userAt v).current_room = none) ∧
  (∀ u ∈ w.server.users, u < w.next_user)

/-- Member lists and current-room references agree: user `u` occurs in the
member list of room `r` once if `r` is its current room and not at all
otherwise. -/
def memberships_consistent (w : World) : Prop :=
  ∀ u r : Nat,
    (w.roomAt r).users.count u = if (w.userAt u).current_room = some r then 1 else 0

/-- The entries `/list users` prints for a room: the nicknames of its members
in member order (`enhanced_chat.c` 517-525). -/
def users_listing (w : World) (room : Nat) : List CStr :=
  (w.roomAt room).users.map (fun v => (w.userAt v).nickname)

/-- Each entry followed by a newline. -/
def render_lines : List CStr → CStr
  | [] => []
  | l :: ls => l ++ [NL] ++ render_lines ls

/-- Every nickname fits its `char[MAX_NICKNAME_LENGTH]` array. -/
def nicknames_fit (w : World) : Prop :=
  ∀ v : Nat, (w.userAt v).nickname.length < MAX_NICKNAME_LENGTH

/-- User 0 (connection 1) is in `lobby`; user 1 (connection 2) is registered
and in no room.  Both were created at time 5. -/
def lobby1_and_guest : World := exchange env5 lobby1 2 "hi\n"

/-- Two connection heaps agree on everything but the buffers, the activity
stamp and the bytes sent: flags, protocol, state and attached session. -/
def conn_static (f g : Nat → Connection) : Prop :=
  ∀ c : Nat, (f c).keep_alive = (g c).keep_alive ∧
    (f c).read_buffer_size = (g c).read_buffer_size ∧
    (f c).protocol = (g c).protocol ∧ (f c).state = (g c).state ∧
    (f c).protocol_data = (g c).protocol_data ∧ (f c).cleanup_func = (g c).cleanup_func

/-- Two worlds agree on the registered users, the user statistics, the
allocator for users and the connection every user is bound to. -/
def same_registry (a b : World) : Prop :=
  a.server.users = b.server.users ∧
  a.server.total_users_served = b.server.total_users_served ∧
  a.server.peak_concurrent_users = b.server.peak_concurrent_users ∧
  a.server.start_time = b.server.start_time ∧
  a.next_user = b.next_user ∧
  ∀ v : Nat, (a.userAt v).connection = (b.userAt v).connection

/-- The chat server filled to the global user cap: 1000 registered users,
none of them bound to connection 1, which has just received `hi`. -/
def world_full : World :=
  deliver 5
    { world0 with
      server := { world0.server with users := List.range 1000 }
      next_user := 1000 } 1 "hi\n".toList

/-- Lines 404-413 of `chat_process_command`: a regular chat message. -/
def chat_message (env : Env) (w : World) (u : Nat) (input : CStr) : World × Int :=
  match (w.userAt u).current_room with
  | some room =>
    let w2 := chat_broadcast_to_room env w room input u
    ({ w2 with server := { w2.server with total_messages := int_incr w2.server.total_messages } }, 0)
  | none =>
    (chat_send_system_message env w u
      "You must join a room to chat. Type /join lobby".toList, 0)

/-- Quit token test of line 632: the line, read as a C string, is `/quit`,
`quit` or `QUIT`. -/
def is_quit_token (line : List Char) : Prop :=
  cstr line = "/quit".toList ∨ cstr line = "quit".toList ∨ cstr line = "QUIT".toList

/-- The line is a `/quit` command for `chat_process_command`: its first
token is `/quit`. -/
def is_quit_command (line : List Char) : Prop :=
  (strtok_space (cstr line)).1 = some "/quit".toList

instance is_quit_token_decidable (line : List Char) : Decidable (is_quit_token line) := by
  unfold is_quit_token
  infer_instance

instance is_quit_command_decidable (line : List Char) : Decidable (is_quit_command line) := by
  unfold is_quit_command
  infer_instance

/-- Apply `chat_process_command` for `user` to each line in order. -/
def run_lines (env : Env) (user : Nat) (w : World) (lines : List (List Char)) : World :=
  lines.foldl (fun acc l => (chat_process_command env acc user (cstr l)).1) w

/-- The lines that are not empty. -/
def nonempty_lines (lines : List (List Char)) : List (List Char) :=
  lines.filter (fun l => decide (l.length > 0))

/-- The struct `ConnectionPool` (`connection.h`): `connections` is the slot
array, one entry per slot (none for NULL), so `max_connections` is its
length. -/
structure ConnectionPool where
  connections : List (Option Nat)
  active_connections : Int
  total_connections : Int
  deriving DecidableEq, Repr

def ConnectionPool.max_connections (pool : ConnectionPool) : Nat := pool.connections.length

/-- `connection_pool_create` (`connection.c` 4-27); the allocations succeed. -/
def connection_pool_create (max_connections : Nat) : ConnectionPool :=
  { connections := List.replicate max_connections none
    active_connections := 0
    total_connections := 0 }

/-- Index of the first slot that is NULL (loop of lines 135-147). -/
def first_free : List (Option Nat) → Option Nat
  | [] => none
  | none :: _ => some 0
  | some _ :: t => (first_free t).map (fun i => i + 1)

/-- Index of the first slot that holds `conn` (loop of lines 158-171). -/
def slot_of (conn : Nat) : List (Option Nat) → Option Nat
  | [] => none
  | s :: t => if s = some conn then some 0 else (slot_of conn t).map (fun i => i + 1)

/-- `connection_pool_add` (`connection.c` 122-151). -/
def connection_pool_add (pool : ConnectionPool) (conn : Nat) : ConnectionPool × Int :=
  if pool.active_connections ≥ (pool.max_connections : Int) then (pool, -1)
  else
    match first_free pool.connections with
    | some i =>
      ({ pool with
          connections := pool.connections.set i (some conn)
          active_connections := pool.active_connections + 1
          total_connections := int_incr pool.total_connections }, (i : Int))
    | none => (pool, -1)

/-- The process memory seen by the registry: the chat world with the
connection objects, the connection pool, and the connections that have
been passed to `connection_destroy` (socket closed, memory freed), in
order. -/
structure Process where
  world : World
  pool : ConnectionPool
  destroyed : List Nat

/-- `connection_destroy` (`connection.c` 96-120).  `run f d` is the effect of
calling the function at address `f` on the data at address `d`. -/
def connection_destroy (run : Nat → Nat → World → World) (p : Process) (conn : Nat) : Process :=
  let w1 :=
    match (p.world.connAt conn).protocol_data, (p.world.connAt conn).cleanup_func with
    | some d, some f => run f d p.world
    | _, _ => p.world
  { p with world := w1, destroyed := p.destroyed ++ [conn] }

/-- `connection_pool_remove` (`connection.c` 153-174). -/
def connection_pool_remove (run : Nat → Nat → World → World) (p : Process) (conn : Nat) :
    Process :=
  match slot_of conn p.pool.connections with
  | some i =>
    connection_destroy run
      { p with
        pool := { p.pool with
          connections := p.pool.connections.set i none
          active_connections := p.pool.active_connections - 1 } } conn
  | none => p

/-- Idle test of line 203: `(now - conn->last_activity) > timeout`. -/
def is_idle (now : Nat) (timeout : Int) (w : World) (conn : Nat) : Prop :=
  (now : Int) - ((w.connAt conn).last_activity : Int) > timeout

instance is_idle_decidable (now : Nat) (timeout : Int) (w : World) (conn : Nat) :
    Decidable (is_idle now timeout w conn) := by
  unfold is_idle
  infer_instance

/-- Body of the loop of `connection_pool_cleanup_idle` for slot `i`. -/
def cleanup_slot (run : Nat → Nat → World → World) (now : Nat) (timeout : Int) (p : Process)
    (i : Nat) : Process :=
  match p.pool.connections[i]? with
  | some (some conn) =>
    if is_idle now timeout p.world conn then connection_pool_remove run p conn else p
  | _ => p

/-- `connection_pool_cleanup_idle` (`connection.c` 192-215), `now` being the
value of `time(NULL)`. -/
def connection_pool_cleanup_idle (run : Nat → Nat → World → World) (now : Nat) (p : Process)
    (timeout : Int) : Process :=
  (List.range p.pool.max_connections).foldl (cleanup_slot run now timeout) p

/-- The listening socket a connection was accepted on. -/
inductive Listener where
  | http
  | chat
  | other
  deriving DecidableEq, Repr

/-- `server_handle_new_connection` (`server.c` 303-360) from the point where
`accept` and `fcntl` have succeeded and `connection_create` has returned the
new connection at address `conn`; the server statistics are not
represented. -/
def server_handle_new_connection (run : Nat → Nat → World → World) (now : Nat) (p : Process)
    (conn : Nat) (listener : Listener) : Process × Int :=
  let c0 := connection_create now
  let c1 : Connection :=
    match listener with
    | Listener.http => { c0 with protocol := ProtocolType.PROTOCOL_HTTP }
    | Listener.chat => { c0 with protocol := ProtocolType.PROTOCOL_CHAT }
    | Listener.other => c0
  let p1 : Process := { p with world := { p.world with connAt := upd p.world.connAt conn c1 } }
  if (connection_pool_add p1.pool conn).2 < 0 then (connection_destroy run p1 conn, -1)
  else ({ p1 with pool := (connection_pool_add p1.pool conn).1 }, 0)

/-- Number of slots that hold a connection. -/
def occupied (slots : List (Option Nat)) : Nat := slots.countP (fun s => s.isSome)

/-- Registry states reachable from `connection_pool_create`. -/
inductive PoolReachable : Process → Prop where
  | create (w : World) (max_connections : Nat) :
      PoolReachable { world := w, pool := connection_pool_create max_connections, destroyed := [] }
  | traffic (p : Process) (w : World) : PoolReachable p → PoolReachable { p with world := w }
  | add (p : Process) (conn : Nat) :
      PoolReachable p → PoolReachable { p with pool := (connection_pool_add p.pool conn).1 }
  | remove (run : Nat → Nat → World → World) (p : Process) (conn : Nat) :
      PoolReachable p → PoolReachable (connection_pool_remove run p conn)
  | cleanup (run : Nat → Nat → World → World) (now : Nat) (p : Process) (timeout : Int) :
      PoolReachable p → PoolReachable (connection_pool_cleanup_idle run now p timeout)

/-- Whether a slot holds a connection that the idle test of line 203 selects. -/
def idle_in (now : Nat) (timeout : Int) (w : World) (s : Option Nat) : Bool :=
  match s with
  | some conn => decide (is_idle now timeout w conn)
  | none => false

/-- A slot after the sweep according to the specification: emptied when it
holds an idle connection, kept otherwise. -/
def swept (now : Nat) (timeout : Int) (w : World) (s : Option Nat) : Option Nat :=
  if idle_in now timeout w s then none else s

/-- The function table of a program without release callbacks. -/
def no_callbacks : Nat → Nat → World → World := fun _ _ w => w

/-- The state `lobby1` with its connection `1` registered in a registry of
two slots. -/
def lobby1_process : Process :=
  { world := lobby1
    pool := (connection_pool_add (connection_pool_create 2) 1).1
    destroyed := [] }

/-- Connection `1` created at time 5 and connection `2` created at time 6,
registered in a registry of three slots. -/
def process2 : Process :=
  { world :=
      { world0 with
        connAt := upd (upd world0.connAt 1 (connection_create 5)) 2 (connection_create 6) }
    pool :=
      (connection_pool_add (connection_pool_add (connection_pool_create 3) 1).1 2).1
    destroyed := [] }

/-- The registry of `process2` after `INT_MAX` connections were added over
its lifetime. -/
def pool_int_max : ConnectionPool :=
  { process2.pool with total_connections := 2147483647 }

/-- A registry of one slot that holds connection `1`. -/
def process_full : Process :=
  { world := { world0 with connAt := upd world0.connAt 1 (connection_create 5) }
    pool := (connection_pool_add (connection_pool_create 1) 1).1
    destroyed := [] }

/-- Byte-wise `strncmp(a, b, n) == 0`, where `a` and `b` are the bytes each
pointer addresses up to (not including) the NUL that ends its buffer: a
byte read at the end of the list is that NUL. -/
def strncmp_zero : List Char → List Char → Nat → Bool
  | _, _, 0 => true
  | a, b, n + 1 =>
    if a.headD NUL ≠ b.headD NUL then false
    else if a.headD NUL = NUL then true
    else strncmp_zero a.tail b.tail n

/-- `server_detect_protocol` (`server.c` 275-301). -/
def server_detect_protocol (data : List Char) (length : Nat) : ProtocolType :=
  if length < 3 then ProtocolType.PROTOCOL_UNKNOWN
  else if strncmp_zero data "GET ".toList 4 || strncmp_zero data "POST ".toList 5 ||
      strncmp_zero data "HEAD ".toList 5 || strncmp_zero data "PUT ".toList 4 ||
      strncmp_zero data "DELETE ".toList 7 || strncmp_zero data "OPTIONS ".toList 8 then
    ProtocolType.PROTOCOL_HTTP
  else if strncmp_zero data "CHAT ".toList 5 || strncmp_zero data "JOIN ".toList 5 ||
      strncmp_zero data "MSG ".toList 4 then
    ProtocolType.PROTOCOL_CHAT
  else ProtocolType.PROTOCOL_HTTP

/-- A connection with `abcdef` staged of which `ab` has been sent. -/
def conn_partial : Connection :=
  { connection_prepare_response (connection_create 0) "abcdef".toList with
    write_buffer_sent := 2, wire := "ab".toList }

/-- The state `lobby1` with 99 more (empty) rooms registered, so that the
room count is `MAX_ROOMS`. -/
def world_rooms_full : World :=
  { lobby1 with
    server := { lobby1.server with rooms := List.range 100 }
    next_room := 100 }

/-- The step from `w` to `x` created one room named `n` for user `u`: the
room list of `x` is that of `w` followed by one new room, which is named
`n`, has no password, an empty topic and `u` as its only member and is
`u`'s current room; and every room of `w` has kept its name and topic. -/
def room_created (w x : World) (u : Nat) (n : CStr) : Prop :=
  x.server.rooms = w.server.rooms ++ [w.next_room] ∧
  w.next_room ∉ w.server.rooms ∧
  (x.roomAt w.next_room).name = n ∧
  (x.roomAt w.next_room).topic = [] ∧
  (x.roomAt w.next_room).password_protected = false ∧
  (x.roomAt w.next_room).users = [u] ∧
  (x.userAt u).current_room = some w.next_room ∧
  (∀ r ∈ w.server.rooms,
    (x.roomAt r).name = (w.roomAt r).name ∧ (x.roomAt r).topic = (w.roomAt r).topic)

/-- Text that `chat_broadcast_to_room` (281-287) formats for the other
members: the `strftime` stamp followed by what `snprintf` appends in the
rest of the buffer. -/
def broadcast_text (env : Env) (nickname message : CStr) : CStr :=
  let stamp := snprintf BUFFER_SIZE ("[".toList ++ env.hms ++ "] ".toList)
  stamp ++ snprintf (BUFFER_SIZE - stamp.length)
    ("<".toList ++ nickname ++ "> ".toList ++ message ++ [NL])

/-- Text of the confirmation for the sender (line 300). -/
def confirmation_text (name : CStr) : CStr :=
  snprintf BUFFER_SIZE ("Message sent to #".toList ++ name ++ [NL])

/-- `server_handle_connection_read` (`server.c` 362-405) on the connection at
address `conn`, given the outcome `r` of the `recv` call; `http_handler` is
what calling `server->http_handler` does (none for a NULL pointer). -/
def server_handle_connection_read (env : Env)
    (http_handler : Option (World → Nat → World × Int)) (w : World) (conn : Nat)
    (r : RecvResult) : World × Int :=
  let bytes_read := (connection_read env.now r (w.connAt conn)).2
  let w1 : World :=
    { w with connAt := upd w.connAt conn (connection_read env.now r (w.connAt conn)).1 }
  if bytes_read < 0 then (w1, -1)
  else if bytes_read = 0 then (w1, 0)
  else
    let w2 : World :=
      if (w1.connAt conn).protocol = ProtocolType.PROTOCOL_UNKNOWN then
        { w1 with
          connAt := upd w1.connAt conn
            { w1.connAt conn with
              protocol := server_detect_protocol (w1.connAt conn).read_buffer
                (w1.connAt conn).read_buffer_used } }
      else w1
    match (w2.connAt conn).protocol with
    | ProtocolType.PROTOCOL_HTTP =>
      match http_handler with
      | some handler => handler w2 conn
      | none => (w2, 0)
    | ProtocolType.PROTOCOL_CHAT => enhanced_chat_handler env w2 conn
    | _ => (w2, -1)

/-- `server_handle_connection_write` (`server.c` 407-424), given the outcome
`r` of the `send` call of `connection_write`. -/
def server_handle_connection_write (now : Nat) (r : SendResult) (conn : Connection) :
    Connection × Int :=
  let bytes_sent := (connection_write now r conn).2
  let conn1 := (connection_write now r conn).1
  if bytes_sent < 0 then (conn1, -1)
  else if conn1.has_data_to_send = false ∧ conn1.keep_alive = false then
    ({ conn1 with state := ConnectionState.CONN_STATE_CLOSING }, bytes_sent)
  else (conn1, bytes_sent)

/-- Lines 503-533 of `server_run` for the connection `conn` found in a slot:
`read_event` is the outcome of `recv` when the socket is in the read set
(none when it is not), `write_event` the outcome of `send` when it is in the
write set. -/
def server_run_connection (env : Env) (run : Nat → Nat → World → World)
    (http_handler : Option (World → Nat → World × Int)) (p : Process) (conn : Nat)
    (read_event : Option RecvResult) (write_event : Option SendResult) : Process :=
  let r1 : World × Bool :=
    match read_event with
    | some r =>
      ((server_handle_connection_read env http_handler p.world conn r).1,
        decide ((server_handle_connection_read env http_handler p.world conn r).2 < 0))
    | none => (p.world, false)
  let r2 : World × Bool :=
    if r1.2 = false then
      match write_event with
      | some s =>
        ({ r1.1 with
            connAt := upd r1.1.connAt conn
              (server_handle_connection_write env.now s (r1.1.connAt conn)).1 },
          decide ((server_handle_connection_write env.now s (r1.1.connAt conn)).2 < 0))
      | none => r1
    else r1
  if r2.2 = true ∨ (r2.1.connAt conn).state = ConnectionState.CONN_STATE_CLOSING then
    connection_pool_remove run { p with world := r2.1 } conn
  else { p with world := r2.1 }

/-- Connection states reachable from `connection_create` by calls of
`connection_prepare_response` and `connection_write` in which `send` returns
at most the number of bytes it was offered. -/
inductive ConnReachable : Connection → Prop where
  | create (now : Nat) : ConnReachable (connection_create now)
  | stage (conn : Connection) (data : List Char) :
      ConnReachable conn → ConnReachable (connection_prepare_response conn data)
  | write (now : Nat) (conn : Connection) (r : SendResult) :
      ConnReachable conn → (∀ k, r = SendResult.sent k → k ≤ write_remaining conn) →
      ConnReachable (connection_write now r conn).1

/-- The commands `chat_process_command` knows (the `strcmp` chain of lines
360-401). -/
def command_table : List CStr :=
  ["/help".toList, "/join".toList, "/leave".toList, "/nick".toList, "/list".toList,
    "/stats".toList, "/time".toList, "/quit".toList]

/-- The tab byte. -/
def TAB : Char := Char.ofNat 9

/-- First token of a line in the words of the specification ("first
whitespace-delimited token"): leading whitespace, space or tab, is skipped
and the token ends at the first following space or tab. -/
def spec_first_token (line : CStr) : Option CStr :=
  let s := line.dropWhile (fun c => c == ' ' || c == TAB)
  if s = [] then none else some (s.takeWhile (fun c => !(c == ' ' || c == TAB)))

/-- Between `w` and `x` no room was removed or renamed: the room list of
`w` is an initial part of that of `x`, no room address was given back to
the allocator, and every room object allocated in `w` has kept its name. -/
def rooms_kept (w x : World) : Prop :=
  w.server.rooms <+: x.server.rooms ∧ w.next_room ≤ x.next_room ∧
    ∀ r, r < w.next_room → (x.roomAt r).name = (w.roomAt r).name

/-- The numeric settings of `ServerConfig` (`config.h`) that the server and
the chat section of the configuration file deal with; paths, logging, HTTP
and security settings are not represented. -/
structure ServerConfig where
  http_port : Int
  chat_port : Int
  max_connections : Int
  max_rooms : Int
  max_users_per_room : Int
  idle_timeout : Int
  deriving DecidableEq, Repr

/-- `config_set_defaults` (`config.c` 4-35). -/
def config_set_defaults : ServerConfig :=
  { http_port := 8080
    chat_port := 8081
    max_connections := 1000
    max_rooms := 100
    max_users_per_room := 50
    idle_timeout := 300 }

/-- Lines 210-224 of `config_load`: one `key = value` line of the section
`chat`, where `value` is what `atoi` made of the text. -/
def config_load_chat (config : ServerConfig) (key : CStr) (value : Int) : ServerConfig :=
  if key = "max_rooms".toList then { config with max_rooms := value }
  else if key = "max_users_per_room".toList then { config with max_users_per_room := value }
  else if key = "idle_timeout".toList then { config with idle_timeout := value }
  else config

/-- `config_validate` (`config.c` 246-286); `document_root_ok` says whether
`stat` finds a directory at the document root. -/
def config_validate (config : ServerConfig) (document_root_ok : Bool) : Int :=
  if config.http_port < 1 ∨ config.http_port > 65535 then -1
  else if config.chat_port < 1 ∨ config.chat_port > 65535 then -1
  else if config.http_port = config.chat_port then -1
  else if config.max_connections < 1 ∨ config.max_connections > 10000 then -1
  else if document_root_ok = false then -1
  else 0

/-- A configuration file that sets `max_users_per_room = 2` and
`max_rooms = 1` in its section `chat`. -/
def config_small : ServerConfig :=
  config_load_chat (config_load_chat config_set_defaults "max_users_per_room".toList 2)
    "max_rooms".toList 1

/-- No room is password-protected. -/
def rooms_open (w : World) : Prop :=
  ∀ r : Nat, (w.roomAt r).password_protected = false

/-- The state after the connections 1 to 50 each made first contact with the
line `/join lobby`: the users 0 to 49 are the members of `lobby`. -/
def lobby50 : World :=
  (List.range 50).foldl (fun w i => exchange env5 w (i + 1) "/join lobby\n") world0

/-- The state `lobby50` after connection 51 made first contact with the line
`hi`: user 50 is registered and in no room. -/
def lobby50_guest : World := exchange env5 lobby50 51 "hi\n"

/-- Away from `INT_MAX` the increment of an `int` counter adds one. -/
theorem int_incr_below (x : Int) (h : x ≠ INT_MAX) : int_incr x = x + 1 := by
  have h2 : ¬ x = 2147483647 := h
  unfold int_incr
  rw [if_neg h2]

@[simp] theorem upd_same {α : Type} (f : Nat → α) (a : Nat) (v : α) : upd f a v a = v := by
  simp [upd]

@[simp] theorem upd_other {α : Type} (f : Nat → α) (a x : Nat) (v : α) (h : x ≠ a) :
    upd f a v x = f x := by
  simp [upd, h]

@[simp] theorem stage_server (w : World) (c : Nat) (d : List Char) :
    (stage w c d).server = w.server := rfl

@[simp] theorem stage_roomAt (w : World) (c : Nat) (d : List Char) :
    (stage w c d).roomAt = w.roomAt := rfl

@[simp] theorem stage_userAt (w : World) (c : Nat) (d : List Char) :
    (stage w c d).userAt = w.userAt := rfl

@[simp] theorem stage_next_user (w : World) (c : Nat) (d : List Char) :
    (stage w c d).next_user = w.next_user := rfl

@[simp] theorem stage_next_room (w : World) (c : Nat) (d : List Char) :
    (stage w c d).next_room = w.next_room := rfl

@[simp] theorem flush_server (env : Env) (w : World) (c : Nat) :
    (flush env w c).server = w.server := rfl

@[simp] theorem flush_roomAt (env : Env) (w : World) (c : Nat) :
    (flush env w c).roomAt = w.roomAt := rfl

@[simp] theorem flush_userAt (env : Env) (w : World) (c : Nat) :
    (flush env w c).userAt = w.userAt := rfl

@[simp] theorem flush_next_user (env : Env) (w : World) (c : Nat) :
    (flush env w c).next_user = w.next_user := rfl

@[simp] theorem flush_next_room (env : Env) (w : World) (c : Nat) :
    (flush env w c).next_room = w.next_room := rfl

@[simp] theorem clear_read_buffer_server (w : World) (c : Nat) :
    (clear_read_buffer w c).server = w.server := rfl

@[simp] theorem clear_read_buffer_roomAt (w : World) (c : Nat) :
    (clear_read_buffer w c).roomAt = w.roomAt := rfl

@[simp] theorem clear_read_buffer_userAt (w : World) (c : Nat) :
    (clear_read_buffer w c).userAt = w.userAt := rfl

@[simp] theorem clear_read_buffer_next_user (w : World) (c : Nat) :
    (clear_read_buffer w c).next_user = w.next_user := rfl

@[simp] theorem clear_read_buffer_next_room (w : World) (c : Nat) :
    (clear_read_buffer w c).next_room = w.next_room := rfl

theorem clear_read_buffer_read (w : World) (c : Nat) :
    ((clear_read_buffer w c).connAt c).read_buffer = [] := by
  simp [clear_read_buffer]

/-- Every exit of the line loop of `enhanced_chat_handler` leaves the read
buffer of the connection empty. -/
theorem chat_handler_lines_read_buffer (env : Env) (conn user : Nat) (lines : List (List Char)) :
    ∀ w : World, ((chat_handler_lines env conn user w lines).1.connAt conn).read_buffer = [] := by
  induction lines with
  | nil => intro w; simp [chat_handler_lines, clear_read_buffer_read]
  | cons line rest ih =>
    intro w
    unfold chat_handler_lines
    by_cases h1 : line.length > 0
    · by_cases h2 : cstr line = "/quit".toList ∨ cstr line = "quit".toList ∨
          cstr line = "QUIT".toList
      · simp only [h1, h2, if_true]
        exact clear_read_buffer_read _ _
      · simp only [h1, h2, if_true, if_false]
        by_cases h3 : (chat_process_command env w user (cstr line)).2 < 0
        · simp only [h3, if_true]
          exact clear_read_buffer_read _ _
        · simp only [h3, if_false]
          exact ih _
    · simp only [h1, if_false]
      exact ih _

/-- Whenever `enhanced_chat_handler` reports "continue" (1), the read buffer
of the connection is empty afterwards, whatever it held. -/
theorem enhanced_chat_handler_read_buffer (env : Env) (w : World) (conn : Nat)
    (h : (enhanced_chat_handler env w conn).2 = 1) :
    ((enhanced_chat_handler env w conn).1.connAt conn).read_buffer_used = 0 := by
  unfold enhanced_chat_handler at h ⊢
  by_cases h0 : (w.connAt conn).read_buffer_used = 0
  · simp [h0] at h
  · simp only [h0, if_false] at h ⊢
    cases hu : chat_find_user_by_connection w conn with
    | some user =>
      simp only [hu] at h ⊢
      simp [Connection.read_buffer_used, chat_handler_lines_read_buffer]
    | none =>
      simp only [hu] at h ⊢
      by_cases hfull : w.server.users.length ≥ MAX_CONNECTIONS
      · simp [hfull] at h
      · simp only [hfull, if_false] at h ⊢
        simp [Connection.read_buffer_used, chat_handler_lines_read_buffer]

/-! ## Operations that touch connections only -/

theorem same_chat_refl (w : World) : same_chat w w := ⟨rfl, rfl, rfl, rfl, rfl⟩

theorem same_chat_trans {a b c : World} (h1 : same_chat a b) (h2 : same_chat b c) :
    same_chat a c := by
  obtain ⟨h11, h12, h13, h14, h15⟩ := h1
  obtain ⟨h21, h22, h23, h24, h25⟩ := h2
  exact ⟨h11.trans h21, h12.trans h22, h13.trans h23, h14.trans h24, h15.trans h25⟩

theorem stage_same (w : World) (c : Nat) (d : List Char) : same_chat (stage w c d) w :=
  ⟨rfl, rfl, rfl, rfl, rfl⟩

theorem flush_same (env : Env) (w : World) (c : Nat) : same_chat (flush env w c) w :=
  ⟨rfl, rfl, rfl, rfl, rfl⟩

theorem clear_read_buffer_same (w : World) (c : Nat) : same_chat (clear_read_buffer w c) w :=
  ⟨rfl, rfl, rfl, rfl, rfl⟩

theorem chat_send_system_message_same (env : Env) (w : World) (u : Nat) (m : CStr) :
    same_chat (chat_send_system_message env w u m) w :=
  ⟨rfl, rfl, rfl, rfl, rfl⟩

/-- A loop whose body keeps the chat state keeps the chat state. -/
theorem foldl_same (f : World → Nat → World) (hf : ∀ acc u, same_chat (f acc u) acc) :
    ∀ (l : List Nat) (w : World), same_chat (l.foldl f w) w := by
  intro l
  induction l with
  | nil => intro w; exact same_chat_refl w
  | cons a t ih =>
    intro w
    simp only [List.foldl_cons]
    exact same_chat_trans (ih _) (hf w a)

theorem chat_announce_to_room_same (w : World) (room : Nat) (m : CStr) :
    same_chat (chat_announce_to_room w room m) w := by
  unfold chat_announce_to_room
  exact foldl_same _ (fun acc u => stage_same _ _ _) _ _

theorem chat_broadcast_to_room_same (env : Env) (w : World) (room : Nat) (m : CStr)
    (sender : Nat) : same_chat (chat_broadcast_to_room env w room m sender) w := by
  unfold chat_broadcast_to_room
  refine same_chat_trans (stage_same _ _ _) ?_
  refine foldl_same _ (fun acc u => ?_) _ _
  split_ifs
  · exact stage_same _ _ _
  · exact same_chat_refl _

theorem chat_handle_help_command_same (env : Env) (w : World) (u : Nat) :
    same_chat (chat_handle_help_command env w u) w :=
  ⟨rfl, rfl, rfl, rfl, rfl⟩

theorem chat_handle_stats_command_same (env : Env) (w : World) (u : Nat) :
    same_chat (chat_handle_stats_command env w u) w :=
  ⟨rfl, rfl, rfl, rfl, rfl⟩

theorem chat_handle_list_command_same (env : Env) (w : World) (u : Nat) (args : Option CStr) :
    same_chat (chat_handle_list_command env w u args) w := by
  unfold chat_handle_list_command
  split_ifs
  · exact stage_same _ _ _
  · cases (w.userAt u).current_room with
    | none => exact chat_send_system_message_same _ _ _ _
    | some room => exact stage_same _ _ _
  · exact chat_send_system_message_same _ _ _ _

/-! ## Effect of leaving and joining on the chat state -/

theorem chat_leave_room_none (env : Env) (w : World) (u : Nat)
    (h : (w.userAt u).current_room = none) :
    chat_leave_room env w u
      = (chat_send_system_message env w u "You are not in a room".toList, -1) := by
  unfold chat_leave_room
  simp only [h]

theorem chat_leave_room_roomAt (env : Env) (w : World) (u r : Nat)
    (h : (w.userAt u).current_room = some r) :
    (chat_leave_room env w u).1.roomAt
      = upd w.roomAt r { w.roomAt r with users := (w.roomAt r).users.erase u } := by
  unfold chat_leave_room
  simp only [h]
  exact (chat_announce_to_room_same _ _ _).2.1

theorem chat_leave_room_userAt (env : Env) (w : World) (u r : Nat)
    (h : (w.userAt u).current_room = some r) :
    (chat_leave_room env w u).1.userAt
      = upd w.userAt u { w.userAt u with current_room := none } := by
  unfold chat_leave_room
  simp only [h]
  show upd (chat_announce_to_room _ _ _).userAt u _ = _
  rw [(chat_announce_to_room_same _ _ _).2.2.1]

theorem chat_leave_room_server (env : Env) (w : World) (u : Nat) :
    (chat_leave_room env w u).1.server = w.server ∧
    (chat_leave_room env w u).1.next_room = w.next_room ∧
    (chat_leave_room env w u).1.next_user = w.next_user := by
  unfold chat_leave_room
  cases h : (w.userAt u).current_room with
  | none => exact ⟨rfl, rfl, rfl⟩
  | some r =>
    simp only []
    exact ⟨(chat_announce_to_room_same _ _ _).1, (chat_announce_to_room_same _ _ _).2.2.2.1,
      (chat_announce_to_room_same _ _ _).2.2.2.2⟩

theorem chat_leave_room_length_le (env : Env) (w : World) (u r : Nat) :
    ((chat_leave_room env w u).1.roomAt r).users.length ≤ (w.roomAt r).users.length := by
  cases h : (w.userAt u).current_room with
  | none => rw [chat_leave_room_none env w u h]; exact le_refl _
  | some r0 =>
    rw [chat_leave_room_roomAt env w u r0 h]
    by_cases hr : r = r0
    · subst hr
      simp only [upd_same]
      exact (List.erase_sublist _ _).length_le
    · simp only [upd_other _ _ _ _ hr]
      exact le_refl _

theorem leave_current_room_server (env : Env) (w : World) (u : Nat) :
    (leave_current_room env w u).server = w.server ∧
    (leave_current_room env w u).next_room = w.next_room ∧
    (leave_current_room env w u).next_user = w.next_user := by
  unfold leave_current_room
  split_ifs
  · exact chat_leave_room_server env w u
  · exact ⟨rfl, rfl, rfl⟩

theorem leave_current_room_length_le (env : Env) (w : World) (u r : Nat) :
    ((leave_current_room env w u).roomAt r).users.length ≤ (w.roomAt r).users.length := by
  unfold leave_current_room
  split_ifs
  · exact chat_leave_room_length_le env w u r
  · exact le_refl _

theorem chat_join_room_found_roomAt (env : Env) (w : World) (u room : Nat)
    (password : Option CStr)
    (hpw : password_rejected (w.roomAt room) password = false)
    (hcap : (w.roomAt room).users.length < MAX_USERS_PER_ROOM) :
    (chat_join_room_found env w u room password).1.roomAt
      = upd (leave_current_room env w u).roomAt room
          { (leave_current_room env w u).roomAt room with
            users := ((leave_current_room env w u).roomAt room).users ++ [u] } := by
  unfold chat_join_room_found
  simp only [hpw, Bool.false_eq_true, if_false, ge_iff_le, Nat.not_le.mpr hcap]
  exact (chat_announce_to_room_same _ _ _).2.1

theorem chat_join_room_found_userAt (env : Env) (w : World) (u room : Nat)
    (password : Option CStr)
    (hpw : password_rejected (w.roomAt room) password = false)
    (hcap : (w.roomAt room).users.length < MAX_USERS_PER_ROOM) :
    (chat_join_room_found env w u room password).1.userAt
      = upd (leave_current_room env w u).userAt u
          { (leave_current_room env w u).userAt u with current_room := some room } := by
  unfold chat_join_room_found
  simp only [hpw, Bool.false_eq_true, if_false, ge_iff_le, Nat.not_le.mpr hcap]
  exact (chat_announce_to_room_same _ _ _).2.2.1

theorem chat_join_room_found_ret (env : Env) (w : World) (u room : Nat)
    (password : Option CStr)
    (hpw : password_rejected (w.roomAt room) password = false)
    (hcap : (w.roomAt room).users.length < MAX_USERS_PER_ROOM) :
    (chat_join_room_found env w u room password).2 = 0 := by
  unfold chat_join_room_found
  simp only [hpw, Bool.false_eq_true, if_false, ge_iff_le, Nat.not_le.mpr hcap]

theorem chat_join_room_found_server (env : Env) (w : World) (u room : Nat)
    (password : Option CStr) :
    (chat_join_room_found env w u room password).1.server = w.server ∧
    (chat_join_room_found env w u room password).1.next_room = w.next_room ∧
    (chat_join_room_found env w u room password).1.next_user = w.next_user := by
  unfold chat_join_room_found
  split_ifs
  · exact ⟨rfl, rfl, rfl⟩
  · exact ⟨rfl, rfl, rfl⟩
  · have h := leave_current_room_server env w u
    refine ⟨?_, ?_, ?_⟩
    · exact (chat_announce_to_room_same _ _ _).1.trans h.1
    · exact (chat_announce_to_room_same _ _ _).2.2.2.1.trans h.2.1
    · exact (chat_announce_to_room_same _ _ _).2.2.2.2.trans h.2.2

/-! ## The per-room cap is an invariant -/

theorem chat_leave_room_bounded (env : Env) (w : World) (u : Nat) (h : rooms_bounded w) :
    rooms_bounded (chat_leave_room env w u).1 :=
  fun r => le_trans (chat_leave_room_length_le env w u r) (h r)

theorem chat_join_room_found_bounded (env : Env) (w : World) (u room : Nat)
    (password : Option CStr) (h : rooms_bounded w) :
    rooms_bounded (chat_join_room_found env w u room password).1 := by
  by_cases hpw : password_rejected (w.roomAt room) password = true
  · unfold chat_join_room_found
    simp only [hpw, if_true]
    exact h
  · have hpw2 : password_rejected (w.roomAt room) password = false := by
      simpa using hpw
    by_cases hcap : (w.roomAt room).users.length ≥ MAX_USERS_PER_ROOM
    · unfold chat_join_room_found
      simp only [hpw, hcap, if_true, if_false]
      exact h
    · have hlt : (w.roomAt room).users.length < MAX_USERS_PER_ROOM := Nat.not_le.mp hcap
      intro r
      rw [chat_join_room_found_roomAt env w u room password hpw2 hlt]
      by_cases hr : r = room
      · subst hr
        simp only [upd_same, List.length_append, List.length_singleton]
        have := leave_current_room_length_le env w u r
        omega
      · simp only [upd_other _ _ _ _ hr]
        exact le_trans (leave_current_room_length_le env w u r) (h r)

theorem chat_join_room_bounded (env : Env) (w : World) (u : Nat) (name : CStr)
    (password : Option CStr) (h : rooms_bounded w) :
    rooms_bounded (chat_join_room env w u name password).1 := by
  unfold chat_join_room
  cases hf : chat_find_room w name with
  | some room => exact chat_join_room_found_bounded env w u room password h
  | none =>
    simp only []
    split_ifs
    · exact h
    · apply chat_join_room_found_bounded
      intro r
      show ((upd w.roomAt w.next_room _) r).users.length ≤ _
      by_cases hr : r = w.next_room
      · subst hr
        simp [ChatRoom.zero]
      · simp only [upd_other _ _ _ _ hr]
        exact h r

theorem rooms_bounded_of_roomAt {a b : World} (h : a.roomAt = b.roomAt)
    (hb : rooms_bounded b) : rooms_bounded a := by
  intro r
  rw [h]
  exact hb r

theorem chat_handle_nick_command_frame (env : Env) (w : World) (u : Nat) (args : Option CStr) :
    (chat_handle_nick_command env w u args).server = w.server ∧
    (chat_handle_nick_command env w u args).roomAt = w.roomAt ∧
    (chat_handle_nick_command env w u args).next_room = w.next_room ∧
    (chat_handle_nick_command env w u args).next_user = w.next_user := by
  unfold chat_handle_nick_command
  cases args with
  | none => exact ⟨rfl, rfl, rfl, rfl⟩
  | some a =>
    simp only []
    split_ifs
    · exact ⟨rfl, rfl, rfl, rfl⟩
    · exact ⟨rfl, rfl, rfl, rfl⟩
    · exact ⟨rfl, rfl, rfl, rfl⟩
    · split
      · exact ⟨(chat_announce_to_room_same _ _ _).1, (chat_announce_to_room_same _ _ _).2.1,
          (chat_announce_to_room_same _ _ _).2.2.2.1, (chat_announce_to_room_same _ _ _).2.2.2.2⟩
      · exact ⟨rfl, rfl, rfl, rfl⟩

theorem chat_handle_join_command_bounded (env : Env) (w : World) (u : Nat)
    (args : Option CStr) (h : rooms_bounded w) :
    rooms_bounded (chat_handle_join_command env w u args) := by
  unfold chat_handle_join_command
  cases args with
  | none => exact h
  | some a =>
    simp only []
    split
    · exact chat_join_room_bounded _ _ _ _ _ h
    · exact h

theorem chat_process_command_bounded (env : Env) (w : World) (u : Nat) (input : CStr)
    (h : rooms_bounded w) : rooms_bounded (chat_process_command env w u input).1 := by
  unfold chat_process_command
  split
  · exact h
  · have h1 : rooms_bounded
        ({ w with userAt := upd w.userAt u { w.userAt u with last_activity := env.now } } :
          World) := h
    simp only []
    split_ifs
    · exact h1
    · exact chat_handle_join_command_bounded _ _ _ _ h1
    · exact chat_leave_room_bounded _ _ _ h1
    · exact rooms_bounded_of_roomAt (chat_handle_nick_command_frame _ _ _ _).2.1 h1
    · exact rooms_bounded_of_roomAt (chat_handle_list_command_same _ _ _ _).2.1 h1
    · exact h1
    · exact h1
    · exact h1
    · exact h1
    · split
      · exact rooms_bounded_of_roomAt (chat_broadcast_to_room_same _ _ _ _ _).2.1 h1
      · exact h1

theorem chat_handler_lines_bounded (env : Env) (conn user : Nat) (lines : List (List Char)) :
    ∀ w : World, rooms_bounded w → rooms_bounded (chat_handler_lines env conn user w lines).1 := by
  induction lines with
  | nil => intro w h; exact h
  | cons line rest ih =>
    intro w h
    unfold chat_handler_lines
    by_cases h1 : line.length > 0
    · by_cases h2 : cstr line = "/quit".toList ∨ cstr line = "quit".toList ∨
          cstr line = "QUIT".toList
      · simp only [h1, h2, if_true]
        exact h
      · simp only [h1, h2, if_true, if_false]
        have hp := chat_process_command_bounded env w user (cstr line) h
        by_cases h3 : (chat_process_command env w user (cstr line)).2 < 0
        · simp only [h3, if_true]
          exact hp
        · simp only [h3, if_false]
          exact ih _ hp
    · simp only [h1, if_false]
      exact ih _ h

theorem chat_register_user_roomAt (env : Env) (w : World) (conn : Nat) :
    (chat_register_user env w conn).1.roomAt = w.roomAt := by
  unfold chat_register_user
  simp only [flush_roomAt, stage_roomAt]
  split_ifs <;> rfl

theorem enhanced_chat_handler_bounded (env : Env) (w : World) (conn : Nat)
    (h : rooms_bounded w) : rooms_bounded (enhanced_chat_handler env w conn).1 := by
  unfold enhanced_chat_handler
  by_cases h0 : (w.connAt conn).read_buffer_used = 0
  · simp only [h0, if_true]
    exact h
  · simp only [h0, if_false]
    cases hu : chat_find_user_by_connection w conn with
    | some user => exact chat_handler_lines_bounded _ _ _ _ _ h
    | none =>
      simp only []
      by_cases hfull : w.server.users.length ≥ MAX_CONNECTIONS
      · simp only [hfull, if_true]
        exact h
      · simp only [hfull, if_false]
        exact chat_handler_lines_bounded _ _ _ _ _
          (rooms_bounded_of_roomAt (chat_register_user_roomAt env w conn) h)

theorem chat_server_create_bounded (env : Env) (connAt : Nat → Connection) :
    rooms_bounded (chat_server_create env connAt) := by
  intro r
  simp only [chat_server_create, chat_room_create, upd, ChatRoom.zero]
  split_ifs <;> simp

/-- Reachable chat states satisfy the per-room cap. -/
theorem reachable_rooms_bounded {w : World} (h : Reachable w) : rooms_bounded w := by
  induction h with
  | init env connAt => exact chat_server_create_bounded env connAt
  | network w connAt _ ih => exact ih
  | handler env w conn _ ih => exact enhanced_chat_handler_bounded env w conn ih

theorem fmt_d_length_le (n e : Nat) (he : 0 < e) (h : n < 10 ^ e) :
    (fmt_d n).length ≤ e := by
  unfold fmt_d Nat.toDigits
  exact Nat.toDigitsCore_length 10 (by norm_num) (n + 1) n e h he

/-! ## Replies -/

theorem flush_stage_output (env : Env) (w : World) (c : Nat) (d : List Char) (hd : d ≠ []) :
    ((flush env (stage w c d) c).connAt c).output = (w.connAt c).wire ++ d := by
  have hlen : d.length ≠ 0 := by
    intro h; exact hd (List.length_eq_zero.mp h)
  have hrem : write_remaining (connection_prepare_response (w.connAt c) d) = d.length := by
    simp [write_remaining, connection_prepare_response, hlen, Connection.write_buffer_used]
  simp only [flush, stage, upd_same, hrem]
  cases hs : env.send c d.length with
  | sent k =>
    cases k with
    | zero =>
      simp [connection_write, connection_prepare_response, hlen, write_remaining,
        Connection.write_buffer_used, Connection.output]
    | succ k =>
      by_cases hk : k + 1 ≥ d.length
      · simp [connection_write, connection_prepare_response, hlen, write_remaining,
          Connection.write_buffer_used, Connection.output, hk, List.take_of_length_le hk]
      · simp [connection_write, connection_prepare_response, hlen, write_remaining,
          Connection.write_buffer_used, Connection.output, hk]
  | wouldBlock =>
    simp [connection_write, connection_prepare_response, hlen, write_remaining,
      Connection.write_buffer_used, Connection.output]
  | error =>
    simp [connection_write, connection_prepare_response, hlen, write_remaining,
      Connection.write_buffer_used, Connection.output]

theorem flush_stage_other (env : Env) (w : World) (c c' : Nat) (d : List Char) (h : c' ≠ c) :
    (flush env (stage w c d) c).connAt c' = w.connAt c' := by
  simp [flush, stage, upd_other _ _ _ _ h]

/-- The reply line of `chat_send_system_message` for a short message. -/
theorem system_line (m : CStr) (h : m.length + 5 < BUFFER_SIZE) :
    snprintf BUFFER_SIZE ("*** ".toList ++ m ++ [NL]) = "*** ".toList ++ m ++ [NL] := by
  unfold snprintf
  apply List.take_of_length_le
  have h4 : "*** ".toList.length = 4 := by decide
  simp only [List.length_append, List.length_singleton, h4]
  unfold BUFFER_SIZE at h ⊢
  omega

theorem chat_send_system_message_output (env : Env) (w : World) (u : Nat) (m : CStr)
    (h : m.length + 5 < BUFFER_SIZE) :
    ((chat_send_system_message env w u m).connAt (w.userAt u).connection).output
      = (w.connAt (w.userAt u).connection).wire ++ ("*** ".toList ++ m ++ [NL]) := by
  unfold chat_send_system_message
  simp only [system_line m h]
  apply flush_stage_output
  simp

theorem chat_send_system_message_other (env : Env) (w : World) (u c : Nat) (m : CStr)
    (h : c ≠ (w.userAt u).connection) :
    (chat_send_system_message env w u m).connAt c = w.connAt c := by
  unfold chat_send_system_message
  exact flush_stage_other _ _ _ _ _ h

theorem reachable_exchange (env : Env) (w : World) (c : Nat) (d : String) (h : Reachable w) :
    Reachable (exchange env w c d) :=
  Reachable.handler env _ c (Reachable.network w _ h)

/-! ## Nicknames -/

theorem chat_find_user_by_nickname_isSome (w : World) (s : CStr) :
    (chat_find_user_by_nickname w s).isSome = true
      ↔ ∃ v ∈ w.server.users, (w.userAt v).nickname = s := by
  unfold chat_find_user_by_nickname
  simp [List.find?_isSome]

/-- The three rejections of `chat_handle_nick_command`. -/
theorem chat_handle_nick_command_rejected (env : Env) (w : World) (u : Nat) (s : CStr) :
    (s = [] → chat_handle_nick_command env w u (some s)
        = chat_send_system_message env w u "Usage: /nick <new_nickname>".toList) ∧
    (s ≠ [] → s.length ≥ MAX_NICKNAME_LENGTH → chat_handle_nick_command env w u (some s)
        = chat_send_system_message env w u "Nickname too long".toList) ∧
    (s ≠ [] → s.length < MAX_NICKNAME_LENGTH →
      (∃ v ∈ w.server.users, (w.userAt v).nickname = s) →
      chat_handle_nick_command env w u (some s)
        = chat_send_system_message env w u "Nickname already taken".toList) := by
  refine ⟨?_, ?_, ?_⟩
  · intro h
    subst h
    simp [chat_handle_nick_command]
  · intro h1 h2
    have h0 : s.length ≠ 0 := fun h => h1 (List.length_eq_zero.mp h)
    unfold chat_handle_nick_command
    simp only [h0, h2, if_true, if_false]
  · intro h1 h2 h3
    have h0 : s.length ≠ 0 := fun h => h1 (List.length_eq_zero.mp h)
    have h4 : ¬ s.length ≥ MAX_NICKNAME_LENGTH := Nat.not_le.mpr h2
    have h5 := (chat_find_user_by_nickname_isSome w s).mpr h3
    unfold chat_handle_nick_command
    simp only [h0, h4, h5, if_true, if_false]

/-- A successful `chat_handle_nick_command` rewrites exactly the nickname of
the requester. -/
theorem chat_handle_nick_command_accepted (env : Env) (w : World) (u : Nat) (s : CStr)
    (h1 : s ≠ []) (h2 : s.length < MAX_NICKNAME_LENGTH)
    (h3 : ¬ ∃ v ∈ w.server.users, (w.userAt v).nickname = s) :
    (chat_handle_nick_command env w u (some s)).userAt
      = upd w.userAt u { w.userAt u with nickname := s } := by
  have h0 : s.length ≠ 0 := fun h => h1 (List.length_eq_zero.mp h)
  have h4 : ¬ s.length ≥ MAX_NICKNAME_LENGTH := Nat.not_le.mpr h2
  have h5 : ¬ (chat_find_user_by_nickname w s).isSome = true :=
    fun h => h3 ((chat_find_user_by_nickname_isSome w s).mp h)
  unfold chat_handle_nick_command
  simp only [h0, h4, h5, Bool.false_eq_true, if_false]
  split
  · exact (chat_announce_to_room_same _ _ _).2.2.1
  · rfl

theorem same_names_refl (w : World) : same_names w w :=
  ⟨rfl, rfl, fun _ => ⟨rfl, rfl, rfl⟩⟩

theorem same_names_trans {a b c : World} (h1 : same_names a b) (h2 : same_names b c) :
    same_names a c :=
  ⟨h1.1.trans h2.1, h1.2.1.trans h2.2.1,
    fun v => ⟨(h1.2.2 v).1.trans (h2.2.2 v).1, (h1.2.2 v).2.1.trans (h2.2.2 v).2.1,
      (h1.2.2 v).2.2.trans (h2.2.2 v).2.2⟩⟩

theorem same_names_of_same_chat {a b : World} (h : same_chat a b) : same_names a b := by
  obtain ⟨h1, _, h3, _, h5⟩ := h
  exact ⟨by rw [h1], h5, fun v => by rw [h3]; exact ⟨rfl, rfl, rfl⟩⟩

theorem nick_inv_of_same_names {a b : World} (h : same_names a b) (hb : nick_inv b) :
    nick_inv a := by
  obtain ⟨h1, h2, h3⟩ := h
  refine ⟨?_, ?_, ?_⟩
  · rw [h1, h2]; exact hb.1
  · rw [h1]; exact hb.2.1
  · rw [h1]
    refine hb.2.2.imp ?_
    intro x y hxy hne heq
    rw [(h3 x).1, (h3 y).1] at heq
    rw [(h3 y).1, (h3 y).2.1]
    exact hxy hne heq

theorem chat_leave_room_same_names (env : Env) (w : World) (u : Nat) :
    same_names (chat_leave_room env w u).1 w := by
  have hs := chat_leave_room_server env w u
  refine ⟨by rw [hs.1], hs.2.2, ?_⟩
  intro v
  cases h : (w.userAt u).current_room with
  | none => rw [chat_leave_room_none env w u h]; exact ⟨rfl, rfl, rfl⟩
  | some r =>
    rw [chat_leave_room_userAt env w u r h]
    by_cases hv : v = u
    · subst hv; simp
    · simp [upd_other _ _ _ _ hv]

theorem leave_current_room_same_names (env : Env) (w : World) (u : Nat) :
    same_names (leave_current_room env w u) w := by
  unfold leave_current_room
  split_ifs
  · exact chat_leave_room_same_names env w u
  · exact same_names_refl w

/-- `chat_join_room_found` either only sends a system message and fails, or
passes both checks. -/
theorem chat_join_room_found_cases (env : Env) (w : World) (u room : Nat)
    (password : Option CStr) :
    (∃ m, chat_join_room_found env w u room password
        = (chat_send_system_message env w u m, -1)) ∨
    (password_rejected (w.roomAt room) password = false ∧
      (w.roomAt room).users.length < MAX_USERS_PER_ROOM) := by
  by_cases hpw : password_rejected (w.roomAt room) password = true
  · left
    refine ⟨"Incorrect room password".toList, ?_⟩
    unfold chat_join_room_found
    simp only [hpw, if_true]
  · have hpw2 : password_rejected (w.roomAt room) password = false := by simpa using hpw
    by_cases hcap : (w.roomAt room).users.length ≥ MAX_USERS_PER_ROOM
    · left
      refine ⟨"Room is full".toList, ?_⟩
      unfold chat_join_room_found
      simp only [hpw2, Bool.false_eq_true, hcap, if_true, if_false]
    · right
      exact ⟨hpw2, Nat.not_le.mp hcap⟩

theorem chat_join_room_found_same_names (env : Env) (w : World) (u room : Nat)
    (password : Option CStr) :
    same_names (chat_join_room_found env w u room password).1 w := by
  rcases chat_join_room_found_cases env w u room password with ⟨m, hm⟩ | ⟨hpw, hcap⟩
  · rw [hm]
    exact same_names_of_same_chat (chat_send_system_message_same _ _ _ _)
  · have hs := chat_join_room_found_server env w u room password
    have hl := leave_current_room_same_names env w u
    refine ⟨by rw [hs.1], hs.2.2, ?_⟩
    intro v
    rw [chat_join_room_found_userAt env w u room password hpw hcap]
    by_cases hv : v = u
    · subst hv
      simp only [upd_same]
      exact hl.2.2 v
    · simp only [upd_other _ _ _ _ hv]
      exact hl.2.2 v

theorem chat_join_room_same_names (env : Env) (w : World) (u : Nat) (name : CStr)
    (password : Option CStr) :
    same_names (chat_join_room env w u name password).1 w := by
  unfold chat_join_room
  cases hf : chat_find_room w name with
  | some room => exact chat_join_room_found_same_names env w u room password
  | none =>
    simp only []
    split_ifs
    · exact same_names_of_same_chat (chat_send_system_message_same _ _ _ _)
    · exact same_names_trans (chat_join_room_found_same_names env _ u _ password)
        ⟨rfl, rfl, fun _ => ⟨rfl, rfl, rfl⟩⟩

theorem chat_handle_join_command_same_names (env : Env) (w : World) (u : Nat)
    (args : Option CStr) : same_names (chat_handle_join_command env w u args) w := by
  unfold chat_handle_join_command
  cases args with
  | none => exact same_names_of_same_chat (chat_send_system_message_same _ _ _ _)
  | some a =>
    simp only []
    split
    · exact chat_join_room_same_names _ _ _ _ _
    · exact same_names_of_same_chat (chat_send_system_message_same _ _ _ _)

theorem chat_handle_nick_command_users (env : Env) (w : World) (u : Nat) (args : Option CStr) :
    (chat_handle_nick_command env w u args).server.users = w.server.users ∧
    (chat_handle_nick_command env w u args).next_user = w.next_user := by
  have h := chat_handle_nick_command_frame env w u args
  exact ⟨by rw [h.1], h.2.2.2⟩

theorem chat_handle_nick_command_nick_inv (env : Env) (w : World) (u : Nat)
    (args : Option CStr) (h : nick_inv w) :
    nick_inv (chat_handle_nick_command env w u args) := by
  cases args with
  | none => exact h
  | some s =>
    have hrej := chat_handle_nick_command_rejected env w u s
    by_cases h1 : s = []
    · rw [hrej.1 h1]; exact h
    · by_cases h2 : s.length < MAX_NICKNAME_LENGTH
      · by_cases h3 : ∃ v ∈ w.server.users, (w.userAt v).nickname = s
        · rw [hrej.2.2 h1 h2 h3]; exact h
        · have hu := chat_handle_nick_command_users env w u (some s)
          have hacc := chat_handle_nick_command_accepted env w u s h1 h2 h3
          refine ⟨?_, ?_, ?_⟩
          · rw [hu.1, hu.2]; exact h.1
          · rw [hu.1]; exact h.2.1
          · rw [hu.1, hacc]
            refine h.2.2.imp_of_mem ?_
            intro x y hx hy hxy hne heq
            by_cases hxu : x = u
            · subst hxu
              have hyx : y ≠ x := fun e => hne e.symm
              simp only [upd_same, upd_other _ _ _ _ hyx] at heq
              exact absurd ⟨y, hy, heq.symm⟩ h3
            · by_cases hyu : y = u
              · subst hyu
                simp only [upd_same, upd_other _ _ _ _ hxu] at heq
                exact absurd ⟨x, hx, heq⟩ h3
              · simp only [upd_other _ _ _ _ hxu, upd_other _ _ _ _ hyu] at heq ⊢
                exact hxy hne heq
      · rw [hrej.2.1 h1 (Nat.not_lt.mp h2)]; exact h

theorem chat_process_command_nick_inv (env : Env) (w : World) (u : Nat) (input : CStr)
    (h : nick_inv w) : nick_inv (chat_process_command env w u input).1 := by
  unfold chat_process_command
  split
  · exact h
  · have hw1 : same_names
        ({ w with userAt := upd w.userAt u { w.userAt u with last_activity := env.now } } :
          World) w := by
      refine ⟨rfl, rfl, ?_⟩
      intro v
      by_cases hv : v = u
      · subst hv; simp
      · simp [upd_other _ _ _ _ hv]
    have h1 := nick_inv_of_same_names hw1 h
    have hsys : ∀ m, nick_inv (chat_send_system_message env
        ({ w with userAt := upd w.userAt u { w.userAt u with last_activity := env.now } } :
          World) u m) := fun m => h1
    simp only []
    split_ifs
    · exact h1
    · exact nick_inv_of_same_names (chat_handle_join_command_same_names _ _ _ _) h1
    · exact nick_inv_of_same_names (chat_leave_room_same_names _ _ _) h1
    · exact chat_handle_nick_command_nick_inv _ _ _ _ h1
    · exact nick_inv_of_same_names
        (same_names_of_same_chat (chat_handle_list_command_same _ _ _ _)) h1
    · exact h1
    · exact hsys _
    · exact hsys _
    · exact hsys _
    · split
      · rename_i room _
        have hb := chat_broadcast_to_room_same env
          ({ w with userAt := upd w.userAt u { w.userAt u with last_activity := env.now } } :
            World) room input u
        refine nick_inv_of_same_names ⟨?_, hb.2.2.2.2, ?_⟩ h1
        · show (chat_broadcast_to_room env _ room input u).server.users = _
          rw [hb.1]
        · intro v
          show ((chat_broadcast_to_room env _ room input u).userAt v).nickname = _ ∧
            ((chat_broadcast_to_room env _ room input u).userAt v).join_time = _ ∧
            ((chat_broadcast_to_room env _ room input u).userAt v).connection = _
          rw [hb.2.2.1]
          exact ⟨rfl, rfl, rfl⟩
      · exact hsys _

theorem chat_handler_lines_nick_inv (env : Env) (conn user : Nat) (lines : List (List Char)) :
    ∀ w : World, nick_inv w → nick_inv (chat_handler_lines env conn user w lines).1 := by
  induction lines with
  | nil => intro w h; exact h
  | cons line rest ih =>
    intro w h
    unfold chat_handler_lines
    by_cases h1 : line.length > 0
    · by_cases h2 : cstr line = "/quit".toList ∨ cstr line = "quit".toList ∨
          cstr line = "QUIT".toList
      · simp only [h1, h2, if_true]
        exact h
      · simp only [h1, h2, if_true, if_false]
        have hp := chat_process_command_nick_inv env w user (cstr line) h
        by_cases h3 : (chat_process_command env w user (cstr line)).2 < 0
        · simp only [h3, if_true]
          exact hp
        · simp only [h3, if_false]
          exact ih _ hp
    · simp only [h1, if_false]
      exact ih _ h

theorem chat_register_user_effect (env : Env) (w : World) (conn : Nat) :
    (chat_register_user env w conn).2 = w.next_user ∧
    (chat_register_user env w conn).1.server.users = w.server.users ++ [w.next_user] ∧
    (chat_register_user env w conn).1.next_user = w.next_user + 1 ∧
    (chat_register_user env w conn).1.userAt
      = upd w.userAt w.next_user
          { ChatUser.zero with
            connection := conn, join_time := env.now, last_activity := env.now,
            nickname := default_nickname env.now } := by
  unfold chat_register_user
  simp only [flush_server, stage_server, flush_next_user, stage_next_user, flush_userAt,
    stage_userAt]
  refine ⟨rfl, ?_, ?_, ?_⟩ <;> split_ifs <;> rfl

theorem chat_register_user_nick_inv (env : Env) (w : World) (conn : Nat) (h : nick_inv w) :
    nick_inv (chat_register_user env w conn).1 := by
  obtain ⟨_, hu, hn, ha⟩ := chat_register_user_effect env w conn
  obtain ⟨h1, h2, h3⟩ := h
  have hfresh : ∀ x ∈ w.server.users, x ≠ w.next_user := fun x hx => Nat.ne_of_lt (h1 x hx)
  refine ⟨?_, ?_, ?_⟩
  · rw [hu, hn]
    intro x hx
    rcases List.mem_append.mp hx with hx | hx
    · exact Nat.lt_succ_of_lt (h1 x hx)
    · rw [List.mem_singleton.mp hx]; exact Nat.lt_succ_self _
  · rw [hu]
    refine List.nodup_append.mpr ⟨h2, List.nodup_singleton _, ?_⟩
    intro x hx hx2
    exact hfresh x hx (List.mem_singleton.mp hx2)
  · rw [hu, ha]
    refine List.pairwise_append.mpr ⟨?_, List.pairwise_singleton _ _, ?_⟩
    · refine h3.imp_of_mem ?_
      intro x y hx hy hxy hne heq
      simp only [upd_other _ _ _ _ (hfresh x hx), upd_other _ _ _ _ (hfresh y hy)] at heq ⊢
      exact hxy hne heq
    · intro x _ y hy _ _
      rw [List.mem_singleton.mp hy]
      simp

theorem enhanced_chat_handler_nick_inv (env : Env) (w : World) (conn : Nat)
    (h : nick_inv w) : nick_inv (enhanced_chat_handler env w conn).1 := by
  unfold enhanced_chat_handler
  by_cases h0 : (w.connAt conn).read_buffer_used = 0
  · simp only [h0, if_true]
    exact h
  · simp only [h0, if_false]
    cases hu : chat_find_user_by_connection w conn with
    | some user => exact chat_handler_lines_nick_inv _ _ _ _ _ h
    | none =>
      simp only []
      by_cases hfull : w.server.users.length ≥ MAX_CONNECTIONS
      · simp only [hfull, if_true]
        exact h
      · simp only [hfull, if_false]
        exact chat_handler_lines_nick_inv _ _ _ _ _ (chat_register_user_nick_inv env w conn h)

theorem chat_server_create_nick_inv (env : Env) (connAt : Nat → Connection) :
    nick_inv (chat_server_create env connAt) := by
  refine ⟨?_, ?_, ?_⟩ <;> simp [chat_server_create, chat_room_create]

/-- Reachable chat states satisfy the nickname invariant. -/
theorem reachable_nick_inv {w : World} (h : Reachable w) : nick_inv w := by
  induction h with
  | init env connAt => exact chat_server_create_nick_inv env connAt
  | network w connAt _ ih => exact ih
  | handler env w conn _ ih => exact enhanced_chat_handler_nick_inv env w conn ih

/-! ## A successful join -/

theorem leave_current_room_users (env : Env) (w : World) (u r : Nat) :
    ((leave_current_room env w u).roomAt r).users
      = if (w.userAt u).current_room = some r then (w.roomAt r).users.erase u
        else (w.roomAt r).users := by
  unfold leave_current_room
  cases h : (w.userAt u).current_room with
  | none => simp
  | some r0 =>
    simp only [Option.isSome_some, if_true]
    rw [chat_leave_room_roomAt env w u r0 h]
    by_cases hr : r = r0
    · subst hr; simp
    · have hne : ¬ (some r0 = some r) := fun e => hr (Option.some.inj e).symm
      simp [upd_other _ _ _ _ hr, hne]

/-- The last step of a successful `chat_join_room_found` is the welcome
message, sent in a world whose rooms and users are the final ones. -/
theorem chat_join_room_found_reply (env : Env) (w : World) (u room : Nat)
    (password : Option CStr)
    (hpw : password_rejected (w.roomAt room) password = false)
    (hcap : (w.roomAt room).users.length < MAX_USERS_PER_ROOM) :
    ∃ w4 : World,
      (chat_join_room_found env w u room password).1
        = chat_send_system_message env w4 u (snprintf 512 (welcome_text (w4.roomAt room))) ∧
      w4.roomAt = (chat_join_room_found env w u room password).1.roomAt ∧
      w4.userAt = (chat_join_room_found env w u room password).1.userAt := by
  unfold chat_join_room_found
  simp only [hpw, Bool.false_eq_true, if_false, ge_iff_le, Nat.not_le.mpr hcap]
  exact ⟨_, rfl, rfl, rfl⟩

theorem welcome_text_length (room : ChatRoom)
    (hname : room.name.length < MAX_ROOM_NAME_LENGTH) (htopic : room.topic.length < 256)
    (husers : room.users.length ≤ MAX_USERS_PER_ROOM) :
    (welcome_text room).length ≤ 360 := by
  have h1 : "Welcome to #".toList.length = 12 := by decide
  have h2 : "!".toList.length = 1 := by decide
  have h3 : "Topic: ".toList.length = 7 := by decide
  have h4 : "Users online: ".toList.length = 14 := by decide
  have h5 : "Type /list users to see who's here.".toList.length = 35 := by decide
  have h6 : (fmt_d room.users.length).length ≤ 2 :=
    fmt_d_length_le _ 2 (by norm_num) (by unfold MAX_USERS_PER_ROOM at husers; omega)
  unfold MAX_ROOM_NAME_LENGTH at hname
  simp only [welcome_text, List.length_append, List.length_singleton, h1, h2, h3, h4, h5]
  omega

/-! ## Announcements -/

theorem connection_prepare_response_idem (conn : Connection) (d : List Char) :
    connection_prepare_response (connection_prepare_response conn d) d
      = connection_prepare_response conn d := by
  unfold connection_prepare_response
  by_cases h : d.length = 0
  · simp [h]
  · simp only [h, if_false]
    split_ifs <;> simp_all

theorem stage_connAt (w : World) (c c0 : Nat) (d : List Char) :
    (stage w c0 d).connAt c
      = if c0 = c then connection_prepare_response (w.connAt c) d else w.connAt c := by
  unfold stage
  by_cases h : c0 = c
  · subst h; simp
  · have h2 : c ≠ c0 := fun e => h e.symm
    simp [h, upd_other _ _ _ _ h2]

/-- Staging the same payload for every user of a list stages it on exactly
the connections of those users. -/
theorem foldl_stage_connAt (d : List Char) (l : List Nat) :
    ∀ (w : World) (c : Nat),
      (l.foldl (fun acc u => stage acc (acc.userAt u).connection d) w).connAt c
        = if ∃ m ∈ l, (w.userAt m).connection = c
          then connection_prepare_response (w.connAt c) d else w.connAt c := by
  induction l with
  | nil => intro w c; simp
  | cons a t ih =>
    intro w c
    simp only [List.foldl_cons]
    rw [ih]
    simp only [stage_userAt, stage_connAt]
    by_cases ha : (w.userAt a).connection = c
    · by_cases ht : ∃ m ∈ t, (w.userAt m).connection = c
      · have hex : ∃ m ∈ a :: t, (w.userAt m).connection = c := ⟨a, List.mem_cons_self _ _, ha⟩
        simp only [ha, ht, hex, if_true]
        exact connection_prepare_response_idem _ _
      · have hex : ∃ m ∈ a :: t, (w.userAt m).connection = c := ⟨a, List.mem_cons_self _ _, ha⟩
        simp only [ha, ht, hex, if_true, if_false]
    · by_cases ht : ∃ m ∈ t, (w.userAt m).connection = c
      · have hex : ∃ m ∈ a :: t, (w.userAt m).connection = c := by
          obtain ⟨m, hm, hc⟩ := ht
          exact ⟨m, List.mem_cons_of_mem _ hm, hc⟩
        simp only [ha, ht, hex, if_true, if_false]
      · have hex : ¬ ∃ m ∈ a :: t, (w.userAt m).connection = c := by
          rintro ⟨m, hm, hc⟩
          rcases List.mem_cons.mp hm with e | hm
          · exact ha (e ▸ hc)
          · exact ht ⟨m, hm, hc⟩
        simp only [ha, ht, hex, if_false]

theorem chat_announce_to_room_connAt (w : World) (room : Nat) (m : CStr) (c : Nat) :
    (chat_announce_to_room w room m).connAt c
      = if ∃ v ∈ (w.roomAt room).users, (w.userAt v).connection = c
        then connection_prepare_response (w.connAt c) (snprintf BUFFER_SIZE (m ++ [NL]))
        else w.connAt c := by
  unfold chat_announce_to_room
  exact foldl_stage_connAt _ _ w c

theorem connection_prepare_response_wire (conn : Connection) (d : List Char) :
    (connection_prepare_response conn d).wire = conn.wire := by
  unfold connection_prepare_response
  split_ifs <;> rfl

/-- The departure line for a nickname that fits its array. -/
theorem departure_line (nick : CStr) (h : nick.length < MAX_NICKNAME_LENGTH) :
    snprintf BUFFER_SIZE (snprintf 256 ("*** ".toList ++ nick ++ " left the room".toList) ++ [NL])
      = "*** ".toList ++ nick ++ " left the room\n".toList := by
  have h1 : "*** ".toList.length = 4 := by decide
  have h2 : " left the room".toList.length = 14 := by decide
  unfold MAX_NICKNAME_LENGTH at h
  have e1 : snprintf 256 ("*** ".toList ++ nick ++ " left the room".toList)
      = "*** ".toList ++ nick ++ " left the room".toList := by
    unfold snprintf
    apply List.take_of_length_le
    simp only [List.length_append, h1, h2]
    omega
  rw [e1]
  have e2 : snprintf BUFFER_SIZE ("*** ".toList ++ nick ++ " left the room".toList ++ [NL])
      = "*** ".toList ++ nick ++ " left the room".toList ++ [NL] := by
    unfold snprintf BUFFER_SIZE
    apply List.take_of_length_le
    simp only [List.length_append, List.length_singleton, h1, h2]
    omega
  rw [e2]
  simp only [List.append_assoc]
  rfl

/-- Connections after a successful `chat_leave_room`: the announcement is
staged for the remaining members, then the requester is answered. -/
theorem chat_leave_room_conns (env : Env) (w : World) (u r : Nat)
    (h : (w.userAt u).current_room = some r) :
    ∃ w3 : World,
      (chat_leave_room env w u).1
        = chat_send_system_message env w3 u "You left the room".toList ∧
      (w3.userAt u).connection = (w.userAt u).connection ∧
      ∀ c, w3.connAt c
        = if ∃ v ∈ (w.roomAt r).users.erase u, (w.userAt v).connection = c
          then connection_prepare_response (w.connAt c)
            (snprintf BUFFER_SIZE
              (snprintf 256 ("*** ".toList ++ (w.userAt u).nickname ++ " left the room".toList)
                ++ [NL]))
          else w.connAt c := by
  unfold chat_leave_room
  simp only [h]
  refine ⟨_, rfl, ?_, ?_⟩
  · simp only [upd_same]
    rw [(chat_announce_to_room_same _ _ _).2.2.1]
  · intro c
    simp only [chat_announce_to_room_connAt, upd_same]

theorem chat_leave_room_ret (env : Env) (w : World) (u r : Nat)
    (h : (w.userAt u).current_room = some r) : (chat_leave_room env w u).2 = 0 := by
  unfold chat_leave_room
  simp only [h]

theorem connection_prepare_response_staged (conn : Connection) (d : List Char) (hd : d ≠ []) :
    (connection_prepare_response conn d).write_buffer = d ∧
    (connection_prepare_response conn d).has_data_to_send = true ∧
    (connection_prepare_response conn d).write_buffer_sent = 0 := by
  have hlen : d.length ≠ 0 := fun h => hd (List.length_eq_zero.mp h)
  simp [connection_prepare_response, hlen]

/-- The line `/nick s` is dispatched to `chat_handle_nick_command` with the
text after the first space as argument (none when it is empty). -/
theorem chat_process_command_nick (env : Env) (w : World) (u : Nat) (s : CStr) :
    chat_process_command env w u ("/nick ".toList ++ s)
      = (chat_handle_nick_command env
          { w with userAt := upd w.userAt u { w.userAt u with last_activity := env.now } } u
          (strtok_rest s), 0) := by
  have hs : strtok_space ("/nick ".toList ++ s) = (some "/nick".toList, s) := by
    simp [strtok_space, String.toList, List.dropWhile, List.takeWhile]
  unfold chat_process_command
  rw [hs]
  simp only []
  have h1 : ("/nick".toList).head? = some '/' := by decide
  have h2 : ¬ ("/nick".toList = "/help".toList) := by decide
  have h3 : ¬ ("/nick".toList = "/join".toList) := by decide
  have h4 : ¬ ("/nick".toList = "/leave".toList) := by decide
  simp only [h1, h2, h3, h4, if_true, if_false]

/-! ## Properties kept by every command -/

theorem same_chat_symm {a b : World} (h : same_chat a b) : same_chat b a :=
  ⟨h.1.symm, h.2.1.symm, h.2.2.1.symm, h.2.2.2.1.symm, h.2.2.2.2.symm⟩

/-- A property of worlds that depends on the chat state only and is kept by
`chat_join_room` for the user `u` is kept by `chat_handle_join_command`. -/
theorem chat_handle_join_command_preserves (P : World → Prop) (u : Nat)
    (hsame : ∀ a b : World, same_chat a b → P b → P a)
    (hjoin : ∀ (env : Env) (w : World) (n : CStr) (p : Option CStr),
      P w → P (chat_join_room env w u n p).1)
    (env : Env) (w : World) (args : Option CStr) (h : P w) :
    P (chat_handle_join_command env w u args) := by
  unfold chat_handle_join_command
  cases args with
  | none =>
    refine hsame _ w ?_ h
    exact chat_send_system_message_same _ _ _ _
  | some a =>
    simp only []
    split
    · exact hjoin _ _ _ _ h
    · refine hsame _ w ?_ h
      exact chat_send_system_message_same _ _ _ _

/-- A property of worlds that depends on the chat state only and is kept by
the five state-changing steps a command of user `u` can take (activity
stamp, message counter, leave, join, nickname change) is kept by
`chat_process_command` for `u`. -/
theorem chat_process_command_preserves (P : World → Prop) (u : Nat)
    (hsame : ∀ a b : World, same_chat a b → P b → P a)
    (hact : ∀ (w : World) (t : Nat), P w →
      P { w with userAt := upd w.userAt u { w.userAt u with last_activity := t } })
    (hmsg : ∀ w : World, P w →
      P { w with server := { w.server with
        total_messages := int_incr w.server.total_messages } })
    (hleave : ∀ (env : Env) (w : World), P w → P (chat_leave_room env w u).1)
    (hjoin : ∀ (env : Env) (w : World) (n : CStr) (p : Option CStr),
      P w → P (chat_join_room env w u n p).1)
    (hnick : ∀ (env : Env) (w : World) (a : Option CStr),
      P w → P (chat_handle_nick_command env w u a))
    (env : Env) (w : World) (input : CStr) (h : P w) :
    P (chat_process_command env w u input).1 := by
  unfold chat_process_command
  split
  · exact h
  · generalize hw1 : ({ w with
        userAt := upd w.userAt u { w.userAt u with last_activity := env.now } } : World) = w1
    have h1 : P w1 := by rw [← hw1]; exact hact w env.now h
    have hsys : ∀ m, P (chat_send_system_message env w1 u m) := by
      intro m
      refine hsame _ w1 ?_ h1
      exact chat_send_system_message_same _ _ _ _
    simp only []
    split_ifs
    · refine hsame _ w1 ?_ h1
      exact chat_handle_help_command_same _ _ _
    · exact chat_handle_join_command_preserves P u hsame hjoin _ _ _ h1
    · exact hleave _ _ h1
    · exact hnick _ _ _ h1
    · refine hsame _ w1 ?_ h1
      exact chat_handle_list_command_same _ _ _ _
    · refine hsame _ w1 ?_ h1
      exact chat_handle_stats_command_same _ _ _
    · exact hsys _
    · exact hsys _
    · exact hsys _
    · split
      · rename_i room _
        refine hmsg _ (hsame _ w1 ?_ h1)
        exact chat_broadcast_to_room_same _ _ _ _ _
      · exact hsys _

/-- A property kept by `chat_process_command` for `user` and by connection
traffic is kept by the line loop of `enhanced_chat_handler`. -/
theorem chat_handler_lines_preserves (P : World → Prop) (user : Nat)
    (hsame : ∀ a b : World, same_chat a b → P b → P a)
    (hcmd : ∀ (env : Env) (w : World) (input : CStr),
      P w → P (chat_process_command env w user input).1)
    (env : Env) (conn : Nat) (lines : List (List Char)) :
    ∀ w : World, P w → P (chat_handler_lines env conn user w lines).1 := by
  induction lines with
  | nil => intro w h; exact hsame _ w (clear_read_buffer_same _ _) h
  | cons line rest ih =>
    intro w h
    unfold chat_handler_lines
    by_cases h1 : line.length > 0
    · by_cases h2 : cstr line = "/quit".toList ∨ cstr line = "quit".toList ∨
          cstr line = "QUIT".toList
      · simp only [h1, h2, if_true]
        exact hsame _ w
          (same_chat_trans (clear_read_buffer_same _ _)
            (same_chat_trans (flush_same _ _ _) (stage_same _ _ _))) h
      · simp only [h1, h2, if_true, if_false]
        have hp := hcmd env w (cstr line) h
        by_cases h3 : (chat_process_command env w user (cstr line)).2 < 0
        · simp only [h3, if_true]
          exact hsame _ _ (clear_read_buffer_same _ _) hp
        · simp only [h3, if_false]
          exact ih _ (hsame _ (chat_process_command env w user (cstr line)).1
            (same_chat_trans (flush_same _ _ _) (stage_same _ _ _)) hp)
    · simp only [h1, if_false]
      exact ih _ h

/-- Invariant rule for `enhanced_chat_handler`: `I` is the invariant, `P u`
the property that holds while the lines of user `u` are processed. -/
theorem enhanced_chat_handler_preserves (I : World → Prop) (P : Nat → World → Prop)
    (hsameI : ∀ a b : World, same_chat a b → I b → I a)
    (hsameP : ∀ (u : Nat) (a b : World), same_chat a b → P u b → P u a)
    (hcmd : ∀ (u : Nat) (env : Env) (w : World) (input : CStr),
      P u w → P u (chat_process_command env w u input).1)
    (hfound : ∀ (w : World) (conn u : Nat),
      chat_find_user_by_connection w conn = some u → I w → P u w)
    (hreg : ∀ (env : Env) (w : World) (conn : Nat),
      I w → P (chat_register_user env w conn).2 (chat_register_user env w conn).1)
    (hdone : ∀ (u : Nat) (w : World), P u w → I w)
    (env : Env) (w : World) (conn : Nat) (h : I w) :
    I (enhanced_chat_handler env w conn).1 := by
  unfold enhanced_chat_handler
  by_cases h0 : (w.connAt conn).read_buffer_used = 0
  · simp only [h0, if_true]
    exact h
  · simp only [h0, if_false]
    cases hu : chat_find_user_by_connection w conn with
    | some user =>
      exact hdone user _
        (chat_handler_lines_preserves (P user) user (hsameP user) (hcmd user) _ _ _ _
          (hfound w conn user hu h))
    | none =>
      simp only []
      by_cases hfull : w.server.users.length ≥ MAX_CONNECTIONS
      · simp only [hfull, if_true]
        exact hsameI _ w (stage_same _ _ _) h
      · simp only [hfull, if_false]
        exact hdone _ _
          (chat_handler_lines_preserves (P _) _ (hsameP _) (hcmd _) _ _ _ _ (hreg env w conn h))

/-- Induction principle for reachable chat states. -/
theorem reachable_preserves (P : World → Prop)
    (hsame : ∀ a b : World, same_chat a b → P b → P a)
    (hinit : ∀ (env : Env) (connAt : Nat → Connection), P (chat_server_create env connAt))
    (hhandler : ∀ (env : Env) (w : World) (conn : Nat),
      P w → P (enhanced_chat_handler env w conn).1)
    {w : World} (h : Reachable w) : P w := by
  induction h with
  | init env connAt => exact hinit env connAt
  | network w connAt _ ih => exact hsame _ w ⟨rfl, rfl, rfl, rfl, rfl⟩ ih
  | handler env w conn _ ih => exact hhandler env w conn ih

/-! ## Membership invariant -/

theorem member_inv_transfer {a b : World} (hr : a.server.rooms = b.server.rooms)
    (hra : ∀ r, (a.roomAt r).users = (b.roomAt r).users)
    (hu : ∀ v, (a.userAt v).current_room = (b.userAt v).current_room)
    (hus : a.server.users = b.server.users)
    (hnr : a.next_room = b.next_room) (hnu : a.next_user = b.next_user)
    (hb : member_inv b) : member_inv a := by
  obtain ⟨h1, h2, h3, h4, h5⟩ := hb
  refine ⟨?_, ?_, ?_, ?_, ?_⟩
  · intro u r; rw [hra, hu]; exact h1 u r
  · rw [hr, hnr]; exact h2
  · intro u r; rw [hu, hnr]; exact h3 u r
  · intro v; rw [hnu, hu]; exact h4 v
  · rw [hus, hnu]; exact h5

theorem member_inv_of_same_chat {a b : World} (h : same_chat a b) (hb : member_inv b) :
    member_inv a := by
  obtain ⟨h1, h2, h3, h4, h5⟩ := h
  exact member_inv_transfer (by rw [h1]) (fun r => by rw [h2]) (fun v => by rw [h3])
    (by rw [h1]) h4 h5 hb

theorem chat_handle_nick_command_current_room (env : Env) (w : World) (u : Nat)
    (args : Option CStr) (v : Nat) :
    ((chat_handle_nick_command env w u args).userAt v).current_room
      = (w.userAt v).current_room := by
  cases args with
  | none => rfl
  | some s =>
    have hrej := chat_handle_nick_command_rejected env w u s
    by_cases h1 : s = []
    · rw [hrej.1 h1]; rfl
    · by_cases h2 : s.length < MAX_NICKNAME_LENGTH
      · by_cases h3 : ∃ v ∈ w.server.users, (w.userAt v).nickname = s
        · rw [hrej.2.2 h1 h2 h3]; rfl
        · rw [chat_handle_nick_command_accepted env w u s h1 h2 h3]
          by_cases hv : v = u
          · subst hv; simp
          · simp [upd_other _ _ _ _ hv]
      · rw [hrej.2.1 h1 (Nat.not_lt.mp h2)]; rfl

theorem chat_handle_nick_command_member_inv (env : Env) (w : World) (u : Nat)
    (args : Option CStr) (h : member_inv w) :
    member_inv (chat_handle_nick_command env w u args) := by
  have hf := chat_handle_nick_command_frame env w u args
  exact member_inv_transfer (by rw [hf.1]) (fun r => by rw [hf.2.1])
    (chat_handle_nick_command_current_room env w u args) (by rw [hf.1]) hf.2.2.1 hf.2.2.2 h

theorem chat_leave_room_member_inv (env : Env) (w : World) (u : Nat) (h : member_inv w) :
    member_inv (chat_leave_room env w u).1 := by
  cases hc : (w.userAt u).current_room with
  | none =>
    rw [chat_leave_room_none env w u hc]
    exact member_inv_of_same_chat (chat_send_system_message_same _ _ _ _) h
  | some r0 =>
    obtain ⟨h1, h2, h3, h4, h5⟩ := h
    have hs := chat_leave_room_server env w u
    have hroom := chat_leave_room_roomAt env w u r0 hc
    have huser := chat_leave_room_userAt env w u r0 hc
    refine ⟨?_, ?_, ?_, ?_, ?_⟩
    · intro v r
      rw [hroom, huser]
      by_cases hv : v = u
      · subst hv
        simp only [upd_same]
        by_cases hr : r = r0
        · subst hr
          simp only [upd_same, List.count_erase_self]
          rw [h1 v r, hc]
          simp
        · simp only [upd_other _ _ _ _ hr]
          rw [h1 v r, hc]
          have : ¬ (some r0 = some r) := fun e => hr (Option.some.inj e).symm
          simp [this]
      · simp only [upd_other _ _ _ _ hv]
        by_cases hr : r = r0
        · subst hr
          simp only [upd_same]
          rw [List.count_erase_of_ne hv]
          exact h1 v r
        · simp only [upd_other _ _ _ _ hr]
          exact h1 v r
    · rw [hs.1, hs.2.1]; exact h2
    · intro v r
      rw [huser, hs.2.1]
      by_cases hv : v = u
      · subst hv; simp
      · simp only [upd_other _ _ _ _ hv]; exact h3 v r
    · intro v hv
      rw [huser]
      rw [hs.2.2] at hv
      by_cases hvu : v = u
      · subst hvu; simp
      · simp only [upd_other _ _ _ _ hvu]; exact h4 v hv
    · rw [hs.1, hs.2.2]; exact h5

theorem leave_current_room_member_inv (env : Env) (w : World) (u : Nat) (h : member_inv w) :
    member_inv (leave_current_room env w u) := by
  unfold leave_current_room
  split_ifs
  · exact chat_leave_room_member_inv env w u h
  · exact h

theorem leave_current_room_current_room (env : Env) (w : World) (u : Nat) :
    ((leave_current_room env w u).userAt u).current_room = none := by
  unfold leave_current_room
  cases hc : (w.userAt u).current_room with
  | none => simp [hc]
  | some r0 =>
    simp only [Option.isSome_some, if_true]
    rw [chat_leave_room_userAt env w u r0 hc]
    simp

theorem chat_join_room_found_member_inv (env : Env) (w : World) (u room : Nat)
    (password : Option CStr) (hroom : room < w.next_room) (hlive : u < w.next_user)
    (h : member_inv w) :
    member_inv (chat_join_room_found env w u room password).1 := by
  rcases chat_join_room_found_cases env w u room password with ⟨m, hm⟩ | ⟨hpw, hcap⟩
  · rw [hm]
    exact member_inv_of_same_chat (chat_send_system_message_same _ _ _ _) h
  · have hs := chat_join_room_found_server env w u room password
    have hl := leave_current_room_member_inv env w u h
    have hls := leave_current_room_server env w u
    have hnone := leave_current_room_current_room env w u
    obtain ⟨h1, h2, h3, h4, h5⟩ := hl
    have hr := chat_join_room_found_roomAt env w u room password hpw hcap
    have hu := chat_join_room_found_userAt env w u room password hpw hcap
    refine ⟨?_, ?_, ?_, ?_, ?_⟩
    · intro v r
      rw [hr, hu]
      by_cases hv : v = u
      · subst hv
        simp only [upd_same]
        have h0 := h1 v r
        rw [hnone] at h0
        simp only [reduceCtorEq, if_false] at h0
        by_cases hrr : r = room
        · subst hrr
          simp only [upd_same, List.count_append, h0]
          simp
        · simp only [upd_other _ _ _ _ hrr, h0]
          have : ¬ (some room = some r) := fun e => hrr (Option.some.inj e).symm
          simp [this]
      · simp only [upd_other _ _ _ _ hv]
        by_cases hrr : r = room
        · subst hrr
          simp only [upd_same, List.count_append]
          have : List.count v [u] = 0 := by
            simp [List.count_singleton]
            exact fun e => hv e.symm
          rw [this, Nat.add_zero]
          exact h1 v r
        · simp only [upd_other _ _ _ _ hrr]
          exact h1 v r
    · rw [hs.1, hs.2.1, ← hls.1, ← hls.2.1]; exact h2
    · intro v r
      rw [hu, hs.2.1, ← hls.2.1]
      by_cases hv : v = u
      · subst hv
        simp only [upd_same]
        intro e
        rw [← Option.some.inj e, hls.2.1]
        exact hroom
      · simp only [upd_other _ _ _ _ hv]; exact h3 v r
    · intro v hv
      rw [hu]
      rw [hs.2.2, ← hls.2.2] at hv
      by_cases hvu : v = u
      · subst hvu
        rw [hls.2.2] at hv
        omega
      · simp only [upd_other _ _ _ _ hvu]; exact h4 v hv
    · rw [hs.1, hs.2.2, ← hls.1, ← hls.2.2]; exact h5

theorem chat_join_room_member_inv (env : Env) (w : World) (u : Nat) (name : CStr)
    (password : Option CStr) (hlive : u < w.next_user) (h : member_inv w) :
    member_inv (chat_join_room env w u name password).1 := by
  unfold chat_join_room
  cases hf : chat_find_room w name with
  | some room =>
    have hmem : room ∈ w.server.rooms := List.mem_of_find?_eq_some hf
    exact chat_join_room_found_member_inv env w u room password (h.2.1 room hmem) hlive h
  | none =>
    simp only []
    split_ifs
    · exact member_inv_of_same_chat (chat_send_system_message_same _ _ _ _) h
    · apply chat_join_room_found_member_inv
      · exact Nat.lt_succ_self _
      · exact hlive
      · obtain ⟨h1, h2, h3, h4, h5⟩ := h
        refine ⟨?_, ?_, ?_, ?_, h5⟩
        · intro v r
          show ((upd w.roomAt w.next_room _) r).users.count v = _
          by_cases hr : r = w.next_room
          · subst hr
            simp only [upd_same]
            have hn : ¬ (w.userAt v).current_room = some w.next_room := by
              intro e
              exact Nat.lt_irrefl _ (h3 v _ e)
            simp [ChatRoom.zero, hn, chat_room_create]
          · simp only [upd_other _ _ _ _ hr]
            exact h1 v r
        · intro r hr
          show r < w.next_room + 1
          rcases List.mem_append.mp hr with hr | hr
          · exact Nat.lt_succ_of_lt (h2 r hr)
          · rw [List.mem_singleton.mp hr]; exact Nat.lt_succ_self _
        · intro v r e
          exact Nat.lt_succ_of_lt (h3 v r e)
        · exact h4

theorem chat_register_user_member_inv (env : Env) (w : World) (conn : Nat) (h : member_inv w) :
    member_inv (chat_register_user env w conn).1 ∧
    (chat_register_user env w conn).2 < (chat_register_user env w conn).1.next_user := by
  obtain ⟨he2, hu, hn, ha⟩ := chat_register_user_effect env w conn
  have hroom := chat_register_user_roomAt env w conn
  obtain ⟨h1, h2, h3, h4, h5⟩ := h
  have hsrv : (chat_register_user env w conn).1.server.rooms = w.server.rooms ∧
      (chat_register_user env w conn).1.next_room = w.next_room := by
    unfold chat_register_user
    simp only [flush_server, stage_server, flush_next_room, stage_next_room]
    constructor <;> split_ifs <;> rfl
  refine ⟨⟨?_, ?_, ?_, ?_, ?_⟩, ?_⟩
  · intro v r
    rw [hroom, ha]
    by_cases hv : v = w.next_user
    · subst hv
      simp only [upd_same]
      have := h1 w.next_user r
      rw [h4 _ (le_refl _)] at this
      simpa [ChatUser.zero] using this
    · simp only [upd_other _ _ _ _ hv]
      exact h1 v r
  · rw [hsrv.1, hsrv.2]; exact h2
  · intro v r
    rw [ha, hsrv.2]
    by_cases hv : v = w.next_user
    · subst hv; simp [ChatUser.zero]
    · simp only [upd_other _ _ _ _ hv]; exact h3 v r
  · intro v hv
    rw [hn] at hv
    rw [ha, upd_other _ _ _ _ (by omega)]
    exact h4 v (by omega)
  · rw [hu, hn]
    intro x hx
    rcases List.mem_append.mp hx with hx | hx
    · exact Nat.lt_succ_of_lt (h5 x hx)
    · rw [List.mem_singleton.mp hx]; exact Nat.lt_succ_self _
  · rw [he2, hn]; exact Nat.lt_succ_self _

theorem chat_server_create_member_inv (env : Env) (connAt : Nat → Connection) :
    member_inv (chat_server_create env connAt) := by
  refine ⟨?_, ?_, ?_, ?_, ?_⟩
  · intro u r
    simp only [chat_server_create, chat_room_create, upd, ChatRoom.zero, ChatUser.zero]
    split_ifs <;> simp_all
  · simp [chat_server_create, chat_room_create]
  · intro u r
    simp [chat_server_create, chat_room_create, ChatUser.zero]
  · intro v _
    simp [chat_server_create, chat_room_create, ChatUser.zero]
  · simp [chat_server_create, chat_room_create]

theorem chat_process_command_member_inv (u : Nat) (env : Env) (w : World) (input : CStr)
    (h : member_inv w ∧ u < w.next_user) :
    member_inv (chat_process_command env w u input).1 ∧
      u < (chat_process_command env w u input).1.next_user := by
  refine chat_process_command_preserves (fun x => member_inv x ∧ u < x.next_user) u
    ?_ ?_ ?_ ?_ ?_ ?_ env w input h
  · intro a b hab hb
    exact ⟨member_inv_of_same_chat hab hb.1, by rw [hab.2.2.2.2]; exact hb.2⟩
  · intro x t hx
    refine ⟨@member_inv_transfer _ x rfl (fun _ => rfl) ?_ rfl rfl rfl hx.1, hx.2⟩
    intro v
    by_cases hv : v = u
    · subst hv; simp
    · simp [upd_other _ _ _ _ hv]
  · intro x hx
    exact ⟨@member_inv_transfer _ x rfl (fun _ => rfl) (fun _ => rfl) rfl rfl rfl hx.1, hx.2⟩
  · intro e x hx
    exact ⟨chat_leave_room_member_inv e x u hx.1, by
      rw [(chat_leave_room_server e x u).2.2]; exact hx.2⟩
  · intro e x n p hx
    exact ⟨chat_join_room_member_inv e x u n p hx.2 hx.1, by
      rw [(chat_join_room_same_names e x u n p).2.1]; exact hx.2⟩
  · intro e x a hx
    exact ⟨chat_handle_nick_command_member_inv e x u a hx.1, by
      rw [(chat_handle_nick_command_frame e x u a).2.2.2]; exact hx.2⟩

theorem enhanced_chat_handler_member_inv (env : Env) (w : World) (conn : Nat)
    (h : member_inv w) : member_inv (enhanced_chat_handler env w conn).1 := by
  refine enhanced_chat_handler_preserves member_inv (fun u x => member_inv x ∧ u < x.next_user)
    ?_ ?_ ?_ ?_ ?_ ?_ env w conn h
  · intro a b hab hb
    exact member_inv_of_same_chat hab hb
  · intro u a b hab hb
    exact ⟨member_inv_of_same_chat hab hb.1, by rw [hab.2.2.2.2]; exact hb.2⟩
  · intro u e x input hx
    exact chat_process_command_member_inv u e x input hx
  · intro x c u hfind hx
    exact ⟨hx, hx.2.2.2.2 u (List.mem_of_find?_eq_some hfind)⟩
  · intro e x c hx
    exact chat_register_user_member_inv e x c hx
  · intro u x hx
    exact hx.1

theorem reachable_member_inv {w : World} (h : Reachable w) : member_inv w :=
  reachable_preserves member_inv (fun _ _ hab hb => member_inv_of_same_chat hab hb)
    chat_server_create_member_inv enhanced_chat_handler_member_inv h

/-! ## Listing the users of a room -/

theorem nicknames_fit_of_same_names {a b : World} (h : same_names a b) (hb : nicknames_fit b) :
    nicknames_fit a := by
  intro v
  rw [(h.2.2 v).1]
  exact hb v

theorem default_nickname_length (t : Nat) : (default_nickname t).length < MAX_NICKNAME_LENGTH := by
  unfold default_nickname snprintf
  have h4 : "User".toList.length = 4 := by decide
  have hd : (fmt_d (t % 10000)).length ≤ 4 :=
    fmt_d_length_le _ 4 (by norm_num) (Nat.mod_lt _ (by norm_num))
  have := List.length_take_le (MAX_NICKNAME_LENGTH - 1) ("User".toList ++ fmt_d (t % 10000))
  unfold MAX_NICKNAME_LENGTH at this ⊢
  omega

theorem chat_handle_nick_command_nicknames_fit (env : Env) (w : World) (u : Nat)
    (args : Option CStr) (h : nicknames_fit w) :
    nicknames_fit (chat_handle_nick_command env w u args) := by
  cases args with
  | none => exact h
  | some s =>
    have hrej := chat_handle_nick_command_rejected env w u s
    by_cases h1 : s = []
    · rw [hrej.1 h1]; exact h
    · by_cases h2 : s.length < MAX_NICKNAME_LENGTH
      · by_cases h3 : ∃ v ∈ w.server.users, (w.userAt v).nickname = s
        · rw [hrej.2.2 h1 h2 h3]; exact h
        · intro v
          rw [chat_handle_nick_command_accepted env w u s h1 h2 h3]
          by_cases hv : v = u
          · subst hv; simpa using h2
          · simp only [upd_other _ _ _ _ hv]; exact h v
      · rw [hrej.2.1 h1 (Nat.not_lt.mp h2)]; exact h

theorem chat_process_command_nicknames_fit (u : Nat) (env : Env) (w : World) (input : CStr)
    (h : nicknames_fit w) : nicknames_fit (chat_process_command env w u input).1 := by
  refine chat_process_command_preserves nicknames_fit u ?_ ?_ ?_ ?_ ?_ ?_ env w input h
  · intro a b hab hb
    exact nicknames_fit_of_same_names (same_names_of_same_chat hab) hb
  · intro x t hx v
    by_cases hv : v = u
    · subst hv; simpa using hx v
    · simp only [upd_other _ _ _ _ hv]; exact hx v
  · intro x hx
    exact hx
  · intro e x hx
    exact nicknames_fit_of_same_names (chat_leave_room_same_names e x u) hx
  · intro e x n p hx
    exact nicknames_fit_of_same_names (chat_join_room_same_names e x u n p) hx
  · intro e x a hx
    exact chat_handle_nick_command_nicknames_fit e x u a hx

theorem reachable_nicknames_fit {w : World} (h : Reachable w) : nicknames_fit w := by
  refine reachable_preserves nicknames_fit ?_ ?_ ?_ h
  · intro a b hab hb
    exact nicknames_fit_of_same_names (same_names_of_same_chat hab) hb
  · intro env connAt v
    simp [chat_server_create, chat_room_create, ChatUser.zero, MAX_NICKNAME_LENGTH]
  · intro env w conn hw
    refine enhanced_chat_handler_preserves nicknames_fit (fun _ x => nicknames_fit x)
      ?_ ?_ ?_ ?_ ?_ ?_ env w conn hw
    · intro a b hab hb
      exact nicknames_fit_of_same_names (same_names_of_same_chat hab) hb
    · intro _ a b hab hb
      exact nicknames_fit_of_same_names (same_names_of_same_chat hab) hb
    · intro u e x input hx
      exact chat_process_command_nicknames_fit u e x input hx
    · intro x c u _ hx
      exact hx
    · intro e x c hx v
      rw [(chat_register_user_effect e x c).2.2.2]
      by_cases hv : v = x.next_user
      · subst hv
        simp only [upd_same]
        exact default_nickname_length _
      · simp only [upd_other _ _ _ _ hv]; exact hx v
    · intro _ x hx
      exact hx

theorem list_users_foldl (w : World) (h : nicknames_fit w) (l : List Nat) :
    ∀ acc : CStr,
      l.foldl (fun (response : CStr) u =>
          strcat response (snprintf 128 ((w.userAt u).nickname ++ [NL]))) acc
        = acc ++ render_lines (l.map (fun v => (w.userAt v).nickname)) := by
  induction l with
  | nil => intro acc; simp [render_lines]
  | cons a t ih =>
    intro acc
    have hfit : snprintf 128 ((w.userAt a).nickname ++ [NL]) = (w.userAt a).nickname ++ [NL] := by
      unfold snprintf
      apply List.take_of_length_le
      have := h a
      unfold MAX_NICKNAME_LENGTH at this
      simp only [List.length_append, List.length_singleton]
      omega
    simp only [List.foldl_cons, List.map_cons, render_lines]
    rw [ih, hfit]
    simp [strcat]

theorem chat_handle_list_command_users (env : Env) (w : World) (u r : Nat)
    (h : nicknames_fit w) (hc : (w.userAt u).current_room = some r) :
    chat_handle_list_command env w u (some "users".toList)
      = stage w (w.userAt u).connection
          (snprintf BUFFER_SIZE
              ("=== Users in #".toList ++ (w.roomAt r).name ++ " ===\n".toList) ++
            render_lines (users_listing w r) ++ "===================\n".toList) := by
  unfold chat_handle_list_command
  have h1 : ¬ ((some "users".toList : Option CStr) = none ∨
      (some "users".toList : Option CStr) = some "rooms".toList) := by decide
  simp only [h1, if_false, if_true, hc]
  rw [list_users_foldl w h]
  rfl

theorem leave_current_room_fields (env : Env) (w : World) (u r : Nat) :
    ((leave_current_room env w u).roomAt r).name = (w.roomAt r).name ∧
    ((leave_current_room env w u).roomAt r).topic = (w.roomAt r).topic ∧
    ((leave_current_room env w u).roomAt r).password_protected
      = (w.roomAt r).password_protected ∧
    ((leave_current_room env w u).roomAt r).password = (w.roomAt r).password := by
  unfold leave_current_room
  cases hc : (w.userAt u).current_room with
  | none => simp
  | some r0 =>
    simp only [Option.isSome_some, if_true]
    rw [chat_leave_room_roomAt env w u r0 hc]
    by_cases hr : r = r0
    · subst hr; simp
    · simp [upd_other _ _ _ _ hr]

theorem chat_join_room_found_fields (env : Env) (w : World) (u room : Nat)
    (password : Option CStr) (r : Nat) :
    ((chat_join_room_found env w u room password).1.roomAt r).name = (w.roomAt r).name ∧
    ((chat_join_room_found env w u room password).1.roomAt r).topic = (w.roomAt r).topic ∧
    ((chat_join_room_found env w u room password).1.roomAt r).password_protected
      = (w.roomAt r).password_protected ∧
    ((chat_join_room_found env w u room password).1.roomAt r).password
      = (w.roomAt r).password := by
  rcases chat_join_room_found_cases env w u room password with ⟨m, hm⟩ | ⟨hpw, hcap⟩
  · rw [hm]
    exact ⟨rfl, rfl, rfl, rfl⟩
  · rw [chat_join_room_found_roomAt env w u room password hpw hcap]
    have hl := leave_current_room_fields env w u r
    by_cases hr : r = room
    · subst hr
      simp only [upd_same]
      exact hl
    · simp only [upd_other _ _ _ _ hr]
      exact hl

theorem chat_join_room_found_current_room (env : Env) (w : World) (u room : Nat)
    (password : Option CStr) (hret : (chat_join_room_found env w u room password).2 = 0) :
    ((chat_join_room_found env w u room password).1.userAt u).current_room = some room := by
  rcases chat_join_room_found_cases env w u room password with ⟨m, hm⟩ | ⟨hpw, hcap⟩
  · rw [hm] at hret
    simp at hret
  · rw [chat_join_room_found_userAt env w u room password hpw hcap]
    simp

/-- After a successful `chat_join_room` the user's current room carries the
requested name, cut to 31 bytes if the room had to be created. -/
theorem chat_join_room_current_room (env : Env) (w : World) (u : Nat) (name : CStr)
    (password : Option CStr) (hret : (chat_join_room env w u name password).2 = 0) :
    ∃ r, ((chat_join_room env w u name password).1.userAt u).current_room = some r ∧
      (((chat_join_room env w u name password).1.roomAt r).name = name ∨
        ((chat_join_room env w u name password).1.roomAt r).name
          = name.take (MAX_ROOM_NAME_LENGTH - 1)) := by
  unfold chat_join_room at hret ⊢
  cases hf : chat_find_room w name with
  | some room =>
    simp only [hf] at hret ⊢
    refine ⟨room, chat_join_room_found_current_room env w u room password hret, Or.inl ?_⟩
    rw [(chat_join_room_found_fields env w u room password room).1]
    have := List.find?_some hf
    simpa using this
  | none =>
    simp only [hf] at hret ⊢
    by_cases hfull : w.server.rooms.length ≥ MAX_ROOMS
    · simp [hfull] at hret
    · simp only [hfull, if_false] at hret ⊢
      refine ⟨_, chat_join_room_found_current_room env _ u _ password hret, Or.inr ?_⟩
      rw [(chat_join_room_found_fields env _ u _ password _).1]
      simp [chat_room_create]

theorem count_map_of_unique {α β : Type} [BEq α] [LawfulBEq α] [BEq β] [LawfulBEq β] (f : α → β)
    (l : List α) (u : α) (h : ∀ v ∈ l, v ≠ u → f v ≠ f u) :
    (l.map f).count (f u) = l.count u := by
  rw [List.count_eq_countP (f u), List.countP_map, List.count_eq_countP u]
  apply List.countP_congr
  intro x hx
  simp only [Function.comp, beq_iff_eq]
  constructor
  · intro e
    by_contra hne
    exact h x hx hne e
  · intro e
    rw [e]

theorem count_le_count_map {α β : Type} [BEq α] [LawfulBEq α] [BEq β] [LawfulBEq β] (f : α → β)
    (l : List α) (u : α) : l.count u ≤ (l.map f).count (f u) := by
  rw [List.count_eq_countP (f u), List.countP_map, List.count_eq_countP u]
  apply List.countP_mono_left
  intro x _ hx
  simp only [Function.comp, beq_iff_eq] at hx ⊢
  rw [hx]

/-! ## Fields of connections and of the registry that commands keep -/

theorem conn_static_refl (f : Nat → Connection) : conn_static f f :=
  fun _ => ⟨rfl, rfl, rfl, rfl, rfl, rfl⟩

theorem conn_static_trans {f g h : Nat → Connection} (h1 : conn_static f g)
    (h2 : conn_static g h) : conn_static f h := by
  intro c
  obtain ⟨a1, a2, a3, a4, a5, a6⟩ := h1 c
  obtain ⟨b1, b2, b3, b4, b5, b6⟩ := h2 c
  exact ⟨a1.trans b1, a2.trans b2, a3.trans b3, a4.trans b4, a5.trans b5, a6.trans b6⟩

theorem conn_static_upd (f : Nat → Connection) (c0 : Nat) (x : Connection)
    (h : x.keep_alive = (f c0).keep_alive ∧ x.read_buffer_size = (f c0).read_buffer_size ∧
      x.protocol = (f c0).protocol ∧ x.state = (f c0).state ∧
      x.protocol_data = (f c0).protocol_data ∧ x.cleanup_func = (f c0).cleanup_func) :
    conn_static (upd f c0 x) f := by
  intro c
  by_cases hc : c = c0
  · subst hc; simpa using h
  · simp [upd_other _ _ _ _ hc]

theorem stage_static (w : World) (c : Nat) (d : List Char) :
    conn_static (stage w c d).connAt w.connAt := by
  apply conn_static_upd
  unfold connection_prepare_response
  split_ifs <;> exact ⟨rfl, rfl, rfl, rfl, rfl, rfl⟩

theorem connection_write_static (now : Nat) (r : SendResult) (conn : Connection) :
    (connection_write now r conn).1.keep_alive = conn.keep_alive ∧
    (connection_write now r conn).1.read_buffer_size = conn.read_buffer_size ∧
    (connection_write now r conn).1.protocol = conn.protocol ∧
    (connection_write now r conn).1.state = conn.state ∧
    (connection_write now r conn).1.protocol_data = conn.protocol_data ∧
    (connection_write now r conn).1.cleanup_func = conn.cleanup_func := by
  unfold connection_write
  split_ifs
  · exact ⟨rfl, rfl, rfl, rfl, rfl, rfl⟩
  · exact ⟨rfl, rfl, rfl, rfl, rfl, rfl⟩
  · split
    · exact ⟨rfl, rfl, rfl, rfl, rfl, rfl⟩
    · simp only []
      split_ifs <;> exact ⟨rfl, rfl, rfl, rfl, rfl, rfl⟩
    · exact ⟨rfl, rfl, rfl, rfl, rfl, rfl⟩
    · exact ⟨rfl, rfl, rfl, rfl, rfl, rfl⟩

theorem flush_static (env : Env) (w : World) (c : Nat) :
    conn_static (flush env w c).connAt w.connAt := by
  apply conn_static_upd
  exact connection_write_static _ _ _

theorem clear_read_buffer_static (w : World) (c : Nat) :
    conn_static (clear_read_buffer w c).connAt w.connAt := by
  apply conn_static_upd
  exact ⟨rfl, rfl, rfl, rfl, rfl, rfl⟩

theorem chat_send_system_message_static (env : Env) (w : World) (u : Nat) (m : CStr) :
    conn_static (chat_send_system_message env w u m).connAt w.connAt := by
  unfold chat_send_system_message
  exact conn_static_trans (flush_static _ _ _) (stage_static _ _ _)

theorem foldl_static (f : World → Nat → World)
    (hf : ∀ acc u, conn_static (f acc u).connAt acc.connAt) :
    ∀ (l : List Nat) (w : World), conn_static (l.foldl f w).connAt w.connAt := by
  intro l
  induction l with
  | nil => intro w; exact conn_static_refl _
  | cons a t ih =>
    intro w
    simp only [List.foldl_cons]
    exact conn_static_trans (ih _) (hf w a)

theorem chat_announce_to_room_static (w : World) (room : Nat) (m : CStr) :
    conn_static (chat_announce_to_room w room m).connAt w.connAt := by
  unfold chat_announce_to_room
  exact foldl_static _ (fun acc u => stage_static _ _ _) _ _

theorem chat_broadcast_to_room_static (env : Env) (w : World) (room : Nat) (m : CStr)
    (sender : Nat) : conn_static (chat_broadcast_to_room env w room m sender).connAt w.connAt := by
  unfold chat_broadcast_to_room
  refine conn_static_trans (stage_static _ _ _) ?_
  refine foldl_static _ (fun acc u => ?_) _ _
  split_ifs
  · exact stage_static _ _ _
  · exact conn_static_refl _

theorem chat_handle_help_command_static (env : Env) (w : World) (u : Nat) :
    conn_static (chat_handle_help_command env w u).connAt w.connAt := by
  unfold chat_handle_help_command
  exact conn_static_trans (flush_static _ _ _) (stage_static _ _ _)

theorem chat_handle_stats_command_static (env : Env) (w : World) (u : Nat) :
    conn_static (chat_handle_stats_command env w u).connAt w.connAt := by
  unfold chat_handle_stats_command
  exact stage_static _ _ _

theorem chat_handle_list_command_static (env : Env) (w : World) (u : Nat) (args : Option CStr) :
    conn_static (chat_handle_list_command env w u args).connAt w.connAt := by
  unfold chat_handle_list_command
  split_ifs
  · exact stage_static _ _ _
  · cases (w.userAt u).current_room with
    | none => exact chat_send_system_message_static _ _ _ _
    | some room => exact stage_static _ _ _
  · exact chat_send_system_message_static _ _ _ _

theorem chat_leave_room_static (env : Env) (w : World) (u : Nat) :
    conn_static (chat_leave_room env w u).1.connAt w.connAt := by
  unfold chat_leave_room
  cases (w.userAt u).current_room with
  | none => exact chat_send_system_message_static _ _ _ _
  | some r =>
    simp only []
    refine conn_static_trans (chat_send_system_message_static _ _ _ _) ?_
    exact chat_announce_to_room_static _ _ _

theorem leave_current_room_static (env : Env) (w : World) (u : Nat) :
    conn_static (leave_current_room env w u).connAt w.connAt := by
  unfold leave_current_room
  split_ifs
  · exact chat_leave_room_static _ _ _
  · exact conn_static_refl _

theorem chat_join_room_found_static (env : Env) (w : World) (u room : Nat)
    (password : Option CStr) :
    conn_static (chat_join_room_found env w u room password).1.connAt w.connAt := by
  unfold chat_join_room_found
  split_ifs
  · exact chat_send_system_message_static _ _ _ _
  · exact chat_send_system_message_static _ _ _ _
  · simp only []
    refine conn_static_trans (chat_send_system_message_static _ _ _ _) ?_
    refine conn_static_trans (chat_announce_to_room_static _ _ _) ?_
    exact leave_current_room_static _ _ _

theorem chat_join_room_static (env : Env) (w : World) (u : Nat) (name : CStr)
    (password : Option CStr) :
    conn_static (chat_join_room env w u name password).1.connAt w.connAt := by
  unfold chat_join_room
  cases chat_find_room w name with
  | some room => exact chat_join_room_found_static _ _ _ _ _
  | none =>
    simp only []
    split_ifs
    · exact chat_send_system_message_static _ _ _ _
    · exact chat_join_room_found_static _ _ _ _ _

theorem chat_handle_join_command_static (env : Env) (w : World) (u : Nat)
    (args : Option CStr) : conn_static (chat_handle_join_command env w u args).connAt w.connAt := by
  unfold chat_handle_join_command
  cases args with
  | none => exact chat_send_system_message_static _ _ _ _
  | some a =>
    simp only []
    split
    · exact chat_join_room_static _ _ _ _ _
    · exact chat_send_system_message_static _ _ _ _

theorem chat_handle_nick_command_static (env : Env) (w : World) (u : Nat)
    (args : Option CStr) : conn_static (chat_handle_nick_command env w u args).connAt w.connAt := by
  unfold chat_handle_nick_command
  cases args with
  | none => exact chat_send_system_message_static _ _ _ _
  | some a =>
    simp only []
    split_ifs
    · exact chat_send_system_message_static _ _ _ _
    · exact chat_send_system_message_static _ _ _ _
    · exact chat_send_system_message_static _ _ _ _
    · split
      · refine conn_static_trans (chat_announce_to_room_static _ _ _) ?_
        exact chat_send_system_message_static _ _ _ _
      · exact chat_send_system_message_static _ _ _ _

theorem chat_process_command_static (env : Env) (w : World) (u : Nat) (input : CStr) :
    conn_static (chat_process_command env w u input).1.connAt w.connAt := by
  unfold chat_process_command
  split
  · exact conn_static_refl _
  · simp only []
    split_ifs
    · exact chat_handle_help_command_static _ _ _
    · exact chat_handle_join_command_static _ _ _ _
    · exact chat_leave_room_static _ _ _
    · exact chat_handle_nick_command_static _ _ _ _
    · exact chat_handle_list_command_static _ _ _ _
    · exact chat_handle_stats_command_static _ _ _
    · exact chat_send_system_message_static _ _ _ _
    · exact chat_send_system_message_static _ _ _ _
    · exact chat_send_system_message_static _ _ _ _
    · split
      · exact chat_broadcast_to_room_static _ _ _ _ _
      · exact chat_send_system_message_static _ _ _ _

theorem chat_handler_lines_static (env : Env) (conn user : Nat) (lines : List (List Char)) :
    ∀ w : World, conn_static (chat_handler_lines env conn user w lines).1.connAt w.connAt := by
  induction lines with
  | nil => intro w; exact clear_read_buffer_static _ _
  | cons line rest ih =>
    intro w
    unfold chat_handler_lines
    by_cases h1 : line.length > 0
    · by_cases h2 : cstr line = "/quit".toList ∨ cstr line = "quit".toList ∨
          cstr line = "QUIT".toList
      · simp only [h1, h2, if_true]
        exact conn_static_trans (clear_read_buffer_static _ _)
          (conn_static_trans (flush_static _ _ _) (stage_static _ _ _))
      · simp only [h1, h2, if_true, if_false]
        have hp := chat_process_command_static env w user (cstr line)
        by_cases h3 : (chat_process_command env w user (cstr line)).2 < 0
        · simp only [h3, if_true]
          exact conn_static_trans (clear_read_buffer_static _ _) hp
        · simp only [h3, if_false]
          exact conn_static_trans (ih _)
            (conn_static_trans (conn_static_trans (flush_static _ _ _) (stage_static _ _ _)) hp)
    · simp only [h1, if_false]
      exact ih _

theorem same_registry_refl (w : World) : same_registry w w :=
  ⟨rfl, rfl, rfl, rfl, rfl, fun _ => rfl⟩

theorem same_registry_trans {a b c : World} (h1 : same_registry a b) (h2 : same_registry b c) :
    same_registry a c := by
  obtain ⟨a1, a2, a3, a4, a5, a6⟩ := h1
  obtain ⟨b1, b2, b3, b4, b5, b6⟩ := h2
  exact ⟨a1.trans b1, a2.trans b2, a3.trans b3, a4.trans b4, a5.trans b5,
    fun v => (a6 v).trans (b6 v)⟩

theorem same_registry_of_same_chat {a b : World} (h : same_chat a b) : same_registry a b := by
  obtain ⟨h1, _, h3, _, h5⟩ := h
  exact ⟨by rw [h1], by rw [h1], by rw [h1], by rw [h1], h5, fun v => by rw [h3]⟩

theorem same_registry_of_server {a b : World} (hs : a.server = b.server)
    (hn : same_names a b) : same_registry a b :=
  ⟨by rw [hs], by rw [hs], by rw [hs], by rw [hs], hn.2.1, fun v => (hn.2.2 v).2.2⟩

theorem chat_leave_room_registry (env : Env) (w : World) (u : Nat) :
    same_registry (chat_leave_room env w u).1 w :=
  same_registry_of_server (chat_leave_room_server env w u).1 (chat_leave_room_same_names env w u)

theorem chat_join_room_found_registry (env : Env) (w : World) (u room : Nat)
    (password : Option CStr) : same_registry (chat_join_room_found env w u room password).1 w :=
  same_registry_of_server (chat_join_room_found_server env w u room password).1
    (chat_join_room_found_same_names env w u room password)

theorem chat_join_room_registry (env : Env) (w : World) (u : Nat) (name : CStr)
    (password : Option CStr) : same_registry (chat_join_room env w u name password).1 w := by
  unfold chat_join_room
  cases chat_find_room w name with
  | some room => exact chat_join_room_found_registry _ _ _ _ _
  | none =>
    simp only []
    split_ifs
    · exact same_registry_of_same_chat (chat_send_system_message_same _ _ _ _)
    · exact same_registry_trans (chat_join_room_found_registry env _ u _ password)
        ⟨rfl, rfl, rfl, rfl, rfl, fun _ => rfl⟩

theorem chat_handle_nick_command_registry (env : Env) (w : World) (u : Nat)
    (args : Option CStr) : same_registry (chat_handle_nick_command env w u args) w := by
  have hf := chat_handle_nick_command_frame env w u args
  refine ⟨by rw [hf.1], by rw [hf.1], by rw [hf.1], by rw [hf.1], hf.2.2.2, ?_⟩
  intro v
  cases args with
  | none => rfl
  | some s =>
    have hrej := chat_handle_nick_command_rejected env w u s
    by_cases h1 : s = []
    · rw [hrej.1 h1]; rfl
    · by_cases h2 : s.length < MAX_NICKNAME_LENGTH
      · by_cases h3 : ∃ v ∈ w.server.users, (w.userAt v).nickname = s
        · rw [hrej.2.2 h1 h2 h3]; rfl
        · rw [chat_handle_nick_command_accepted env w u s h1 h2 h3]
          by_cases hv : v = u
          · subst hv; simp
          · simp [upd_other _ _ _ _ hv]
      · rw [hrej.2.1 h1 (Nat.not_lt.mp h2)]; rfl

theorem chat_process_command_registry (env : Env) (w : World) (u : Nat) (input : CStr) :
    same_registry (chat_process_command env w u input).1 w := by
  refine chat_process_command_preserves (fun x => same_registry x w) u ?_ ?_ ?_ ?_ ?_ ?_
    env w input (same_registry_refl w)
  · intro a b hab hb
    exact same_registry_trans (same_registry_of_same_chat hab) hb
  · intro x t hx
    refine @same_registry_trans _ x w ⟨rfl, rfl, rfl, rfl, rfl, ?_⟩ hx
    intro v
    by_cases hv : v = u
    · subst hv; simp
    · simp [upd_other _ _ _ _ hv]
  · intro x hx
    exact @same_registry_trans _ x w ⟨rfl, rfl, rfl, rfl, rfl, fun _ => rfl⟩ hx
  · intro e x hx
    exact same_registry_trans (chat_leave_room_registry e x u) hx
  · intro e x n p hx
    exact same_registry_trans (chat_join_room_registry e x u n p) hx
  · intro e x a hx
    exact same_registry_trans (chat_handle_nick_command_registry e x u a) hx

theorem chat_handler_lines_registry (env : Env) (conn user : Nat) (lines : List (List Char))
    (w : World) : same_registry (chat_handler_lines env conn user w lines).1 w := by
  refine chat_handler_lines_preserves (fun x => same_registry x w) user ?_ ?_ env conn lines w
    (same_registry_refl w)
  · intro a b hab hb
    exact same_registry_trans (same_registry_of_same_chat hab) hb
  · intro e x input hx
    exact same_registry_trans (chat_process_command_registry e x user input) hx

theorem flush_stage_keep_alive (env : Env) (w : World) (c : Nat) (d : List Char) :
    ((flush env (stage w c d) c).connAt c).keep_alive = (w.connAt c).keep_alive :=
  ((conn_static_trans (flush_static env (stage w c d) c) (stage_static w c d)) c).1

theorem chat_register_user_counters (env : Env) (w : World) (conn : Nat) :
    (chat_register_user env w conn).1.server.total_users_served
      = w.server.total_users_served + 1 ∧
    (chat_register_user env w conn).1.server.peak_concurrent_users
      = max w.server.peak_concurrent_users (w.server.users.length + 1) ∧
    ((chat_register_user env w conn).1.connAt conn).keep_alive = true ∧
    ((chat_register_user env w conn).1.connAt conn).output
      = (w.connAt conn).wire ++ welcome_banner := by
  refine ⟨?_, ?_, ?_, ?_⟩
  · unfold chat_register_user
    simp only [flush_server, stage_server]
    split_ifs <;> rfl
  · unfold chat_register_user
    simp only [flush_server, stage_server]
    split_ifs with hgt
    · simp only [chat_user_create, List.length_append, List.length_singleton] at hgt ⊢
      omega
    · simp only [chat_user_create, List.length_append, List.length_singleton] at hgt ⊢
      omega
  · unfold chat_register_user
    simp only []
    rw [flush_stage_keep_alive]
    split_ifs <;> simp [chat_user_create]
  · unfold chat_register_user
    simp only []
    rw [flush_stage_output _ _ _ _ (by decide)]
    split_ifs <;> simp [chat_user_create]

/-! ## First contact -/

theorem enhanced_chat_handler_new_user (env : Env) (w : World) (conn : Nat)
    (hbuf : (w.connAt conn).read_buffer ≠ [])
    (hnone : chat_find_user_by_connection w conn = none)
    (hroom : w.server.users.length < MAX_CONNECTIONS) :
    enhanced_chat_handler env w conn
      = chat_handler_lines env conn (chat_register_user env w conn).2
          (chat_register_user env w conn).1
          (split_lines ((chat_register_user env w conn).1.connAt conn).read_buffer).1 := by
  have h0 : ¬ (w.connAt conn).read_buffer_used = 0 := by
    unfold Connection.read_buffer_used
    intro h
    exact hbuf (List.length_eq_zero.mp h)
  have hf : ¬ w.server.users.length ≥ MAX_CONNECTIONS := Nat.not_le.mpr hroom
  unfold enhanced_chat_handler
  simp only [h0, hnone, hf, if_false]

theorem enhanced_chat_handler_known_user (env : Env) (w : World) (conn user : Nat)
    (hbuf : (w.connAt conn).read_buffer ≠ [])
    (hfind : chat_find_user_by_connection w conn = some user) :
    enhanced_chat_handler env w conn
      = chat_handler_lines env conn user w (split_lines (w.connAt conn).read_buffer).1 := by
  have h0 : ¬ (w.connAt conn).read_buffer_used = 0 := by
    unfold Connection.read_buffer_used
    intro h
    exact hbuf (List.length_eq_zero.mp h)
  unfold enhanced_chat_handler
  simp only [h0, hfind, if_false]

/-! ## The line loop -/

theorem chat_leave_room_congr (env : Env) (a b : World) (u : Nat) (h : same_chat a b) :
    same_chat (chat_leave_room env a u).1 (chat_leave_room env b u).1 ∧
    (chat_leave_room env a u).2 = (chat_leave_room env b u).2 := by
  obtain ⟨hs, hr, hu, hnr, hnu⟩ := h
  have hcur : (a.userAt u).current_room = (b.userAt u).current_room := by rw [hu]
  cases hc : (b.userAt u).current_room with
  | none =>
    rw [chat_leave_room_none env a u (hcur.trans hc), chat_leave_room_none env b u hc]
    exact ⟨same_chat_trans (chat_send_system_message_same _ _ _ _)
      (same_chat_trans ⟨hs, hr, hu, hnr, hnu⟩
        (same_chat_symm (chat_send_system_message_same _ _ _ _))), rfl⟩
  | some r =>
    have hca := hcur.trans hc
    have sa := chat_leave_room_server env a u
    have sb := chat_leave_room_server env b u
    refine ⟨⟨?_, ?_, ?_, ?_, ?_⟩, ?_⟩
    · rw [sa.1, sb.1, hs]
    · rw [chat_leave_room_roomAt env a u r hca, chat_leave_room_roomAt env b u r hc, hr]
    · rw [chat_leave_room_userAt env a u r hca, chat_leave_room_userAt env b u r hc, hu]
    · rw [sa.2.1, sb.2.1, hnr]
    · rw [sa.2.2, sb.2.2, hnu]
    · rw [chat_leave_room_ret env a u r hca, chat_leave_room_ret env b u r hc]

theorem leave_current_room_congr (env : Env) (a b : World) (u : Nat) (h : same_chat a b) :
    same_chat (leave_current_room env a u) (leave_current_room env b u) := by
  have hcur : (a.userAt u).current_room = (b.userAt u).current_room := by rw [h.2.2.1]
  unfold leave_current_room
  rw [hcur]
  split_ifs
  · exact (chat_leave_room_congr env a b u h).1
  · exact h

theorem chat_join_room_found_congr (env : Env) (a b : World) (u room : Nat)
    (password : Option CStr) (h : same_chat a b) :
    same_chat (chat_join_room_found env a u room password).1
      (chat_join_room_found env b u room password).1 ∧
    (chat_join_room_found env a u room password).2
      = (chat_join_room_found env b u room password).2 := by
  have hl := leave_current_room_congr env a b u h
  obtain ⟨hs, hr, hu, hnr, hnu⟩ := h
  have sa := chat_join_room_found_server env a u room password
  have sb := chat_join_room_found_server env b u room password
  by_cases hpw : password_rejected (b.roomAt room) password = true
  · have hpa : password_rejected (a.roomAt room) password = true := by rw [hr]; exact hpw
    unfold chat_join_room_found
    simp only [hpw, hpa, if_true]
    exact ⟨same_chat_trans (chat_send_system_message_same _ _ _ _)
      (same_chat_trans ⟨hs, hr, hu, hnr, hnu⟩
        (same_chat_symm (chat_send_system_message_same _ _ _ _))), trivial⟩
  · have hpb : password_rejected (b.roomAt room) password = false := by simpa using hpw
    have hpa : password_rejected (a.roomAt room) password = false := by rw [hr]; exact hpb
    by_cases hcap : (b.roomAt room).users.length ≥ MAX_USERS_PER_ROOM
    · have hca : (a.roomAt room).users.length ≥ MAX_USERS_PER_ROOM := by rw [hr]; exact hcap
      unfold chat_join_room_found
      simp only [hpb, hpa, hcap, hca, Bool.false_eq_true, if_true, if_false]
      exact ⟨same_chat_trans (chat_send_system_message_same _ _ _ _)
        (same_chat_trans ⟨hs, hr, hu, hnr, hnu⟩
          (same_chat_symm (chat_send_system_message_same _ _ _ _))), trivial⟩
    · have hcb : (b.roomAt room).users.length < MAX_USERS_PER_ROOM := Nat.not_le.mp hcap
      have hca : (a.roomAt room).users.length < MAX_USERS_PER_ROOM := by rw [hr]; exact hcb
      refine ⟨⟨?_, ?_, ?_, ?_, ?_⟩, ?_⟩
      · rw [sa.1, sb.1, hs]
      · rw [chat_join_room_found_roomAt env a u room password hpa hca,
          chat_join_room_found_roomAt env b u room password hpb hcb, hl.2.1]
      · rw [chat_join_room_found_userAt env a u room password hpa hca,
          chat_join_room_found_userAt env b u room password hpb hcb, hl.2.2.1]
      · rw [sa.2.1, sb.2.1, hnr]
      · rw [sa.2.2, sb.2.2, hnu]
      · rw [chat_join_room_found_ret env a u room password hpa hca,
          chat_join_room_found_ret env b u room password hpb hcb]

theorem chat_find_room_congr (a b : World) (name : CStr) (h : same_chat a b) :
    chat_find_room a name = chat_find_room b name := by
  unfold chat_find_room
  rw [h.1, h.2.1]

theorem chat_join_room_congr (env : Env) (a b : World) (u : Nat) (name : CStr)
    (password : Option CStr) (h : same_chat a b) :
    same_chat (chat_join_room env a u name password).1 (chat_join_room env b u name password).1 ∧
    (chat_join_room env a u name password).2 = (chat_join_room env b u name password).2 := by
  obtain ⟨sa, ra, ua, ca, nra, nua⟩ := a
  obtain ⟨sb, rb, ub, cb, nrb, nub⟩ := b
  obtain ⟨hs, hr, hu, hnr, hnu⟩ := h
  simp only at hs hr hu hnr hnu
  subst hs hr hu hnr hnu
  unfold chat_join_room
  have hfind : chat_find_room ⟨sa, ra, ua, ca, nra, nua⟩ name
      = chat_find_room ⟨sa, ra, ua, cb, nra, nua⟩ name := rfl
  rw [hfind]
  cases chat_find_room ⟨sa, ra, ua, cb, nra, nua⟩ name with
  | some room => exact chat_join_room_found_congr env _ _ u room password ⟨rfl, rfl, rfl, rfl, rfl⟩
  | none =>
    simp only []
    split_ifs
    · exact ⟨same_chat_trans (chat_send_system_message_same _ _ _ _)
        (same_chat_trans ⟨rfl, rfl, rfl, rfl, rfl⟩
          (same_chat_symm (chat_send_system_message_same _ _ _ _))), rfl⟩
    · exact chat_join_room_found_congr env _ _ u _ password ⟨rfl, rfl, rfl, rfl, rfl⟩

theorem chat_handle_join_command_congr (env : Env) (a b : World) (u : Nat)
    (args : Option CStr) (h : same_chat a b) :
    same_chat (chat_handle_join_command env a u args) (chat_handle_join_command env b u args) := by
  unfold chat_handle_join_command
  cases args with
  | none =>
    exact same_chat_trans (chat_send_system_message_same _ _ _ _)
      (same_chat_trans h (same_chat_symm (chat_send_system_message_same _ _ _ _)))
  | some x =>
    simp only []
    split
    · exact (chat_join_room_congr env a b u _ _ h).1
    · exact same_chat_trans (chat_send_system_message_same _ _ _ _)
        (same_chat_trans h (same_chat_symm (chat_send_system_message_same _ _ _ _)))

theorem chat_handle_nick_command_congr (env : Env) (a b : World) (u : Nat)
    (args : Option CStr) (h : same_chat a b) :
    same_chat (chat_handle_nick_command env a u args) (chat_handle_nick_command env b u args) := by
  have fa := chat_handle_nick_command_frame env a u args
  have fb := chat_handle_nick_command_frame env b u args
  obtain ⟨hs, hr, hu, hnr, hnu⟩ := h
  refine ⟨by rw [fa.1, fb.1, hs], by rw [fa.2.1, fb.2.1, hr], ?_, by rw [fa.2.2.1, fb.2.2.1, hnr],
    by rw [fa.2.2.2, fb.2.2.2, hnu]⟩
  cases args with
  | none => exact hu
  | some s =>
    have ra := chat_handle_nick_command_rejected env a u s
    have rb := chat_handle_nick_command_rejected env b u s
    by_cases h1 : s = []
    · rw [ra.1 h1, rb.1 h1]; exact hu
    · by_cases h2 : s.length < MAX_NICKNAME_LENGTH
      · by_cases h3 : ∃ v ∈ b.server.users, (b.userAt v).nickname = s
        · have h3a : ∃ v ∈ a.server.users, (a.userAt v).nickname = s := by
            rw [hs, hu]; exact h3
          rw [ra.2.2 h1 h2 h3a, rb.2.2 h1 h2 h3]; exact hu
        · have h3a : ¬ ∃ v ∈ a.server.users, (a.userAt v).nickname = s := by
            rw [hs, hu]; exact h3
          rw [chat_handle_nick_command_accepted env a u s h1 h2 h3a,
            chat_handle_nick_command_accepted env b u s h1 h2 h3, hu]
      · rw [ra.2.1 h1 (Nat.not_lt.mp h2), rb.2.1 h1 (Nat.not_lt.mp h2)]; exact hu

theorem same_chat_of_both {a b a2 b2 : World} (ha : same_chat a2 a) (hb : same_chat b2 b)
    (h : same_chat a b) : same_chat a2 b2 :=
  same_chat_trans ha (same_chat_trans h (same_chat_symm hb))

theorem chat_message_congr (env : Env) (a b : World) (u : Nat) (input : CStr)
    (h : same_chat a b) :
    same_chat (chat_message env a u input).1 (chat_message env b u input).1 ∧
    (chat_message env a u input).2 = (chat_message env b u input).2 := by
  have hcur : (a.userAt u).current_room = (b.userAt u).current_room := by rw [h.2.2.1]
  unfold chat_message
  rw [hcur]
  cases (b.userAt u).current_room with
  | none =>
    exact ⟨same_chat_of_both (chat_send_system_message_same _ _ _ _)
      (chat_send_system_message_same _ _ _ _) h, rfl⟩
  | some room =>
    have ba := chat_broadcast_to_room_same env a room input u
    have bb := chat_broadcast_to_room_same env b room input u
    obtain ⟨hs, hr, hu, hnr, hnu⟩ := h
    refine ⟨⟨?_, ?_, ?_, ?_, ?_⟩, rfl⟩
    · show ({ (chat_broadcast_to_room env a room input u).server with
          total_messages :=
            int_incr (chat_broadcast_to_room env a room input u).server.total_messages }
            : ChatServer)
        = { (chat_broadcast_to_room env b room input u).server with
            total_messages :=
              int_incr (chat_broadcast_to_room env b room input u).server.total_messages }
      rw [ba.1, bb.1, hs]
    · exact ba.2.1.trans (hr.trans bb.2.1.symm)
    · exact ba.2.2.1.trans (hu.trans bb.2.2.1.symm)
    · exact ba.2.2.2.1.trans (hnr.trans bb.2.2.2.1.symm)
    · exact ba.2.2.2.2.trans (hnu.trans bb.2.2.2.2.symm)

theorem chat_process_command_congr (env : Env) (a b : World) (u : Nat) (input : CStr)
    (h : same_chat a b) :
    same_chat (chat_process_command env a u input).1 (chat_process_command env b u input).1 ∧
    (chat_process_command env a u input).2 = (chat_process_command env b u input).2 := by
  obtain ⟨sa, ra, ua, ca, nra, nua⟩ := a
  obtain ⟨sb, rb, ub, cb, nrb, nub⟩ := b
  obtain ⟨hs, hr, hu, hnr, hnu⟩ := h
  simp only at hs hr hu hnr hnu
  subst hs hr hu hnr hnu
  have h1 : same_chat
      (⟨sa, ra, upd ua u { ua u with last_activity := env.now }, ca, nra, nua⟩ : World)
      ⟨sa, ra, upd ua u { ua u with last_activity := env.now }, cb, nra, nua⟩ :=
    ⟨rfl, rfl, rfl, rfl, rfl⟩
  have hsys : ∀ m, same_chat
      (chat_send_system_message env
        (⟨sa, ra, upd ua u { ua u with last_activity := env.now }, ca, nra, nua⟩ : World) u m)
      (chat_send_system_message env
        (⟨sa, ra, upd ua u { ua u with last_activity := env.now }, cb, nra, nua⟩ : World) u m) :=
    fun m => same_chat_of_both (chat_send_system_message_same _ _ _ _)
      (chat_send_system_message_same _ _ _ _) h1
  rcases hst : strtok_space input with ⟨_ | command, rest⟩
  · simp only [chat_process_command, hst]
    exact ⟨⟨rfl, rfl, rfl, rfl, rfl⟩, trivial⟩
  · simp only [chat_process_command, hst]
    by_cases hhead : command.head? = some '/'
    · simp only [hhead, if_true]
      by_cases c1 : command = "/help".toList
      · simp only [c1, if_true]
        exact ⟨same_chat_of_both (chat_handle_help_command_same _ _ _)
          (chat_handle_help_command_same _ _ _) h1, trivial⟩
      simp only [c1, if_false]
      by_cases c2 : command = "/join".toList
      · simp only [c2, if_true]
        exact ⟨chat_handle_join_command_congr env _ _ u _ h1, trivial⟩
      simp only [c2, if_false]
      by_cases c3 : command = "/leave".toList
      · simp only [c3, if_true]
        exact ⟨(chat_leave_room_congr env _ _ u h1).1, trivial⟩
      simp only [c3, if_false]
      by_cases c4 : command = "/nick".toList
      · simp only [c4, if_true]
        exact ⟨chat_handle_nick_command_congr env _ _ u _ h1, trivial⟩
      simp only [c4, if_false]
      by_cases c5 : command = "/list".toList
      · simp only [c5, if_true]
        exact ⟨same_chat_of_both (chat_handle_list_command_same _ _ _ _)
          (chat_handle_list_command_same _ _ _ _) h1, trivial⟩
      simp only [c5, if_false]
      by_cases c6 : command = "/stats".toList
      · simp only [c6, if_true]
        exact ⟨same_chat_of_both (chat_handle_stats_command_same _ _ _)
          (chat_handle_stats_command_same _ _ _) h1, trivial⟩
      simp only [c6, if_false]
      by_cases c7 : command = "/time".toList
      · simp only [c7, if_true]
        exact ⟨hsys _, trivial⟩
      simp only [c7, if_false]
      by_cases c8 : command = "/quit".toList
      · simp only [c8, if_true]
        exact ⟨hsys _, trivial⟩
      simp only [c8, if_false]
      exact ⟨hsys _, trivial⟩
    · simp only [hhead, if_false]
      exact chat_message_congr env _ _ u input h1

theorem split_lines_line (l rest : List Char) (h : NL ∉ l) :
    split_lines (l ++ NL :: rest) = (l :: (split_lines rest).1, (split_lines rest).2) := by
  induction l with
  | nil => simp [split_lines]
  | cons c t ih =>
    have hc : c ≠ NL := fun e => h (by rw [e]; exact List.mem_cons_self _ _)
    have ht : NL ∉ t := fun e => h (List.mem_cons_of_mem _ e)
    have e : (c :: t) ++ NL :: rest = c :: (t ++ NL :: rest) := rfl
    rw [e, split_lines]
    simp only [hc, if_false, ih ht]

theorem split_lines_render (lines : List (List Char)) (h : ∀ l ∈ lines, NL ∉ l) :
    split_lines (render_lines lines) = (lines, []) := by
  induction lines with
  | nil => simp [render_lines, split_lines]
  | cons l t ih =>
    have hl : NL ∉ l := h l (List.mem_cons_self _ _)
    have ht : ∀ x ∈ t, NL ∉ x := fun x hx => h x (List.mem_cons_of_mem _ hx)
    simp only [render_lines, List.append_assoc, List.singleton_append]
    rw [split_lines_line l _ hl, ih ht]

theorem run_lines_congr (env : Env) (user : Nat) (lines : List (List Char)) :
    ∀ a b : World, same_chat a b →
      same_chat (run_lines env user a lines) (run_lines env user b lines) := by
  induction lines with
  | nil => intro a b h; exact h
  | cons l t ih =>
    intro a b h
    simp only [run_lines, List.foldl_cons]
    exact ih _ _ (chat_process_command_congr env a b user (cstr l) h).1

theorem chat_message_ret (env : Env) (w : World) (u : Nat) (input : CStr) :
    (chat_message env w u input).2 = 0 := by
  unfold chat_message
  split <;> rfl

/-- `chat_process_command` returns 0 unless the first token is `/quit`. -/
theorem chat_process_command_ret (env : Env) (w : World) (u : Nat) (input : CStr)
    (h : (strtok_space input).1 ≠ some "/quit".toList) :
    (chat_process_command env w u input).2 = 0 := by
  rcases hst : strtok_space input with ⟨_ | command, rest⟩
  · simp only [chat_process_command, hst]
  · have hq : ¬ command = "/quit".toList := by
      intro e
      rw [hst, e] at h
      exact h rfl
    simp only [chat_process_command, hst]
    by_cases hhead : command.head? = some '/'
    · simp only [hhead, if_true]
      by_cases c1 : command = "/help".toList
      · simp only [c1, if_true]
      simp only [c1, if_false]
      by_cases c2 : command = "/join".toList
      · simp only [c2, if_true]
      simp only [c2, if_false]
      by_cases c3 : command = "/leave".toList
      · simp only [c3, if_true]
      simp only [c3, if_false]
      by_cases c4 : command = "/nick".toList
      · simp only [c4, if_true]
      simp only [c4, if_false]
      by_cases c5 : command = "/list".toList
      · simp only [c5, if_true]
      simp only [c5, if_false]
      by_cases c6 : command = "/stats".toList
      · simp only [c6, if_true]
      simp only [c6, if_false]
      by_cases c7 : command = "/time".toList
      · simp only [c7, if_true]
      simp only [c7, hq, if_false]
    · simp only [hhead, if_false]
      exact chat_message_ret env
        { w with userAt := upd w.userAt u { w.userAt u with last_activity := env.now } } u input

/-- The line loop on lines free of quit tokens and `/quit` commands: the
chat state advances as by `run_lines` on the non-empty ones. -/
theorem chat_handler_lines_prefix (env : Env) (conn user : Nat) (rest : List (List Char))
    (pre : List (List Char)) :
    ∀ w : World, (∀ l ∈ pre, ¬ is_quit_token l ∧ ¬ is_quit_command l) →
      ∃ w2 : World, same_chat w2 (run_lines env user w (nonempty_lines pre)) ∧
        chat_handler_lines env conn user w (pre ++ rest)
          = chat_handler_lines env conn user w2 rest := by
  induction pre with
  | nil => intro w _; exact ⟨w, same_chat_refl w, rfl⟩
  | cons l t ih =>
    intro w h
    have hl := h l (List.mem_cons_self _ _)
    have ht : ∀ x ∈ t, ¬ is_quit_token x ∧ ¬ is_quit_command x :=
      fun x hx => h x (List.mem_cons_of_mem _ hx)
    by_cases h1 : l.length > 0
    · have hq : ¬ (cstr l = "/quit".toList ∨ cstr l = "quit".toList ∨
          cstr l = "QUIT".toList) := hl.1
      have hret := chat_process_command_ret env w user (cstr l) hl.2
      have hnneg : ¬ (chat_process_command env w user (cstr l)).2 < 0 := by
        rw [hret]; decide
      obtain ⟨w2, hw2, hrun⟩ := ih
        (flush env (stage (chat_process_command env w user (cstr l)).1 conn ">>> ".toList) conn)
        ht
      refine ⟨w2, ?_, ?_⟩
      · have hne : nonempty_lines (l :: t) = l :: nonempty_lines t := by
          simp [nonempty_lines, h1]
        rw [hne]
        simp only [run_lines, List.foldl_cons]
        refine same_chat_trans hw2 ?_
        exact run_lines_congr env user _ _ _
          (same_chat_trans (flush_same _ _ _) (stage_same _ _ _))
      · rw [← hrun]
        simp only [List.cons_append]
        rw [chat_handler_lines]
        simp only [h1, hq, hnneg, if_true, if_false]
    · obtain ⟨w2, hw2, hrun⟩ := ih w ht
      refine ⟨w2, ?_, ?_⟩
      · have hne : nonempty_lines (l :: t) = nonempty_lines t := by
          simp [nonempty_lines, h1]
        rw [hne]; exact hw2
      · rw [← hrun]
        simp only [List.cons_append]
        rw [chat_handler_lines]
        simp only [h1, if_false]

theorem render_lines_ne_nil (lines : List (List Char)) (h : lines ≠ []) :
    render_lines lines ≠ [] := by
  cases lines with
  | nil => exact absurd rfl h
  | cons l t => simp [render_lines]

theorem connection_write_read_buffer (now : Nat) (r : SendResult) (conn : Connection) :
    (connection_write now r conn).1.read_buffer = conn.read_buffer := by
  unfold connection_write
  split_ifs
  · rfl
  · rfl
  · split
    · rfl
    · simp only []
      split_ifs <;> rfl
    · rfl
    · rfl

theorem chat_register_user_read_buffer (env : Env) (w : World) (conn : Nat) :
    ((chat_register_user env w conn).1.connAt conn).read_buffer
      = (w.connAt conn).read_buffer := by
  unfold chat_register_user
  simp only [flush, stage, upd_same, connection_write_read_buffer]
  unfold connection_prepare_response
  split_ifs <;> simp [chat_user_create]

/-- The result of the line loop when every line is free of quit tokens and
`/quit` commands. -/
theorem chat_handler_lines_all (env : Env) (conn user : Nat) (lines : List (List Char))
    (w : World) (h : ∀ l ∈ lines, ¬ is_quit_token l ∧ ¬ is_quit_command l) :
    (chat_handler_lines env conn user w lines).2 = 1 ∧
    same_chat (chat_handler_lines env conn user w lines).1
      (run_lines env user w (nonempty_lines lines)) := by
  obtain ⟨w2, hw2, hrun⟩ := chat_handler_lines_prefix env conn user [] lines w h
  rw [List.append_nil] at hrun
  rw [hrun]
  simp only [chat_handler_lines]
  exact ⟨trivial, same_chat_trans (clear_read_buffer_same _ _) hw2⟩

/-- The result of the line loop when the first quit token follows lines
free of quit tokens and `/quit` commands. -/
theorem chat_handler_lines_quit (env : Env) (conn user : Nat) (pre post : List (List Char))
    (q : List Char) (w : World)
    (h : ∀ l ∈ pre, ¬ is_quit_token l ∧ ¬ is_quit_command l) (hq : is_quit_token q) :
    ∃ w2 : World, same_chat w2 (run_lines env user w (nonempty_lines pre)) ∧
      chat_handler_lines env conn user w (pre ++ q :: post)
        = (clear_read_buffer
            (flush env (stage w2 conn "Goodbye! Thanks for using MultiServer Chat.\n".toList)
              conn) conn, -1) := by
  obtain ⟨w2, hw2, hrun⟩ := chat_handler_lines_prefix env conn user (q :: post) pre w h
  refine ⟨w2, hw2, ?_⟩
  rw [hrun]
  have hlen : q.length > 0 := by
    cases q with
    | nil =>
      unfold is_quit_token at hq
      simp [cstr] at hq
    | cons c t => simp
  have hq2 : cstr q = "/quit".toList ∨ cstr q = "quit".toList ∨ cstr q = "QUIT".toList := hq
  rw [chat_handler_lines]
  simp only [hlen, hq2, if_true]

/-! ## The connection registry -/

theorem first_free_spec (slots : List (Option Nat)) (i : Nat) (h : first_free slots = some i) :
    slots[i]? = some none ∧ ∀ j, j < i → ∃ c, slots[j]? = some (some c) := by
  induction slots generalizing i with
  | nil => simp [first_free] at h
  | cons s t ih =>
    cases s with
    | none =>
      simp only [first_free, Option.some.injEq] at h
      subst h
      exact ⟨by simp, fun j hj => absurd hj (Nat.not_lt_zero _)⟩
    | some c =>
      simp only [first_free, Option.map_eq_some'] at h
      obtain ⟨k, hk, rfl⟩ := h
      obtain ⟨h1, h2⟩ := ih k hk
      refine ⟨by simpa using h1, ?_⟩
      intro j hj
      cases j with
      | zero => exact ⟨c, by simp⟩
      | succ j => simpa using h2 j (by omega)

theorem slot_of_spec (conn : Nat) (slots : List (Option Nat)) (i : Nat)
    (h : slot_of conn slots = some i) :
    slots[i]? = some (some conn) ∧ ∀ j, j < i → slots[j]? ≠ some (some conn) := by
  induction slots generalizing i with
  | nil => simp [slot_of] at h
  | cons s t ih =>
    by_cases hs : s = some conn
    · simp only [slot_of, hs, if_true, Option.some.injEq] at h
      subst h
      exact ⟨by simp [hs], fun j hj => absurd hj (Nat.not_lt_zero _)⟩
    · simp only [slot_of, hs, if_false, Option.map_eq_some'] at h
      obtain ⟨k, hk, rfl⟩ := h
      obtain ⟨h1, h2⟩ := ih k hk
      refine ⟨by simpa using h1, ?_⟩
      intro j hj
      cases j with
      | zero => simpa using hs
      | succ j => simpa using h2 j (by omega)

theorem occupied_set_some (slots : List (Option Nat)) (i c : Nat)
    (h : slots[i]? = some none) : occupied (slots.set i (some c)) = occupied slots + 1 := by
  induction slots generalizing i with
  | nil => simp at h
  | cons s t ih =>
    cases i with
    | zero =>
      simp only [List.getElem?_cons_zero, Option.some.injEq] at h
      subst h
      simp [occupied, List.countP_cons]
    | succ i =>
      simp only [List.getElem?_cons_succ] at h
      have := ih i h
      simp only [occupied, List.set_cons_succ, List.countP_cons] at this ⊢
      omega

theorem occupied_set_none (slots : List (Option Nat)) (i c : Nat)
    (h : slots[i]? = some (some c)) : occupied (slots.set i none) + 1 = occupied slots := by
  induction slots generalizing i with
  | nil => simp at h
  | cons s t ih =>
    cases i with
    | zero =>
      simp only [List.getElem?_cons_zero, Option.some.injEq] at h
      subst h
      simp [occupied, List.countP_cons]
    | succ i =>
      simp only [List.getElem?_cons_succ] at h
      have := ih i h
      simp only [occupied, List.set_cons_succ, List.countP_cons] at this ⊢
      omega

theorem occupied_le_length (slots : List (Option Nat)) : occupied slots ≤ slots.length :=
  List.countP_le_length _

theorem connection_destroy_destroyed (run : Nat → Nat → World → World) (p : Process)
    (conn : Nat) : (connection_destroy run p conn).destroyed = p.destroyed ++ [conn] := rfl

theorem connection_destroy_world (run : Nat → Nat → World → World) (p : Process) (conn : Nat)
    (h : (p.world.connAt conn).protocol_data = none) :
    (connection_destroy run p conn).world = p.world := by
  simp only [connection_destroy, h]

theorem connection_destroy_last_activity (run : Nat → Nat → World → World)
    (hrun : ∀ f d w c, ((run f d w).connAt c).last_activity = (w.connAt c).last_activity)
    (p : Process) (conn c : Nat) :
    ((connection_destroy run p conn).world.connAt c).last_activity
      = (p.world.connAt c).last_activity := by
  simp only [connection_destroy]
  split
  · exact hrun _ _ _ _
  · rfl

theorem connection_pool_add_full (pool : ConnectionPool) (conn : Nat)
    (h : pool.active_connections ≥ (pool.max_connections : Int)) :
    connection_pool_add pool conn = (pool, -1) := by
  simp only [connection_pool_add, h, if_true]

theorem connection_pool_add_length (pool : ConnectionPool) (conn : Nat) :
    (connection_pool_add pool conn).1.connections.length = pool.connections.length := by
  unfold connection_pool_add
  split
  · rfl
  · split
    · simp
    · rfl

theorem connection_pool_add_active_le (pool : ConnectionPool) (conn : Nat)
    (h : pool.active_connections ≤ (pool.max_connections : Int)) :
    (connection_pool_add pool conn).1.active_connections
      ≤ ((connection_pool_add pool conn).1.max_connections : Int) := by
  have hl := connection_pool_add_length pool conn
  unfold ConnectionPool.max_connections at h ⊢
  rw [hl]
  unfold connection_pool_add
  unfold ConnectionPool.max_connections
  split
  · exact h
  · rename_i hlt
    split
    · simp only
      omega
    · exact h

theorem connection_pool_add_occupied (pool : ConnectionPool) (conn : Nat)
    (h : pool.active_connections = (occupied pool.connections : Int)) :
    (connection_pool_add pool conn).1.active_connections
      = (occupied (connection_pool_add pool conn).1.connections : Int) := by
  unfold connection_pool_add
  split
  · exact h
  · split
    · rename_i i hi
      simp only
      rw [occupied_set_some _ _ _ (first_free_spec _ _ hi).1, h]
      push_cast
      rfl
    · exact h

theorem connection_pool_remove_length (run : Nat → Nat → World → World) (p : Process)
    (conn : Nat) :
    (connection_pool_remove run p conn).pool.connections.length
      = p.pool.connections.length := by
  unfold connection_pool_remove
  split
  · simp [connection_destroy]
  · rfl

theorem connection_pool_remove_active_le (run : Nat → Nat → World → World) (p : Process)
    (conn : Nat) (h : p.pool.active_connections ≤ (p.pool.max_connections : Int)) :
    (connection_pool_remove run p conn).pool.active_connections
      ≤ ((connection_pool_remove run p conn).pool.max_connections : Int) := by
  have hl := connection_pool_remove_length run p conn
  unfold ConnectionPool.max_connections at h ⊢
  rw [hl]
  unfold connection_pool_remove
  split
  · simp only [connection_destroy]
    omega
  · exact h

theorem connection_pool_remove_occupied (run : Nat → Nat → World → World) (p : Process)
    (conn : Nat) (h : p.pool.active_connections = (occupied p.pool.connections : Int)) :
    (connection_pool_remove run p conn).pool.active_connections
      = (occupied (connection_pool_remove run p conn).pool.connections : Int) := by
  unfold connection_pool_remove
  split
  · rename_i i hi
    simp only [connection_destroy]
    have := occupied_set_none _ _ _ (slot_of_spec _ _ _ hi).1
    rw [h]
    omega
  · exact h

/-- A property of the registry kept by `connection_pool_remove` is kept by
the idle sweep. -/
theorem connection_pool_cleanup_idle_preserves (P : Process → Prop)
    (run : Nat → Nat → World → World)
    (hrem : ∀ p conn, P p → P (connection_pool_remove run p conn))
    (now : Nat) (p : Process) (timeout : Int) (h : P p) :
    P (connection_pool_cleanup_idle run now p timeout) := by
  unfold connection_pool_cleanup_idle
  generalize List.range p.pool.max_connections = l
  induction l generalizing p with
  | nil => exact h
  | cons i t ih =>
    simp only [List.foldl_cons]
    apply ih
    unfold cleanup_slot
    split
    · split
      · exact hrem _ _ h
      · exact h
    · exact h

theorem pool_active_le (p : Process) (h : PoolReachable p) :
    p.pool.active_connections ≤ (p.pool.max_connections : Int) := by
  induction h with
  | create w n => simp [connection_pool_create, ConnectionPool.max_connections]
  | traffic p w _ ih => exact ih
  | add p conn _ ih => exact connection_pool_add_active_le _ _ ih
  | remove run p conn _ ih => exact connection_pool_remove_active_le _ _ _ ih
  | cleanup run now p timeout _ ih =>
    exact connection_pool_cleanup_idle_preserves
      (fun q => q.pool.active_connections ≤ (q.pool.max_connections : Int)) run
      (fun q c hq => connection_pool_remove_active_le run q c hq) now p timeout ih

theorem occupied_replicate_none (n : Nat) : occupied (List.replicate n none) = 0 := by
  induction n with
  | zero => rfl
  | succ n ih =>
    simp only [occupied, List.replicate_succ, List.countP_cons] at ih ⊢
    simp [ih]

theorem pool_active_eq_occupied (p : Process) (h : PoolReachable p) :
    p.pool.active_connections = (occupied p.pool.connections : Int) := by
  induction h with
  | create w n => simp [connection_pool_create, occupied_replicate_none]
  | traffic p w _ ih => exact ih
  | add p conn _ ih => exact connection_pool_add_occupied _ _ ih
  | remove run p conn _ ih => exact connection_pool_remove_occupied _ _ _ ih
  | cleanup run now p timeout _ ih =>
    exact connection_pool_cleanup_idle_preserves
      (fun q => q.pool.active_connections = (occupied q.pool.connections : Int)) run
      (fun q c hq => connection_pool_remove_occupied run q c hq) now p timeout ih

theorem slot_of_append (conn : Nat) (A B : List (Option Nat))
    (h : ∀ s ∈ A, s ≠ some conn) : slot_of conn (A ++ some conn :: B) = some A.length := by
  induction A with
  | nil => simp [slot_of]
  | cons a t ih =>
    have ha : a ≠ some conn := h a (List.mem_cons_self _ _)
    have ht : ∀ s ∈ t, s ≠ some conn := fun s hs => h s (List.mem_cons_of_mem _ hs)
    have e : (a :: t) ++ some conn :: B = a :: (t ++ some conn :: B) := rfl
    rw [e, slot_of]
    simp only [ha, if_false, ih ht, Option.map_some', List.length_cons]

theorem set_append_length {α : Type} (A B : List α) (x y : α) :
    (A ++ x :: B).set A.length y = A ++ y :: B := by
  induction A with
  | nil => rfl
  | cons a t ih => simp only [List.cons_append, List.length_cons, List.set_cons_succ, ih]

theorem getElem?_append_length {α : Type} (A B : List α) (x : α) :
    (A ++ x :: B)[A.length]? = some x := by
  induction A with
  | nil => simp
  | cons a t ih => simpa using ih

theorem is_idle_congr (now : Nat) (timeout : Int) (w w0 : World) (c : Nat)
    (h : (w.connAt c).last_activity = (w0.connAt c).last_activity) :
    is_idle now timeout w c ↔ is_idle now timeout w0 c := by
  unfold is_idle
  rw [h]

/-- The loop of the idle sweep, from slot `A.length` on: the slots `A`
already visited hold no idle connection, the slots `B` remain. -/
theorem cleanup_loop (run : Nat → Nat → World → World)
    (hrun : ∀ f d w c, ((run f d w).connAt c).last_activity = (w.connAt c).last_activity)
    (now : Nat) (timeout : Int) (w0 : World) :
    ∀ (B A : List (Option Nat)) (p : Process),
      p.pool.connections = A ++ B →
      (∀ c, some c ∈ A → ¬ is_idle now timeout w0 c) →
      (∀ c, (p.world.connAt c).last_activity = (w0.connAt c).last_activity) →
      ((List.range' A.length B.length).foldl (cleanup_slot run now timeout) p).pool.connections
          = A ++ B.map (swept now timeout w0) ∧
      ((List.range' A.length B.length).foldl (cleanup_slot run now timeout) p).pool.active_connections
          = p.pool.active_connections - (B.countP (idle_in now timeout w0) : Int) ∧
      ((List.range' A.length B.length).foldl (cleanup_slot run now timeout) p).pool.total_connections
          = p.pool.total_connections ∧
      ((List.range' A.length B.length).foldl (cleanup_slot run now timeout) p).destroyed
          = p.destroyed ++ (B.filter (idle_in now timeout w0)).filterMap id ∧
      (∀ c, (((List.range' A.length B.length).foldl (cleanup_slot run now timeout) p).world.connAt
          c).last_activity = (w0.connAt c).last_activity) := by
  intro B
  induction B with
  | nil =>
    intro A p hp _ hl
    simp only [List.length_nil, List.range', List.foldl_nil, List.map_nil, List.append_nil,
      List.countP_nil, List.filter_nil, List.filterMap_nil]
    exact ⟨by simpa using hp, by simp, trivial, trivial, hl⟩
  | cons s B ih =>
    intro A p hp hA hl
    have hget : p.pool.connections[A.length]? = some s := by
      rw [hp]
      exact getElem?_append_length A B s
    simp only [List.length_cons, List.range', List.foldl_cons]
    have hlen : A.length + 1 = (A ++ [swept now timeout w0 s]).length := by simp
    rw [hlen]
    have hA2 : ∀ c, some c ∈ A ++ [swept now timeout w0 s] → ¬ is_idle now timeout w0 c := by
      intro c hc
      rcases List.mem_append.1 hc with h | h
      · exact hA c h
      · simp only [List.mem_singleton] at h
        intro hidle
        unfold swept at h
        split at h
        · exact absurd h (by simp)
        · rename_i hn
          rw [← h] at hn
          simp [idle_in, hidle] at hn
    cases s with
    | none =>
      have hstep : cleanup_slot run now timeout p A.length = p := by
        simp only [cleanup_slot, hget]
      rw [hstep]
      have hp2 : p.pool.connections = (A ++ [swept now timeout w0 none]) ++ B := by
        rw [hp]
        simp [swept, idle_in]
      obtain ⟨h1, h2, h3, h4, h5⟩ := ih _ p hp2 hA2 hl
      refine ⟨?_, ?_, h3, ?_, h5⟩
      · rw [h1]
        simp
      · rw [h2]
        simp [idle_in]
      · rw [h4]
        simp [idle_in]
    | some c =>
      by_cases hidle : is_idle now timeout w0 c
      · have hidle2 : is_idle now timeout p.world c :=
          (is_idle_congr now timeout p.world w0 c (hl c)).2 hidle
        have hno : ∀ s ∈ A, s ≠ some c := by
          intro s hs hsc
          subst hsc
          exact hA c hs hidle
        have hslot : slot_of c p.pool.connections = some A.length := by
          rw [hp]
          exact slot_of_append c A B hno
        have hsw : swept now timeout w0 (some c) = none := by
          simp [swept, idle_in, hidle]
        have hin : idle_in now timeout w0 (some c) = true := by
          simp [idle_in, hidle]
        have hstep : cleanup_slot run now timeout p A.length
            = connection_destroy run
                { p with
                  pool := { p.pool with
                    connections := p.pool.connections.set A.length none
                    active_connections := p.pool.active_connections - 1 } } c := by
          simp only [cleanup_slot, hget, hidle2, if_true, connection_pool_remove, hslot]
        rw [hstep]
        have hp2 : (connection_destroy run
                { p with
                  pool := { p.pool with
                    connections := p.pool.connections.set A.length none
                    active_connections := p.pool.active_connections - 1 } } c).pool.connections
              = (A ++ [swept now timeout w0 (some c)]) ++ B := by
          simp only [connection_destroy]
          rw [hp, set_append_length, hsw]
          simp
        have hl2 : ∀ x, ((connection_destroy run
                { p with
                  pool := { p.pool with
                    connections := p.pool.connections.set A.length none
                    active_connections := p.pool.active_connections - 1 } } c).world.connAt
                  x).last_activity = (w0.connAt x).last_activity := by
          intro x
          rw [connection_destroy_last_activity run hrun]
          exact hl x
        obtain ⟨h1, h2, h3, h4, h5⟩ := ih _ _ hp2 hA2 hl2
        refine ⟨?_, ?_, ?_, ?_, h5⟩
        · rw [h1]
          simp
        · rw [h2]
          simp only [connection_destroy, List.countP_cons, hin, if_true]
          push_cast
          omega
        · rw [h3]
          rfl
        · rw [h4]
          simp only [connection_destroy, List.filter_cons, hin, if_true, List.filterMap_cons, id]
          simp
      · have hidle2 : ¬ is_idle now timeout p.world c := fun h =>
          hidle ((is_idle_congr now timeout p.world w0 c (hl c)).1 h)
        have hsw : swept now timeout w0 (some c) = some c := by
          simp [swept, idle_in, hidle]
        have hin : idle_in now timeout w0 (some c) = false := by
          simp [idle_in, hidle]
        have hstep : cleanup_slot run now timeout p A.length = p := by
          simp only [cleanup_slot, hget, hidle2, if_false]
        rw [hstep]
        have hp2 : p.pool.connections = (A ++ [swept now timeout w0 (some c)]) ++ B := by
          rw [hp, hsw]
          simp
        obtain ⟨h1, h2, h3, h4, h5⟩ := ih _ p hp2 hA2 hl
        refine ⟨?_, ?_, h3, ?_, h5⟩
        · rw [h1]
          simp
        · rw [h2]
          simp [hin]
        · rw [h4]
          simp [hin]

/-- The idle sweep empties exactly the slots that hold an idle connection. -/
theorem connection_pool_cleanup_idle_spec (run : Nat → Nat → World → World)
    (hrun : ∀ f d w c, ((run f d w).connAt c).last_activity = (w.connAt c).last_activity)
    (now : Nat) (p : Process) (timeout : Int) :
    (connection_pool_cleanup_idle run now p timeout).pool.connections
        = p.pool.connections.map (swept now timeout p.world) ∧
    (connection_pool_cleanup_idle run now p timeout).pool.active_connections
        = p.pool.active_connections
          - (p.pool.connections.countP (idle_in now timeout p.world) : Int) ∧
    (connection_pool_cleanup_idle run now p timeout).pool.total_connections
        = p.pool.total_connections ∧
    (connection_pool_cleanup_idle run now p timeout).destroyed
        = p.destroyed ++ (p.pool.connections.filter (idle_in now timeout p.world)).filterMap id ∧
    (∀ c, ((connection_pool_cleanup_idle run now p timeout).world.connAt c).last_activity
        = (p.world.connAt c).last_activity) := by
  have h := cleanup_loop run hrun now timeout p.world p.pool.connections [] p rfl
    (fun c hc => absurd hc (List.not_mem_nil _)) (fun _ => rfl)
  simp only [List.length_nil, List.nil_append] at h
  unfold connection_pool_cleanup_idle ConnectionPool.max_connections
  rw [List.range_eq_range']
  exact h

theorem occupied_swept (now : Nat) (timeout : Int) (w : World) (l : List (Option Nat)) :
    occupied (l.map (swept now timeout w)) + l.countP (idle_in now timeout w) = occupied l := by
  induction l with
  | nil => rfl
  | cons s t ih =>
    simp only [occupied, List.map_cons, List.countP_cons] at ih ⊢
    cases s with
    | none =>
      simp only [swept, idle_in]
      simpa using ih
    | some c =>
      by_cases hc : is_idle now timeout w c
      · simp only [swept, idle_in, hc, decide_True, if_true]
        simp only [Option.isSome_none, Option.isSome_some]
        simp only [Bool.false_eq_true, if_false, if_true]
        omega
      · simp only [swept, idle_in, hc, decide_False, Bool.false_eq_true, if_false]
        simp only [Option.isSome_some, if_true]
        omega

theorem upd_protocol_data (f : Nat → Connection) (conn c : Nat) (x : Connection)
    (h1 : x.protocol_data = (f conn).protocol_data)
    (h2 : x.cleanup_func = (f conn).cleanup_func) :
    (upd f conn x c).protocol_data = (f c).protocol_data ∧
    (upd f conn x c).cleanup_func = (f c).cleanup_func := by
  by_cases hc : c = conn
  · subst hc
    simpa [upd] using ⟨h1, h2⟩
  · simp [upd, hc]

theorem chat_register_user_protocol_data (env : Env) (w : World) (conn c : Nat) :
    (((chat_register_user env w conn).1.connAt c).protocol_data = (w.connAt c).protocol_data) ∧
    (((chat_register_user env w conn).1.connAt c).cleanup_func = (w.connAt c).cleanup_func) := by
  unfold chat_register_user
  simp only
  have hs := fun x : World =>
    conn_static_trans (flush_static env _ conn) (stage_static x conn welcome_banner) c
  have hu := upd_protocol_data w.connAt conn c { w.connAt conn with keep_alive := true } rfl rfl
  refine ⟨?_, ?_⟩
  · rw [(hs _).2.2.2.2.1]
    split_ifs <;> exact hu.1
  · rw [(hs _).2.2.2.2.2]
    split_ifs <;> exact hu.2

/-- The chat handler never attaches a session or a release callback to a
connection. -/
theorem enhanced_chat_handler_protocol_data (env : Env) (w : World) (conn c : Nat) :
    (((enhanced_chat_handler env w conn).1.connAt c).protocol_data
      = (w.connAt c).protocol_data) ∧
    (((enhanced_chat_handler env w conn).1.connAt c).cleanup_func
      = (w.connAt c).cleanup_func) := by
  unfold enhanced_chat_handler
  by_cases h0 : (w.connAt conn).read_buffer_used = 0
  · simp only [h0, if_true]
    exact ⟨trivial, trivial⟩
  · simp only [h0, if_false]
    cases hu : chat_find_user_by_connection w conn with
    | some user =>
      simp only
      exact (chat_handler_lines_static env conn user _ w c).2.2.2.2
    | none =>
      simp only
      by_cases hfull : w.server.users.length ≥ MAX_CONNECTIONS
      · simp only [hfull, if_true]
        exact (stage_static w conn _ c).2.2.2.2
      · simp only [hfull, if_false]
        have h1 := (chat_handler_lines_static env conn (chat_register_user env w conn).2
          (split_lines (((chat_register_user env w conn).1).connAt conn).read_buffer).1
          (chat_register_user env w conn).1 c).2.2.2.2
        have h2 := chat_register_user_protocol_data env w conn c
        exact ⟨h1.1.trans h2.1, h1.2.trans h2.2⟩

theorem connection_read_protocol_data (now : Nat) (r : RecvResult) (conn : Connection) :
    (connection_read now r conn).1.protocol_data = conn.protocol_data ∧
    (connection_read now r conn).1.cleanup_func = conn.cleanup_func := by
  unfold connection_read
  repeat' split
  all_goals exact ⟨rfl, rfl⟩

theorem connection_create_protocol_data (now : Nat) :
    (connection_create now).protocol_data = none ∧ (connection_create now).cleanup_func = none :=
  ⟨rfl, rfl⟩

/-! ## Protocol sniffing -/

theorem strncmp_zero_prefix (lit : List Char) (hlit : NUL ∉ lit) :
    ∀ d : List Char, strncmp_zero d lit lit.length = true ↔ lit <+: d := by
  induction lit with
  | nil => intro d; simp [strncmp_zero]
  | cons c t ih =>
    intro d
    have hc : c ≠ NUL := fun h => hlit (by simp [h])
    have ht : NUL ∉ t := fun h => hlit (List.mem_cons_of_mem _ h)
    cases d with
    | nil =>
      simp only [List.length_cons, strncmp_zero, List.headD_nil, List.headD_cons, ne_eq]
      simp [Ne.symm hc]
    | cons a s =>
      simp only [List.length_cons, strncmp_zero, List.headD_cons, ne_eq, List.tail_cons]
      by_cases hac : a = c
      · subst hac
        simp only [not_true_eq_false, if_false, hc, ih ht s]
        constructor
        · rintro ⟨r, rfl⟩
          exact ⟨r, rfl⟩
        · rintro ⟨r, hr⟩
          exact ⟨r, by simpa using hr⟩
      · simp only [hac, not_false_eq_true, if_true]
        constructor
        · intro h
          exact absurd h (by simp)
        · rintro ⟨r, hr⟩
          simp only [List.cons_append, List.cons.injEq] at hr
          exact absurd hr.1.symm hac

theorem prefix_head {c : Char} {t d : List Char} (h : (c :: t) <+: d) : d.head? = some c := by
  obtain ⟨r, rfl⟩ := h
  rfl

/-- The test of lines 281-286 holds exactly when the data begins with one
of the six verb tokens. -/
theorem detect_http_cond (d : List Char) :
    (strncmp_zero d "GET ".toList 4 || strncmp_zero d "POST ".toList 5 ||
      strncmp_zero d "HEAD ".toList 5 || strncmp_zero d "PUT ".toList 4 ||
      strncmp_zero d "DELETE ".toList 7 || strncmp_zero d "OPTIONS ".toList 8) = true ↔
    ("GET ".toList <+: d ∨ "POST ".toList <+: d ∨ "HEAD ".toList <+: d ∨ "PUT ".toList <+: d ∨
      "DELETE ".toList <+: d ∨ "OPTIONS ".toList <+: d) := by
  have h1 := strncmp_zero_prefix "GET ".toList (by decide) d
  have h2 := strncmp_zero_prefix "POST ".toList (by decide) d
  have h3 := strncmp_zero_prefix "HEAD ".toList (by decide) d
  have h4 := strncmp_zero_prefix "PUT ".toList (by decide) d
  have h5 := strncmp_zero_prefix "DELETE ".toList (by decide) d
  have h6 := strncmp_zero_prefix "OPTIONS ".toList (by decide) d
  simp only [Bool.or_eq_true]
  rw [← h1, ← h2, ← h3, ← h4, ← h5, ← h6]
  simp only [or_assoc]
  rfl

/-- The test of lines 292-294 holds exactly when the data begins with one
of the three chat tokens. -/
theorem detect_chat_cond (d : List Char) :
    (strncmp_zero d "CHAT ".toList 5 || strncmp_zero d "JOIN ".toList 5 ||
      strncmp_zero d "MSG ".toList 4) = true ↔
    ("CHAT ".toList <+: d ∨ "JOIN ".toList <+: d ∨ "MSG ".toList <+: d) := by
  have h1 := strncmp_zero_prefix "CHAT ".toList (by decide) d
  have h2 := strncmp_zero_prefix "JOIN ".toList (by decide) d
  have h3 := strncmp_zero_prefix "MSG ".toList (by decide) d
  simp only [Bool.or_eq_true]
  rw [← h1, ← h2, ← h3]
  simp only [or_assoc]
  rfl

theorem chat_token_not_http (d : List Char)
    (hc : "CHAT ".toList <+: d ∨ "JOIN ".toList <+: d ∨ "MSG ".toList <+: d) :
    ¬ ("GET ".toList <+: d ∨ "POST ".toList <+: d ∨ "HEAD ".toList <+: d ∨ "PUT ".toList <+: d ∨
      "DELETE ".toList <+: d ∨ "OPTIONS ".toList <+: d) := by
  intro hh
  have key : ∀ (a b : Char) (s t : List Char), a ≠ b → (a :: s) <+: d → (b :: t) <+: d → False := by
    intro a b s t hab h1 h2
    have := (prefix_head h1).symm.trans (prefix_head h2)
    exact hab (Option.some.inj this)
  rcases hc with hc | hc | hc <;> rcases hh with hh | hh | hh | hh | hh | hh <;>
    exact key _ _ _ _ (by decide) hc hh

theorem chat_token_length (d : List Char)
    (hc : "CHAT ".toList <+: d ∨ "JOIN ".toList <+: d ∨ "MSG ".toList <+: d) : 3 ≤ d.length := by
  rcases hc with hc | hc | hc <;> have := hc.length_le <;> simp at this <;> omega

/-! ## Room creation, room cap and room password -/

theorem chat_find_room_none (w : World) (name : CStr)
    (h : ∀ r ∈ w.server.rooms, (w.roomAt r).name ≠ name) : chat_find_room w name = none := by
  unfold chat_find_room
  rw [List.find?_eq_none]
  intro r hr
  simpa using h r hr

theorem chat_join_room_rooms_le (env : Env) (w : World) (u : Nat) (name : CStr)
    (password : Option CStr) (h : w.server.rooms.length ≤ MAX_ROOMS) :
    (chat_join_room env w u name password).1.server.rooms.length ≤ MAX_ROOMS := by
  unfold chat_join_room
  cases hf : chat_find_room w name with
  | some room =>
    simp only []
    rw [(chat_join_room_found_server env w u room password).1]
    exact h
  | none =>
    simp only []
    split_ifs with hfull
    · rw [(chat_send_system_message_same env w u _).1]
      exact h
    · rw [(chat_join_room_found_server env _ u _ password).1]
      simp only [chat_room_create, List.length_append, List.length_singleton]
      omega

theorem chat_register_user_rooms (env : Env) (w : World) (conn : Nat) :
    (chat_register_user env w conn).1.server.rooms = w.server.rooms := by
  unfold chat_register_user
  simp only [flush_server, stage_server]
  split_ifs <;> rfl

theorem enhanced_chat_handler_rooms_le (env : Env) (w : World) (conn : Nat)
    (h : w.server.rooms.length ≤ MAX_ROOMS) :
    (enhanced_chat_handler env w conn).1.server.rooms.length ≤ MAX_ROOMS := by
  have hsame : ∀ a b : World, same_chat a b → b.server.rooms.length ≤ MAX_ROOMS →
      a.server.rooms.length ≤ MAX_ROOMS := by
    intro a b hab hb
    rw [hab.1]
    exact hb
  refine enhanced_chat_handler_preserves (fun x => x.server.rooms.length ≤ MAX_ROOMS)
    (fun _ x => x.server.rooms.length ≤ MAX_ROOMS) hsame (fun _ => hsame) ?_ ?_ ?_ ?_ env w conn h
  · intro u e x input hx
    refine chat_process_command_preserves (fun x => x.server.rooms.length ≤ MAX_ROOMS) u hsame
      ?_ ?_ ?_ ?_ ?_ e x input hx
    · intro x t hx
      exact hx
    · intro x hx
      exact hx
    · intro e x hx
      show (chat_leave_room e x u).1.server.rooms.length ≤ MAX_ROOMS
      rw [(chat_leave_room_server e x u).1]
      exact hx
    · intro e x n p hx
      exact chat_join_room_rooms_le e x u n p hx
    · intro e x a hx
      show (chat_handle_nick_command e x u a).server.rooms.length ≤ MAX_ROOMS
      rw [(chat_handle_nick_command_frame e x u a).1]
      exact hx
  · intro x c u _ hx
    exact hx
  · intro e x c hx
    show (chat_register_user e x c).1.server.rooms.length ≤ MAX_ROOMS
    rw [chat_register_user_rooms]
    exact hx
  · intro u x hx
    exact hx

theorem reachable_rooms_le {w : World} (h : Reachable w) :
    w.server.rooms.length ≤ MAX_ROOMS := by
  refine reachable_preserves (fun x => x.server.rooms.length ≤ MAX_ROOMS) ?_ ?_ ?_ h
  · intro a b hab hb
    show a.server.rooms.length ≤ MAX_ROOMS
    rw [hab.1]
    exact hb
  · intro env connAt
    show (chat_server_create env connAt).server.rooms.length ≤ MAX_ROOMS
    simp [chat_server_create, chat_room_create, MAX_ROOMS]
  · intro env w conn hw
    exact enhanced_chat_handler_rooms_le env w conn hw

theorem strtok_space_token (n : CStr) (hne : n ≠ []) (hsp : ' ' ∉ n) :
    strtok_space n = (some n, []) := by
  have hall : ∀ x ∈ n, (x != ' ') = true := by
    intro x hx
    simp only [bne_iff_ne, ne_eq]
    intro h
    exact hsp (h ▸ hx)
  have hd : n.dropWhile (fun c => c == ' ') = n := by
    cases n with
    | nil => rfl
    | cons c t =>
      have hc : (c == ' ') = false := by
        have := hall c (List.mem_cons_self _ _)
        simpa using this
      simp [List.dropWhile, hc]
  have ht : n.takeWhile (fun c => c != ' ') = n := List.takeWhile_eq_self_iff.2 hall
  have hr : n.dropWhile (fun c => c != ' ') = [] := List.dropWhile_eq_nil_iff.2 hall
  unfold strtok_space
  simp only [hd, hne, if_false, ht, hr, List.drop_nil]

/-- The line `/join n` for a token `n` is dispatched to `chat_join_room`
with the room name `n` and no password. -/
theorem chat_process_command_join (env : Env) (w : World) (u : Nat) (n : CStr)
    (hne : n ≠ []) (hsp : ' ' ∉ n) :
    chat_process_command env w u ("/join ".toList ++ n)
      = ((chat_join_room env
          { w with userAt := upd w.userAt u { w.userAt u with last_activity := env.now } } u
          n none).1, 0) := by
  have hs : strtok_space ("/join ".toList ++ n) = (some "/join".toList, n) := by
    simp [strtok_space, String.toList, List.dropWhile, List.takeWhile]
  unfold chat_process_command
  rw [hs]
  simp only []
  have h1 : ("/join".toList).head? = some '/' := by decide
  have h2 : ¬ ("/join".toList = "/help".toList) := by decide
  have hr : strtok_rest n = some n := by
    unfold strtok_rest
    rw [if_neg hne]
  have hn : (strtok_space ([] : CStr)).1 = none := rfl
  simp only [h1, h2, if_true, if_false, hr, chat_handle_join_command, strtok_space_token n hne hsp,
    hn]

/-- Effect of `chat_join_room` for a name that no registered room has, below
the room cap. -/
theorem chat_join_room_new (env : Env) (w : World) (u : Nat) (n : CStr)
    (password : Option CStr)
    (hcap : w.server.rooms.length < MAX_ROOMS)
    (hlen : n.length < MAX_ROOM_NAME_LENGTH)
    (hnew : ∀ r ∈ w.server.rooms, (w.roomAt r).name ≠ n)
    (hcur : ∀ r, (w.userAt u).current_room = some r → r < w.next_room) :
    (chat_join_room env w u n password).2 = 0 ∧
    (chat_join_room env w u n password).1.server.rooms = w.server.rooms ++ [w.next_room] ∧
    (chat_join_room env w u n password).1.server.users = w.server.users ∧
    (chat_join_room env w u n password).1.next_room = w.next_room + 1 ∧
    ((chat_join_room env w u n password).1.roomAt w.next_room).name = n ∧
    ((chat_join_room env w u n password).1.roomAt w.next_room).topic = [] ∧
    ((chat_join_room env w u n password).1.roomAt w.next_room).password_protected = false ∧
    ((chat_join_room env w u n password).1.roomAt w.next_room).password = [] ∧
    ((chat_join_room env w u n password).1.roomAt w.next_room).users = [u] ∧
    ((chat_join_room env w u n password).1.userAt u).current_room = some w.next_room ∧
    (∀ r, r ≠ w.next_room →
      ((chat_join_room env w u n password).1.roomAt r).name = (w.roomAt r).name ∧
      ((chat_join_room env w u n password).1.roomAt r).topic = (w.roomAt r).topic ∧
      ((chat_join_room env w u n password).1.roomAt r).password_protected
        = (w.roomAt r).password_protected ∧
      ((chat_join_room env w u n password).1.roomAt r).password = (w.roomAt r).password) := by
  have hfull : ¬ w.server.rooms.length ≥ MAX_ROOMS := by omega
  generalize hw2 : ({ (chat_room_create env w n).1 with
      server := { (chat_room_create env w n).1.server with
        rooms := (chat_room_create env w n).1.server.rooms ++ [(chat_room_create env w n).2] } }
      : World) = w2
  have hj : chat_join_room env w u n password
      = chat_join_room_found env w2 u w.next_room password := by
    unfold chat_join_room
    rw [chat_find_room_none w n hnew]
    simp only []
    rw [if_neg hfull, ← hw2]
    rfl
  have hname : n.take (MAX_ROOM_NAME_LENGTH - 1) = n :=
    List.take_of_length_le (by omega)
  have hroom : w2.roomAt w.next_room
      = { ChatRoom.zero with name := n, created_at := env.now } := by
    rw [← hw2]
    simp [chat_room_create, hname, ChatRoom.zero]
  have hother : ∀ r, r ≠ w.next_room → w2.roomAt r = w.roomAt r := by
    intro r hr
    rw [← hw2]
    simp [chat_room_create, upd_other _ _ _ _ hr]
  have huser : w2.userAt = w.userAt := by rw [← hw2]; rfl
  have hsrv : w2.server.rooms = w.server.rooms ++ [w.next_room] := by rw [← hw2]; rfl
  have husers : w2.server.users = w.server.users := by rw [← hw2]; rfl
  have hnext : w2.next_room = w.next_room + 1 := by rw [← hw2]; rfl
  have hpw : password_rejected (w2.roomAt w.next_room) password = false := by
    rw [hroom]
    simp [password_rejected, ChatRoom.zero]
  have hcap2 : (w2.roomAt w.next_room).users.length < MAX_USERS_PER_ROOM := by
    rw [hroom]
    simp [ChatRoom.zero, MAX_USERS_PER_ROOM]
  have hcur2 : ¬ (w2.userAt u).current_room = some w.next_room := by
    rw [huser]
    intro h
    exact Nat.lt_irrefl _ (hcur _ h)
  have hf := chat_join_room_found_fields env w2 u w.next_room password
  have hs := chat_join_room_found_server env w2 u w.next_room password
  rw [hj]
  refine ⟨chat_join_room_found_ret env w2 u _ password hpw hcap2, ?_, ?_, ?_, ?_, ?_, ?_, ?_, ?_,
    ?_, ?_⟩
  · rw [hs.1, hsrv]
  · rw [hs.1, husers]
  · rw [hs.2.1, hnext]
  · rw [(hf _).1, hroom]
  · rw [(hf _).2.1, hroom]
    rfl
  · rw [(hf _).2.2.1, hroom]
    rfl
  · rw [(hf _).2.2.2, hroom]
    rfl
  · rw [chat_join_room_found_roomAt env w2 u _ password hpw hcap2]
    simp only [upd_same]
    rw [leave_current_room_users, if_neg hcur2, hroom]
    rfl
  · rw [chat_join_room_found_userAt env w2 u _ password hpw hcap2]
    simp only [upd_same]
  · intro r hr
    rw [(hf r).1, (hf r).2.1, (hf r).2.2.1, (hf r).2.2.2, hother r hr]
    exact ⟨rfl, rfl, rfl, rfl⟩

/-! ## Broadcast and the message counter -/

theorem foldl_stage_except_connAt (d : List Char) (s : Nat) (l : List Nat) :
    ∀ (w : World) (c : Nat),
      (l.foldl (fun acc u => if u ≠ s then stage acc (acc.userAt u).connection d else acc)
        w).connAt c
        = if ∃ m ∈ l, m ≠ s ∧ (w.userAt m).connection = c
          then connection_prepare_response (w.connAt c) d else w.connAt c := by
  induction l with
  | nil => intro w c; simp
  | cons a t ih =>
    intro w c
    simp only [List.foldl_cons]
    rw [ih]
    by_cases has : a = s
    · have hne : ¬ a ≠ s := fun h => h has
      simp only [hne, if_false]
      have hiff : (∃ m ∈ a :: t, m ≠ s ∧ (w.userAt m).connection = c)
          ↔ ∃ m ∈ t, m ≠ s ∧ (w.userAt m).connection = c := by
        constructor
        · rintro ⟨m, hm, h1, h2⟩
          rcases List.mem_cons.mp hm with e | hm
          · exact absurd (e.trans has) h1
          · exact ⟨m, hm, h1, h2⟩
        · rintro ⟨m, hm, h1, h2⟩
          exact ⟨m, List.mem_cons_of_mem _ hm, h1, h2⟩
      simp only [hiff]
    · have hne : a ≠ s := has
      simp only [hne, ne_eq, not_false_eq_true, if_true, stage_userAt, stage_connAt]
      by_cases ha : (w.userAt a).connection = c
      · have hex : ∃ m ∈ a :: t, ¬ m = s ∧ (w.userAt m).connection = c :=
          ⟨a, List.mem_cons_self _ _, has, ha⟩
        by_cases ht : ∃ m ∈ t, ¬ m = s ∧ (w.userAt m).connection = c
        · simp only [ha, ht, hex, if_true]
          exact connection_prepare_response_idem _ _
        · simp only [ha, ht, hex, if_true, if_false]
      · by_cases ht : ∃ m ∈ t, ¬ m = s ∧ (w.userAt m).connection = c
        · have hex : ∃ m ∈ a :: t, ¬ m = s ∧ (w.userAt m).connection = c := by
            obtain ⟨m, hm, h1, h2⟩ := ht
            exact ⟨m, List.mem_cons_of_mem _ hm, h1, h2⟩
          simp only [ha, ht, hex, if_true, if_false]
        · have hex : ¬ ∃ m ∈ a :: t, ¬ m = s ∧ (w.userAt m).connection = c := by
            rintro ⟨m, hm, h1, h2⟩
            rcases List.mem_cons.mp hm with e | hm
            · exact ha (e ▸ h2)
            · exact ht ⟨m, hm, h1, h2⟩
          simp only [ha, ht, hex, if_false]

/-- What `chat_broadcast_to_room` leaves on each connection. -/
theorem chat_broadcast_to_room_connAt (env : Env) (w : World) (room : Nat) (m : CStr)
    (s c : Nat) :
    (chat_broadcast_to_room env w room m s).connAt c
      = if (w.userAt s).connection = c then
          connection_prepare_response
            (if ∃ v ∈ (w.roomAt room).users, v ≠ s ∧ (w.userAt v).connection = c
              then connection_prepare_response (w.connAt c)
                (broadcast_text env (w.userAt s).nickname m)
              else w.connAt c)
            (confirmation_text (w.roomAt room).name)
        else
          if ∃ v ∈ (w.roomAt room).users, v ≠ s ∧ (w.userAt v).connection = c
            then connection_prepare_response (w.connAt c)
              (broadcast_text env (w.userAt s).nickname m)
            else w.connAt c := by
  have hsame : same_chat
      ((w.roomAt room).users.foldl
        (fun acc u => if u ≠ s then
          stage acc (acc.userAt u).connection (broadcast_text env (w.userAt s).nickname m)
          else acc) w) w := by
    refine foldl_same _ (fun acc u => ?_) _ _
    split_ifs
    · exact stage_same _ _ _
    · exact same_chat_refl _
  unfold chat_broadcast_to_room
  simp only []
  rw [stage_connAt]
  have e1 := hsame.2.1
  have e2 := hsame.2.2.1
  unfold broadcast_text at e1 e2 hsame
  simp only [] at e1 e2
  rw [e1, e2, foldl_stage_except_connAt]
  rfl

/-- The broadcast line when nothing is truncated. -/
theorem broadcast_text_fit (env : Env) (nick m : CStr)
    (hfit : ("[".toList ++ env.hms ++ "] <".toList ++ nick ++ "> ".toList ++ m ++ [NL]).length
      < BUFFER_SIZE) :
    broadcast_text env nick m
      = "[".toList ++ env.hms ++ "] <".toList ++ nick ++ "> ".toList ++ m ++ [NL] := by
  have h1 : "[".toList.length = 1 := by decide
  have h2 : "] <".toList.length = 3 := by decide
  have h3 : "> ".toList.length = 2 := by decide
  have h4 : "] ".toList.length = 2 := by decide
  have h5 : "<".toList.length = 1 := by decide
  simp only [List.length_append, List.length_singleton, h1, h2, h3] at hfit
  unfold BUFFER_SIZE at hfit
  have e1 : snprintf BUFFER_SIZE ("[".toList ++ env.hms ++ "] ".toList)
      = "[".toList ++ env.hms ++ "] ".toList := by
    unfold snprintf BUFFER_SIZE
    apply List.take_of_length_le
    simp only [List.length_append, h1, h4]
    omega
  have e2 : snprintf (BUFFER_SIZE - ("[".toList ++ env.hms ++ "] ".toList).length)
      ("<".toList ++ nick ++ "> ".toList ++ m ++ [NL])
      = "<".toList ++ nick ++ "> ".toList ++ m ++ [NL] := by
    unfold snprintf BUFFER_SIZE
    apply List.take_of_length_le
    simp only [List.length_append, List.length_singleton, h1, h4, h5, h3]
    omega
  unfold broadcast_text
  simp only [e1, e2]
  have e3 : "] <".toList = "] ".toList ++ "<".toList := by decide
  rw [e3]
  simp only [List.append_assoc]

theorem confirmation_text_fit (name : CStr) (h : name.length < MAX_ROOM_NAME_LENGTH) :
    confirmation_text name = "Message sent to #".toList ++ name ++ [NL] := by
  have h1 : "Message sent to #".toList.length = 17 := by decide
  unfold confirmation_text snprintf BUFFER_SIZE
  apply List.take_of_length_le
  simp only [List.length_append, List.length_singleton, h1]
  unfold MAX_ROOM_NAME_LENGTH at h
  omega

theorem chat_join_room_total_messages (env : Env) (w : World) (u : Nat) (name : CStr)
    (password : Option CStr) :
    (chat_join_room env w u name password).1.server.total_messages
      = w.server.total_messages := by
  unfold chat_join_room
  cases hf : chat_find_room w name with
  | some room =>
    simp only []
    rw [(chat_join_room_found_server env w u room password).1]
  | none =>
    simp only []
    split_ifs with hfull
    · rw [(chat_send_system_message_same env w u _).1]
    · rw [(chat_join_room_found_server env _ u _ password).1]
      rfl

theorem chat_handle_join_command_total_messages (env : Env) (w : World) (u : Nat)
    (args : Option CStr) :
    (chat_handle_join_command env w u args).server.total_messages
      = w.server.total_messages := by
  refine chat_handle_join_command_preserves
    (fun x => x.server.total_messages = w.server.total_messages) u ?_ ?_ env w args rfl
  · intro a b hab hb
    show a.server.total_messages = w.server.total_messages
    rw [hab.1]
    exact hb
  · intro e x n p hx
    show (chat_join_room e x u n p).1.server.total_messages = w.server.total_messages
    rw [chat_join_room_total_messages]
    exact hx

/-- A command line (first token starting with `/`) leaves the message
counter alone. -/
theorem chat_process_command_command_total (env : Env) (w : World) (u : Nat) (input : CStr)
    (command rest : CStr) (htok : strtok_space input = (some command, rest))
    (hslash : command.head? = some '/') :
    (chat_process_command env w u input).1.server.total_messages
      = w.server.total_messages := by
  unfold chat_process_command
  rw [htok]
  simp only [hslash, if_true]
  generalize hw1 : ({ w with
      userAt := upd w.userAt u { w.userAt u with last_activity := env.now } } : World) = w1
  have hs : w1.server = w.server := by rw [← hw1]
  have hsys : ∀ m, (chat_send_system_message env w1 u m).server.total_messages
      = w.server.total_messages := by
    intro m
    rw [(chat_send_system_message_same env w1 u m).1, hs]
  split_ifs
  · show (chat_handle_help_command env w1 u).server.total_messages = _
    rw [(chat_handle_help_command_same env w1 u).1, hs]
  · show (chat_handle_join_command env w1 u _).server.total_messages = _
    rw [chat_handle_join_command_total_messages, hs]
  · show (chat_leave_room env w1 u).1.server.total_messages = _
    rw [(chat_leave_room_server env w1 u).1, hs]
  · show (chat_handle_nick_command env w1 u _).server.total_messages = _
    rw [(chat_handle_nick_command_frame env w1 u _).1, hs]
  · show (chat_handle_list_command env w1 u _).server.total_messages = _
    rw [(chat_handle_list_command_same env w1 u _).1, hs]
  · show (chat_handle_stats_command env w1 u).server.total_messages = _
    rw [(chat_handle_stats_command_same env w1 u).1, hs]
  · exact hsys _
  · exact hsys _
  · exact hsys _

/-- A line whose first token does not start with `/` is handled as a chat
message of the user, after the activity stamp. -/
theorem chat_process_command_plain (env : Env) (w : World) (u : Nat) (input : CStr)
    (command rest : CStr) (htok : strtok_space input = (some command, rest))
    (hplain : command.head? ≠ some '/') :
    chat_process_command env w u input
      = chat_message env
          { w with userAt := upd w.userAt u { w.userAt u with last_activity := env.now } }
          u input := by
  unfold chat_process_command chat_message
  rw [htok]
  simp only [hplain, if_false]

/-! ## Reading and protocol dispatch -/

/-- Outcome of a successful `connection_read`. -/
theorem connection_read_data (now : Nat) (conn : Connection) (b : Char) (bs : List Char)
    (h : conn.read_buffer_used < read_limit conn) :
    connection_read now (RecvResult.data (b :: bs)) conn
      = ({ conn with read_buffer := conn.read_buffer ++ (b :: bs), last_activity := now },
          (((b :: bs).length : Nat) : Int)) := by
  unfold connection_read
  rw [if_neg (by omega)]

/-- A successful read on a connection of unknown protocol that leaves fewer
than 3 bytes buffered makes `server_handle_connection_read` return -1. -/
theorem server_handle_connection_read_short (env : Env)
    (http_handler : Option (World → Nat → World × Int)) (w : World) (conn : Nat)
    (bytes : List Char)
    (hproto : (w.connAt conn).protocol = ProtocolType.PROTOCOL_UNKNOWN)
    (hroom : (w.connAt conn).read_buffer_used < read_limit (w.connAt conn))
    (hne : bytes ≠ [])
    (hshort : ((w.connAt conn).read_buffer ++ bytes).length < 3) :
    (server_handle_connection_read env http_handler w conn (RecvResult.data bytes)).2 = -1 ∧
    ((server_handle_connection_read env http_handler w conn (RecvResult.data bytes)).1.connAt
      conn).protocol = ProtocolType.PROTOCOL_UNKNOWN ∧
    ((server_handle_connection_read env http_handler w conn (RecvResult.data bytes)).1.connAt
      conn).read_buffer = (w.connAt conn).read_buffer ++ bytes := by
  obtain ⟨b, bs, rfl⟩ : ∃ b bs, bytes = b :: bs := by
    cases bytes with
    | nil => exact absurd rfl hne
    | cons b bs => exact ⟨b, bs, rfl⟩
  have hr := connection_read_data env.now (w.connAt conn) b bs hroom
  have hpos : ¬ ((((b :: bs).length : Nat) : Int) < 0) := by omega
  have hnz : ¬ ((((b :: bs).length : Nat) : Int) = 0) := by
    simp only [List.length_cons]
    omega
  have hdet : server_detect_protocol ((w.connAt conn).read_buffer ++ b :: bs)
      ((w.connAt conn).read_buffer ++ b :: bs).length = ProtocolType.PROTOCOL_UNKNOWN := by
    unfold server_detect_protocol
    rw [if_pos hshort]
  unfold server_handle_connection_read
  simp only [hr, if_neg hpos, if_neg hnz, upd_same, hproto, if_true,
    Connection.read_buffer_used, hdet]
  exact ⟨trivial, trivial, trivial⟩

/-! ## The reactor: write events, end of stream, free slots -/

theorem first_free_of_occupied_lt (l : List (Option Nat)) (h : occupied l < l.length) :
    ∃ i, first_free l = some i := by
  induction l with
  | nil => simp at h
  | cons s t ih =>
    cases s with
    | none => exact ⟨0, rfl⟩
    | some c =>
      have ht : occupied t < t.length := by
        simp only [occupied, List.countP_cons, List.length_cons, Option.isSome_some,
          if_true] at h ⊢
        omega
      obtain ⟨i, hi⟩ := ih ht
      exact ⟨i + 1, by simp [first_free, hi]⟩

theorem getElem?_set_other {α : Type} (l : List α) (i j : Nat) (x : α) (h : j ≠ i) :
    (l.set i x)[j]? = l[j]? := by
  rw [List.getElem?_set]
  rw [if_neg (fun e => h e.symm)]

theorem getElem?_set_same {α : Type} (l : List α) (i : Nat) (x : α) (h : i < l.length) :
    (l.set i x)[i]? = some x := by
  rw [List.getElem?_set]
  simp [h]

/-- When the active count is below the capacity and equals the number of
occupied slots, `connection_pool_add` takes the branch that stores the
connection in the first free slot. -/
theorem connection_pool_add_free (pool : ConnectionPool) (conn i : Nat)
    (hroom : pool.active_connections < (pool.max_connections : Int))
    (hi : first_free pool.connections = some i) :
    connection_pool_add pool conn
      = ({ pool with
            connections := pool.connections.set i (some conn)
            active_connections := pool.active_connections + 1
            total_connections := int_incr pool.total_connections }, (i : Int)) := by
  unfold connection_pool_add
  rw [if_neg (by omega), hi]

theorem conn_invariant (conn : Connection) (h : ConnReachable conn) :
    (conn.has_data_to_send = true ↔ conn.write_buffer_sent < conn.write_buffer_used) ∧
    conn.write_buffer_used ≤ conn.write_buffer_size := by
  induction h with
  | create now =>
    refine ⟨?_, ?_⟩
    · show (false = true ↔ 0 < ([] : List Char).length)
      simp
    · show ([] : List Char).length ≤ BUFFER_SIZE
      simp
  | stage conn data _ ih =>
    unfold connection_prepare_response
    by_cases hd : data.length = 0
    · rw [if_pos hd]
      exact ih
    · rw [if_neg hd]
      simp only [Connection.write_buffer_used]
      refine ⟨⟨fun _ => by omega, fun _ => trivial⟩, ?_⟩
      split_ifs with hg
      · exact Nat.le_refl _
      · omega
  | write now conn r _ hr ih =>
    obtain ⟨ih1, ih2⟩ := ih
    unfold connection_write
    by_cases hf : conn.has_data_to_send = false
    · rw [if_pos hf]
      exact ⟨ih1, ih2⟩
    · rw [if_neg hf]
      have hflag : conn.has_data_to_send = true := by
        cases h : conn.has_data_to_send with
        | true => rfl
        | false => exact absurd h hf
      have hlt := ih1.1 hflag
      have hrem : write_remaining conn = conn.write_buffer_used - conn.write_buffer_sent := by
        unfold write_remaining
        rw [if_pos (Nat.le_of_lt hlt)]
      have hrem0 : ¬ write_remaining conn = 0 := by
        rw [hrem]
        omega
      rw [if_neg hrem0]
      cases r with
      | sent k =>
        cases k with
        | zero => exact ⟨ih1, ih2⟩
        | succ j =>
          have hk := hr (j + 1) rfl
          rw [hrem] at hk
          simp only [Connection.write_buffer_used] at hk hlt ih2 ⊢
          by_cases hge : conn.write_buffer_sent + (j + 1) ≥ conn.write_buffer.length
          · rw [if_pos hge]
            simp
          · rw [if_neg hge]
            simp only [hflag, true_iff]
            exact ⟨by omega, ih2⟩
      | wouldBlock => exact ⟨ih1, ih2⟩
      | error => exact ⟨ih1, ih2⟩

/-- A read that returns end-of-stream (0 bytes) makes
`server_handle_connection_read` return 0 and changes nothing. -/
theorem server_handle_connection_read_eof (env : Env)
    (http_handler : Option (World → Nat → World × Int)) (w : World) (conn : Nat)
    (hroom : (w.connAt conn).read_buffer_used < read_limit (w.connAt conn)) :
    server_handle_connection_read env http_handler w conn (RecvResult.data [])
      = ({ w with connAt := upd w.connAt conn (w.connAt conn) }, 0) := by
  have hr : connection_read env.now (RecvResult.data []) (w.connAt conn)
      = (w.connAt conn, 0) := by
    unfold connection_read
    rw [if_neg (by omega)]
  unfold server_handle_connection_read
  simp only [hr]
  have h0 : ¬ ((0 : Int) < 0) := by decide
  simp only [h0, if_false, if_true]

/-- The reactor's handling of a read event that returns end-of-stream leaves
the connection registered and its state as it was. -/
theorem server_run_connection_eof (env : Env) (run : Nat → Nat → World → World)
    (http_handler : Option (World → Nat → World × Int)) (p : Process) (conn : Nat)
    (hroom : (p.world.connAt conn).read_buffer_used < read_limit (p.world.connAt conn))
    (hstate : (p.world.connAt conn).state ≠ ConnectionState.CONN_STATE_CLOSING) :
    server_run_connection env run http_handler p conn (some (RecvResult.data [])) none
      = { p with world := { p.world with connAt := upd p.world.connAt conn (p.world.connAt conn) } } := by
  unfold server_run_connection
  simp only [server_handle_connection_read_eof env http_handler p.world conn hroom]
  have h0 : ¬ ((0 : Int) < 0) := by decide
  simp only [h0, decide_False, if_true, upd_same]
  rw [if_neg]
  rintro (h | h)
  · cases h
  · exact hstate h

/-! ## Command dispatch -/

/-- Reply of `chat_send_system_message` to a user whose activity stamp has
just been set, read off the user's connection. -/
theorem stamped_reply_output (env : Env) (w : World) (u : Nat) (m : CStr)
    (h : m.length + 5 < BUFFER_SIZE) :
    ((chat_send_system_message env
        { w with userAt := upd w.userAt u { w.userAt u with last_activity := env.now } } u
        m).connAt (w.userAt u).connection).output
      = (w.connAt (w.userAt u).connection).wire ++ ("*** ".toList ++ m ++ [NL]) := by
  have ho := chat_send_system_message_output env
    { w with userAt := upd w.userAt u { w.userAt u with last_activity := env.now } } u m h
  simpa using ho

theorem stamped_current_room (env : Env) (w : World) (u : Nat) :
    (({ w with userAt := upd w.userAt u { w.userAt u with last_activity := env.now } }
      : World).userAt u).current_room = (w.userAt u).current_room := by
  simp

theorem chat_message_none (env : Env) (w : World) (u : Nat) (input : CStr)
    (h : (w.userAt u).current_room = none) :
    chat_message env w u input
      = (chat_send_system_message env w u
          "You must join a room to chat. Type /join lobby".toList, 0) := by
  unfold chat_message
  simp only [h]

/-- A token with a leading `/` that is not in the command table is answered
with the unknown-command hint. -/
theorem chat_process_command_unknown (env : Env) (w : World) (u : Nat) (input : CStr)
    (command rest : CStr) (htok : strtok_space input = (some command, rest))
    (hslash : command.head? = some '/') (hno : command ∉ command_table) :
    chat_process_command env w u input
      = (chat_send_system_message env
          { w with userAt := upd w.userAt u { w.userAt u with last_activity := env.now } } u
          "Unknown command. Type /help for available commands.".toList, 0) := by
  simp only [command_table, List.mem_cons, List.mem_singleton, List.not_mem_nil, or_false,
    not_or] at hno
  obtain ⟨c1, c2, c3, c4, c5, c6, c7, c8⟩ := hno
  unfold chat_process_command
  rw [htok]
  simp only [hslash, c1, c2, c3, c4, c5, c6, c7, c8, if_true, if_false]

/-- A line whose first token is `/quit` is answered with `Goodbye!` and the
close signal. -/
theorem chat_process_command_quit (env : Env) (w : World) (u : Nat) (input rest : CStr)
    (htok : strtok_space input = (some "/quit".toList, rest)) :
    chat_process_command env w u input
      = (chat_send_system_message env
          { w with userAt := upd w.userAt u { w.userAt u with last_activity := env.now } } u
          "Goodbye!".toList, -1) := by
  unfold chat_process_command
  rw [htok]
  have h1 : ("/quit".toList).head? = some '/' := by decide
  have h2 : ¬ ("/quit".toList = "/help".toList) := by decide
  have h3 : ¬ ("/quit".toList = "/join".toList) := by decide
  have h4 : ¬ ("/quit".toList = "/leave".toList) := by decide
  have h5 : ¬ ("/quit".toList = "/nick".toList) := by decide
  have h6 : ¬ ("/quit".toList = "/list".toList) := by decide
  have h7 : ¬ ("/quit".toList = "/stats".toList) := by decide
  have h8 : ¬ ("/quit".toList = "/time".toList) := by decide
  simp only [h1, h2, h3, h4, h5, h6, h7, h8, if_true, if_false]

theorem chat_process_command_join_args (env : Env) (w : World) (u : Nat) (input rest : CStr)
    (htok : strtok_space input = (some "/join".toList, rest)) :
    chat_process_command env w u input
      = (chat_handle_join_command env
          { w with userAt := upd w.userAt u { w.userAt u with last_activity := env.now } } u
          (strtok_rest rest), 0) := by
  unfold chat_process_command
  rw [htok]
  have h1 : ("/join".toList).head? = some '/' := by decide
  have h2 : ¬ ("/join".toList = "/help".toList) := by decide
  simp only [h1, h2, if_true, if_false]

theorem chat_process_command_leave (env : Env) (w : World) (u : Nat) (input rest : CStr)
    (htok : strtok_space input = (some "/leave".toList, rest)) :
    chat_process_command env w u input
      = ((chat_leave_room env
          { w with userAt := upd w.userAt u { w.userAt u with last_activity := env.now } }
          u).1, 0) := by
  unfold chat_process_command
  rw [htok]
  have h1 : ("/leave".toList).head? = some '/' := by decide
  have h2 : ¬ ("/leave".toList = "/help".toList) := by decide
  have h3 : ¬ ("/leave".toList = "/join".toList) := by decide
  simp only [h1, h2, h3, if_true, if_false]

theorem chat_process_command_nick_args (env : Env) (w : World) (u : Nat) (input rest : CStr)
    (htok : strtok_space input = (some "/nick".toList, rest)) :
    chat_process_command env w u input
      = (chat_handle_nick_command env
          { w with userAt := upd w.userAt u { w.userAt u with last_activity := env.now } } u
          (strtok_rest rest), 0) := by
  unfold chat_process_command
  rw [htok]
  have h1 : ("/nick".toList).head? = some '/' := by decide
  have h2 : ¬ ("/nick".toList = "/help".toList) := by decide
  have h3 : ¬ ("/nick".toList = "/join".toList) := by decide
  have h4 : ¬ ("/nick".toList = "/leave".toList) := by decide
  simp only [h1, h2, h3, h4, if_true, if_false]

theorem chat_process_command_list (env : Env) (w : World) (u : Nat) (input rest : CStr)
    (htok : strtok_space input = (some "/list".toList, rest)) :
    chat_process_command env w u input
      = (chat_handle_list_command env
          { w with userAt := upd w.userAt u { w.userAt u with last_activity := env.now } } u
          (strtok_rest rest), 0) := by
  unfold chat_process_command
  rw [htok]
  have h1 : ("/list".toList).head? = some '/' := by decide
  have h2 : ¬ ("/list".toList = "/help".toList) := by decide
  have h3 : ¬ ("/list".toList = "/join".toList) := by decide
  have h4 : ¬ ("/list".toList = "/leave".toList) := by decide
  have h5 : ¬ ("/list".toList = "/nick".toList) := by decide
  simp only [h1, h2, h3, h4, h5, if_true, if_false]

theorem takeWhile_append_stop {α : Type} (p : α → Bool) (l : List α) (x : α) (t : List α)
    (hl : ∀ c ∈ l, p c = true) (hx : p x = false) :
    (l ++ x :: t).takeWhile p = l ∧ (l ++ x :: t).dropWhile p = x :: t := by
  induction l with
  | nil => simp [List.takeWhile, List.dropWhile, hx]
  | cons a s ih =>
    have ha : p a = true := hl a (List.mem_cons_self _ _)
    have hs := ih (fun c hc => hl c (List.mem_cons_of_mem _ hc))
    simp [List.takeWhile, List.dropWhile, ha, hs.1, hs.2]

theorem dropWhile_spaces (k : Nat) (l : List Char) (h : l.head? ≠ some ' ') :
    (List.replicate k ' ' ++ l).dropWhile (fun c => c == ' ') = l := by
  induction k with
  | zero =>
    cases l with
    | nil => rfl
    | cons a t =>
      have ha : (a == ' ') = false := by
        simp only [List.head?_cons, ne_eq, Option.some.injEq] at h
        simpa using h
      simp [List.dropWhile, ha]
  | succ k ih =>
    simp only [List.replicate_succ, List.cons_append, List.dropWhile]
    simpa using ih

/-- What `strtok(s, " ")` finds: leading spaces are skipped, and the token is
the run of bytes other than the space that follows; the text after the
space that ends the token is left for the next call. -/
theorem strtok_space_spec (k : Nat) (tok tail : CStr) (hne : tok ≠ []) (hsp : ' ' ∉ tok) :
    strtok_space (List.replicate k ' ' ++ tok ++ ' ' :: tail) = (some tok, tail) ∧
    strtok_space (List.replicate k ' ' ++ tok) = (some tok, []) := by
  have hall : ∀ x ∈ tok, (x != ' ') = true := by
    intro x hx
    simp only [bne_iff_ne, ne_eq]
    intro h
    exact hsp (h ▸ hx)
  have hhead : ∀ t : CStr, (tok ++ t).head? ≠ some ' ' := by
    intro t
    cases tok with
    | nil => exact absurd rfl hne
    | cons a s =>
      have := hall a (List.mem_cons_self _ _)
      simpa using this
  have hstop := takeWhile_append_stop (fun c => c != ' ') tok ' ' tail hall (by decide)
  refine ⟨?_, ?_⟩
  · have hd : (List.replicate k ' ' ++ tok ++ ' ' :: tail).dropWhile (fun c => c == ' ')
        = tok ++ ' ' :: tail := by
      rw [List.append_assoc]
      exact dropWhile_spaces k _ (hhead _)
    have hn : tok ++ ' ' :: tail ≠ [] := by simp
    unfold strtok_space
    simp only [hd, hn, if_false, hstop.1, hstop.2, List.drop_succ_cons, List.drop_zero]
  · have hd : (List.replicate k ' ' ++ tok).dropWhile (fun c => c == ' ') = tok := by
      have := dropWhile_spaces k tok (by simpa using hhead [])
      exact this
    have h1 := strtok_space_token tok hne hsp
    unfold strtok_space at h1 ⊢
    rw [hd]
    have hd2 : tok.dropWhile (fun c => c == ' ') = tok := by
      have := dropWhile_spaces 0 tok (by simpa using hhead [])
      simpa using this
    rw [hd2] at h1
    exact h1

/-! ## Rooms are never removed or renamed -/

theorem rooms_kept_refl (w : World) : rooms_kept w w :=
  ⟨List.prefix_refl _, Nat.le_refl _, fun _ _ => rfl⟩

theorem rooms_kept_trans {a b c : World} (h1 : rooms_kept a b) (h2 : rooms_kept b c) :
    rooms_kept a c := by
  refine ⟨h1.1.trans h2.1, Nat.le_trans h1.2.1 h2.2.1, ?_⟩
  intro r hr
  rw [h2.2.2 r (Nat.lt_of_lt_of_le hr h1.2.1), h1.2.2 r hr]

theorem rooms_kept_of_eq {w x : World} (hs : x.server.rooms = w.server.rooms)
    (hn : x.next_room = w.next_room) (hr : ∀ r, (x.roomAt r).name = (w.roomAt r).name) :
    rooms_kept w x :=
  ⟨by rw [hs], by rw [hn], fun r _ => hr r⟩

theorem rooms_kept_of_same_chat {w x : World} (h : same_chat x w) : rooms_kept w x :=
  rooms_kept_of_eq (by rw [h.1]) h.2.2.2.1 (fun r => by rw [h.2.1])

theorem chat_leave_room_rooms_kept (env : Env) (w : World) (u : Nat) :
    rooms_kept w (chat_leave_room env w u).1 := by
  have hs := chat_leave_room_server env w u
  refine rooms_kept_of_eq (by rw [hs.1]) hs.2.1 ?_
  intro r
  cases hc : (w.userAt u).current_room with
  | none =>
    rw [chat_leave_room_none env w u hc, (chat_send_system_message_same env w u _).2.1]
  | some r0 =>
    rw [chat_leave_room_roomAt env w u r0 hc]
    by_cases hr : r = r0
    · subst hr
      simp
    · simp [upd_other _ _ _ _ hr]

theorem chat_join_room_rooms_kept (env : Env) (w : World) (u : Nat) (name : CStr)
    (password : Option CStr) : rooms_kept w (chat_join_room env w u name password).1 := by
  unfold chat_join_room
  cases hf : chat_find_room w name with
  | some room =>
    simp only []
    have hs := chat_join_room_found_server env w u room password
    exact rooms_kept_of_eq (by rw [hs.1]) hs.2.1
      (fun r => (chat_join_room_found_fields env w u room password r).1)
  | none =>
    simp only []
    split_ifs with hfull
    · exact rooms_kept_of_same_chat (chat_send_system_message_same env w u _)
    · have hs := chat_join_room_found_server env
        ({ (chat_room_create env w name).1 with
            server := { (chat_room_create env w name).1.server with
              rooms := (chat_room_create env w name).1.server.rooms
                ++ [(chat_room_create env w name).2] } } : World)
        u (chat_room_create env w name).2 password
      refine ⟨?_, ?_, ?_⟩
      · rw [hs.1]
        exact List.prefix_append _ _
      · rw [hs.2.1]
        exact Nat.le_succ _
      · intro r hr
        rw [(chat_join_room_found_fields env _ u _ password r).1]
        have hne : r ≠ w.next_room := Nat.ne_of_lt hr
        simp [chat_room_create, upd_other _ _ _ _ hne]

theorem chat_process_command_rooms_kept (env : Env) (w : World) (u : Nat) (input : CStr) :
    rooms_kept w (chat_process_command env w u input).1 := by
  refine chat_process_command_preserves (fun x => rooms_kept w x) u ?_ ?_ ?_ ?_ ?_ ?_
    env w input (rooms_kept_refl w)
  · intro a b hab hb
    exact rooms_kept_trans hb (rooms_kept_of_same_chat hab)
  · intro x t hx
    exact rooms_kept_trans hx (rooms_kept_of_eq rfl rfl (fun _ => rfl))
  · intro x hx
    exact rooms_kept_trans hx (rooms_kept_of_eq rfl rfl (fun _ => rfl))
  · intro e x hx
    exact rooms_kept_trans hx (chat_leave_room_rooms_kept e x u)
  · intro e x n p hx
    exact rooms_kept_trans hx (chat_join_room_rooms_kept e x u n p)
  · intro e x a hx
    have hf := chat_handle_nick_command_frame e x u a
    exact rooms_kept_trans hx
      (rooms_kept_of_eq (by rw [hf.1]) hf.2.2.1 (fun r => by rw [hf.2.1]))

theorem chat_register_user_rooms_kept (env : Env) (w : World) (conn : Nat) :
    rooms_kept w (chat_register_user env w conn).1 := by
  refine rooms_kept_of_eq (chat_register_user_rooms env w conn) ?_
    (fun r => by rw [chat_register_user_roomAt])
  unfold chat_register_user
  simp only [flush_next_room, stage_next_room]
  split_ifs <;> rfl

theorem enhanced_chat_handler_rooms_kept (env : Env) (w : World) (conn : Nat) :
    rooms_kept w (enhanced_chat_handler env w conn).1 := by
  have hsame : ∀ a b : World, same_chat a b → rooms_kept w b → rooms_kept w a :=
    fun a b hab hb => rooms_kept_trans hb (rooms_kept_of_same_chat hab)
  refine enhanced_chat_handler_preserves (fun x => rooms_kept w x) (fun _ x => rooms_kept w x)
    hsame (fun _ => hsame) ?_ ?_ ?_ ?_ env w conn (rooms_kept_refl w)
  · intro u e x input hx
    exact rooms_kept_trans hx (chat_process_command_rooms_kept e x u input)
  · intro x c u _ hx
    exact hx
  · intro e x c hx
    exact rooms_kept_trans hx (chat_register_user_rooms_kept e x c)
  · intro u x hx
    exact hx

/-- A room that is registered and allocated in `w` and named `n` is still
found under `n` after any step that keeps the rooms. -/
theorem chat_find_room_kept {w x : World} (n : CStr) (hk : rooms_kept w x)
    (halloc : ∀ r ∈ w.server.rooms, r < w.next_room)
    (h : (chat_find_room w n).isSome = true) : (chat_find_room x n).isSome = true := by
  unfold chat_find_room at h ⊢
  rw [List.find?_isSome] at h ⊢
  obtain ⟨r, hr, hn⟩ := h
  refine ⟨r, hk.1.subset hr, ?_⟩
  rw [hk.2.2 r (halloc r hr)]
  exact hn

theorem reachable_lobby {w : World} (h : Reachable w) :
    (chat_find_room w "lobby".toList).isSome = true := by
  induction h with
  | init env connAt =>
    unfold chat_find_room
    rw [List.find?_isSome]
    refine ⟨0, ?_, ?_⟩
    · simp [chat_server_create, chat_room_create]
    · simp [chat_server_create, chat_room_create, MAX_ROOM_NAME_LENGTH]
  | network w connAt _ ih => exact ih
  | handler env w conn hw ih =>
    exact chat_find_room_kept _ (enhanced_chat_handler_rooms_kept env w conn)
      (reachable_member_inv hw).2.1 ih

/-! ## Settings record and caps -/

/-- A join to a room that holds `MAX_USERS_PER_ROOM` members fails and
changes no chat state. -/
theorem chat_join_room_found_full (env : Env) (w : World) (u r : Nat) (password : Option CStr)
    (hfull : (w.roomAt r).users.length = MAX_USERS_PER_ROOM) :
    (chat_join_room_found env w u r password).2 = -1 ∧
    same_chat (chat_join_room_found env w u r password).1 w := by
  rcases chat_join_room_found_cases env w u r password with ⟨m, hm⟩ | ⟨_, hcap⟩
  · rw [hm]
    exact ⟨rfl, chat_send_system_message_same env w u m⟩
  · omega

/-! ## Receivable states: open rooms, assigned protocols -/

theorem chat_leave_room_rooms_open (env : Env) (w : World) (u : Nat) (h : rooms_open w) :
    rooms_open (chat_leave_room env w u).1 := by
  intro r
  cases hc : (w.userAt u).current_room with
  | none =>
    rw [chat_leave_room_none env w u hc]
    exact h r
  | some r0 =>
    rw [chat_leave_room_roomAt env w u r0 hc]
    by_cases hr : r = r0
    · subst hr
      simp only [upd_same]
      exact h r
    · simp only [upd_other _ _ _ _ hr]
      exact h r

theorem chat_join_room_rooms_open (env : Env) (w : World) (u : Nat) (name : CStr)
    (password : Option CStr) (h : rooms_open w) :
    rooms_open (chat_join_room env w u name password).1 := by
  intro r
  unfold chat_join_room
  cases hf : chat_find_room w name with
  | some room =>
    simp only []
    rw [(chat_join_room_found_fields env w u room password r).2.2.1]
    exact h r
  | none =>
    simp only []
    split_ifs with hfull
    · rw [(chat_send_system_message_same env w u _).2.1]
      exact h r
    · rw [(chat_join_room_found_fields env _ u _ password r).2.2.1]
      by_cases hr : r = w.next_room
      · subst hr
        simp [chat_room_create]
      · simp only [chat_room_create, upd_other _ _ _ _ hr]
        exact h r

theorem enhanced_chat_handler_rooms_open (env : Env) (w : World) (conn : Nat)
    (h : rooms_open w) : rooms_open (enhanced_chat_handler env w conn).1 := by
  have hsame : ∀ a b : World, same_chat a b → rooms_open b → rooms_open a := by
    intro a b hab hb r
    rw [hab.2.1]
    exact hb r
  refine enhanced_chat_handler_preserves rooms_open (fun _ x => rooms_open x) hsame
    (fun _ => hsame) ?_ ?_ ?_ ?_ env w conn h
  · intro u e x input hx
    refine chat_process_command_preserves rooms_open u hsame ?_ ?_ ?_ ?_ ?_ e x input hx
    · intro x t hx
      exact hx
    · intro x hx
      exact hx
    · intro e x hx
      exact chat_leave_room_rooms_open e x u hx
    · intro e x n p hx
      exact chat_join_room_rooms_open e x u n p hx
    · intro e x a hx r
      show ((chat_handle_nick_command e x u a).roomAt r).password_protected = false
      rw [(chat_handle_nick_command_frame e x u a).2.1]
      exact hx r
  · intro x c u _ hx
    exact hx
  · intro e x c hx r
    show ((chat_register_user e x c).1.roomAt r).password_protected = false
    rw [chat_register_user_roomAt]
    exact hx r
  · intro u x hx
    exact hx

/-- Nothing sets the `password_protected` flag (`chat_room_create`, line 108,
clears it and is its only writer): in every reachable chat state no room is
password-protected. -/
theorem reachable_rooms_open {w : World} (h : Reachable w) : rooms_open w := by
  refine reachable_preserves rooms_open ?_ ?_ ?_ h
  · intro a b hab hb r
    rw [hab.2.1]
    exact hb r
  · intro env connAt r
    show ((chat_server_create env connAt).roomAt r).password_protected = false
    by_cases hr : r = 0
    · subst hr
      simp [chat_server_create, chat_room_create]
    · simp [chat_server_create, chat_room_create, upd_other _ _ _ _ hr, ChatRoom.zero]
  · intro env w conn hw
    exact enhanced_chat_handler_rooms_open env w conn hw

theorem password_rejected_open (room : ChatRoom) (password : Option CStr)
    (h : room.password_protected = false) : password_rejected room password = false := by
  unfold password_rejected
  rw [h]
  rfl

theorem reachable_foldl_exchange (env : Env) (d : String) (f : Nat → Nat) (l : List Nat)
    (w : World) (h : Reachable w) :
    Reachable (l.foldl (fun x i => exchange env x (f i) d) w) := by
  induction l generalizing w with
  | nil => exact h
  | cons a t ih =>
    exact ih _ (reachable_exchange env w (f a) d h)

theorem reachable_lobby50 : Reachable lobby50 :=
  reachable_foldl_exchange env5 "/join lobby\n" (fun i => i + 1) (List.range 50) world0
    (Reachable.init _ _)

theorem reachable_lobby50_guest : Reachable lobby50_guest :=
  reachable_exchange _ _ _ _ reachable_lobby50

set_option maxRecDepth 100000 in
/-- C1 (defect in the code): a fresh chat connection whose read buffer holds
the complete line `/join lobby` followed by the incomplete tail `hel` is
handled with result "continue", and afterwards `read_buffer_used` is 0: the
three tail bytes are discarded instead of being kept for the next read. -/
theorem C1_incomplete_tail_discarded :
    (split_lines "/join lobby\nhel".toList) = (["/join lobby".toList], "hel".toList) ∧
    ((deliver 5 world0 1 "/join lobby\nhel".toList).connAt 1).read_buffer
      = "/join lobby\nhel".toList ∧
    (enhanced_chat_handler env5 (deliver 5 world0 1 "/join lobby\nhel".toList) 1).2 = 1 ∧
    ((enhanced_chat_handler env5 (deliver 5 world0 1 "/join lobby\nhel".toList) 1).1.connAt
      1).read_buffer_used = 0 := by
  decide

set_option maxRecDepth 100000 in
/-- C2 (defect in the code): the command line `/nick bob` delivered in one
read renames the user to `bob`; delivered as the fragments `/nick b` and
`ob` + newline in two reads, with the handler run after each, it leaves the
nickname at its default `User5`: the first fragment is discarded and the
second is handled as a line of its own. -/
theorem C2_split_command_not_reassembled :
    ((exchange env5 world0 1 "/nick bob\n").userAt 0).nickname = "bob".toList ∧
    ((exchange env5 (exchange env5 world0 1 "/nick b") 1 "ob\n").userAt 0).nickname
      = "User5".toList ∧
    (exchange env5 world0 1 "/nick bob\n").server.users = [0] ∧
    (exchange env5 (exchange env5 world0 1 "/nick b") 1 "ob\n").server.users = [0] ∧
    ((exchange env5 (exchange env5 world0 1 "/nick b") 1 "ob\n").connAt 1).wire
      = welcome_banner ++ "*** You must join a room to chat. Type /join lobby\n>>> ".toList := by
  decide

/-- C3: in every chat state reachable from `chat_server_create` through any
sequence of chat handler inputs, every room's member count is at most
`MAX_USERS_PER_ROOM` = 50. -/
theorem C3_member_count_within_cap (w : World) (h : Reachable w) (r : Nat) :
    (w.roomAt r).users.length ≤ MAX_USERS_PER_ROOM ∧ MAX_USERS_PER_ROOM = 50 :=
  ⟨reachable_rooms_bounded h r, rfl⟩

/-- Witness for C3: the state after two users joined `lobby`. -/
theorem C3_member_count_within_cap_witness :
    Reachable lobby2 ∧
    ((lobby2.roomAt 0).users.length ≤ MAX_USERS_PER_ROOM ∧ MAX_USERS_PER_ROOM = 50) :=
  ⟨reachable_exchange _ _ _ _ (reachable_exchange _ _ _ _ (Reachable.init _ _)),
   C3_member_count_within_cap lobby2
    (reachable_exchange _ _ _ _ (reachable_exchange _ _ _ _ (Reachable.init _ _))) 0⟩

/-- C4: in every reachable chat state, for every room found under the
requested name whose member count equals `MAX_USERS_PER_ROOM`, every user
and every supplied password, `chat_join_room` returns -1, its whole effect
is the system message `Room is full` to the requester, and no chat state
changes: the room list, every room's member list (and so its count) and every user's
current room, the requester's included, are as before. -/
theorem C4_full_room_join_rejected (env : Env) (w : World) (u r : Nat) (name : CStr)
    (password : Option CStr)
    (hreach : Reachable w)
    (hfind : chat_find_room w name = some r)
    (hfull : (w.roomAt r).users.length = MAX_USERS_PER_ROOM) :
    (chat_join_room env w u name password).2 = -1 ∧
    (chat_join_room env w u name password).1
      = chat_send_system_message env w u "Room is full".toList ∧
    ((chat_join_room env w u name password).1.connAt (w.userAt u).connection).output
      = (w.connAt (w.userAt u).connection).wire ++ "*** Room is full\n".toList ∧
    same_chat (chat_join_room env w u name password).1 w ∧
    (chat_join_room env w u name password).1.server.rooms = w.server.rooms ∧
    (∀ r2, ((chat_join_room env w u name password).1.roomAt r2).users
      = (w.roomAt r2).users) ∧
    (∀ v, ((chat_join_room env w u name password).1.userAt v).current_room
      = (w.userAt v).current_room) := by
  have hopen := password_rejected_open (w.roomAt r) password (reachable_rooms_open hreach r)
  have hge : (w.roomAt r).users.length ≥ MAX_USERS_PER_ROOM := by omega
  have hj : chat_join_room env w u name password
      = (chat_send_system_message env w u "Room is full".toList, -1) := by
    unfold chat_join_room
    simp only [hfind]
    unfold chat_join_room_found
    simp only [hopen, Bool.false_eq_true, hge, if_true, if_false]
  have hs := chat_send_system_message_same env w u "Room is full".toList
  rw [hj]
  refine ⟨rfl, rfl, ?_, hs, ?_, ?_, ?_⟩
  · exact chat_send_system_message_output env w u "Room is full".toList (by decide)
  · show (chat_send_system_message env w u "Room is full".toList).server.rooms = _
    rw [hs.1]
  · intro r2
    show ((chat_send_system_message env w u "Room is full".toList).roomAt r2).users = _
    rw [hs.2.1]
  · intro v
    show ((chat_send_system_message env w u "Room is full".toList).userAt v).current_room = _
    rw [hs.2.2.1]

set_option maxRecDepth 1000000 in
/-- Witness for C4: fifty connections joined `lobby`, which is full; user
50, registered on connection 51 and in no room, asks to join it. -/
theorem C4_full_room_join_rejected_witness :
    Reachable lobby50_guest ∧
    (lobby50_guest.roomAt 0).users = List.range 50 ∧
    (lobby50_guest.userAt 50).connection = 51 ∧
    (chat_join_room env5 lobby50_guest 50 "lobby".toList none).2 = -1 ∧
    (∀ r2, ((chat_join_room env5 lobby50_guest 50 "lobby".toList none).1.roomAt r2).users
      = (lobby50_guest.roomAt r2).users) :=
  have h := C4_full_room_join_rejected env5 lobby50_guest 50 0 "lobby".toList none
    reachable_lobby50_guest (by decide) (by decide)
  ⟨reachable_lobby50_guest, by decide, by decide, h.1, h.2.2.2.2.2.1⟩

/-- C5: the line `/nick s` reaches `chat_handle_nick_command` with argument
`s`, which sets the requester's nickname to `s`, leaving every other user
untouched, when `s` is non-empty, shorter than `MAX_NICKNAME_LENGTH` = 32 and held by no
registered user; otherwise it only sends the usage, `Nickname too long` or
`Nickname already taken` message and no nickname changes.  In particular,
after a registered user's successful `/nick bob`, any user's `/nick bob` is
rejected with `Nickname already taken`. -/
theorem C5_nick_change (env : Env) (w : World) (u : Nat) (s : CStr) :
    MAX_NICKNAME_LENGTH = 32 ∧
    chat_process_command env w u ("/nick ".toList ++ s)
      = (chat_handle_nick_command env
          { w with userAt := upd w.userAt u { w.userAt u with last_activity := env.now } } u
          (if s = [] then none else some s), 0) ∧
    ((s ≠ [] ∧ s.length < MAX_NICKNAME_LENGTH ∧
        ¬ (∃ v ∈ w.server.users, (w.userAt v).nickname = s)) →
      ((chat_handle_nick_command env w u (some s)).userAt u).nickname = s ∧
      ∀ v, v ≠ u → (chat_handle_nick_command env w u (some s)).userAt v = w.userAt v) ∧
    (¬ (s ≠ [] ∧ s.length < MAX_NICKNAME_LENGTH ∧
        ¬ (∃ v ∈ w.server.users, (w.userAt v).nickname = s)) →
      (chat_handle_nick_command env w u (some s)).userAt = w.userAt) ∧
    (s = [] → chat_handle_nick_command env w u (some s)
        = chat_send_system_message env w u "Usage: /nick <new_nickname>".toList) ∧
    (chat_handle_nick_command env w u none
        = chat_send_system_message env w u "Usage: /nick <new_nickname>".toList) ∧
    (s ≠ [] → s.length ≥ MAX_NICKNAME_LENGTH → chat_handle_nick_command env w u (some s)
        = chat_send_system_message env w u "Nickname too long".toList) ∧
    (s ≠ [] → s.length < MAX_NICKNAME_LENGTH →
      (∃ v ∈ w.server.users, (w.userAt v).nickname = s) →
      chat_handle_nick_command env w u (some s)
        = chat_send_system_message env w u "Nickname already taken".toList) ∧
    (u ∈ w.server.users →
      ¬ (∃ v ∈ w.server.users, (w.userAt v).nickname = "bob".toList) →
      ∀ (env2 : Env) (u2 : Nat),
        chat_handle_nick_command env2 (chat_handle_nick_command env w u (some "bob".toList)) u2
            (some "bob".toList)
          = chat_send_system_message env2 (chat_handle_nick_command env w u (some "bob".toList))
              u2 "Nickname already taken".toList) := by
  have hrej := chat_handle_nick_command_rejected env w u s
  refine ⟨rfl, chat_process_command_nick env w u s, ?_, ?_, hrej.1, rfl, hrej.2.1, hrej.2.2, ?_⟩
  · rintro ⟨h1, h2, h3⟩
    rw [chat_handle_nick_command_accepted env w u s h1 h2 h3]
    refine ⟨by simp, ?_⟩
    intro v hv
    simp [upd_other _ _ _ _ hv]
  · intro hn
    by_cases h1 : s = []
    · rw [hrej.1 h1]; rfl
    · by_cases h2 : s.length < MAX_NICKNAME_LENGTH
      · by_cases h3 : ∃ v ∈ w.server.users, (w.userAt v).nickname = s
        · rw [hrej.2.2 h1 h2 h3]; rfl
        · exact absurd ⟨h1, h2, h3⟩ hn
      · rw [hrej.2.1 h1 (Nat.not_lt.mp h2)]; rfl
  · intro hu hfree env2 u2
    have hacc := chat_handle_nick_command_accepted env w u "bob".toList (by decide) (by decide)
      hfree
    have hsrv := (chat_handle_nick_command_frame env w u (some "bob".toList)).1
    refine (chat_handle_nick_command_rejected env2 _ u2 "bob".toList).2.2 (by decide) (by decide)
      ⟨u, ?_, ?_⟩
    · rw [hsrv]; exact hu
    · rw [hacc]; simp

set_option maxRecDepth 100000 in
/-- Witness for C5: user 0 of `lobby1` takes the free nickname `bob`; and,
end to end, when connection 1 and then connection 2 send `/nick bob`, the
second is answered `Nickname already taken` and keeps its default name. -/
theorem C5_nick_change_witness :
    ((chat_handle_nick_command env5 lobby1 0 (some "bob".toList)).userAt 0).nickname
      = "bob".toList ∧
    ((exchange env5 (exchange env5 world0 1 "/nick bob\n") 2 "/nick bob\n").connAt 2).wire
      = welcome_banner ++ "*** Nickname already taken\n>>> ".toList ∧
    ((exchange env5 (exchange env5 world0 1 "/nick bob\n") 2 "/nick bob\n").userAt 0).nickname
      = "bob".toList ∧
    ((exchange env5 (exchange env5 world0 1 "/nick bob\n") 2 "/nick bob\n").userAt 1).nickname
      = "User5".toList :=
  ⟨((C5_nick_change env5 lobby1 0 "bob".toList).2.2.1 (by decide)).1, by decide, by decide,
    by decide⟩

set_option maxRecDepth 100000 in
/-- Counterexample to C6 as stated: connections 1 and 2 make first contact
in the same second (time 5); the two users registered for them, 0 and 1,
both hold the nickname `User5`. -/
theorem C6_counterexample :
    Reachable (exchange env5 (exchange env5 world0 1 "hi\n") 2 "hi\n") ∧
    (exchange env5 (exchange env5 world0 1 "hi\n") 2 "hi\n").server.users = [0, 1] ∧
    ((exchange env5 (exchange env5 world0 1 "hi\n") 2 "hi\n").userAt 0).nickname
      = "User5".toList ∧
    ((exchange env5 (exchange env5 world0 1 "hi\n") 2 "hi\n").userAt 1).nickname
      = "User5".toList :=
  ⟨reachable_exchange _ _ _ _ (reachable_exchange _ _ _ _ (Reachable.init _ _)),
    by decide, by decide, by decide⟩

/-- C6 (amended): in every reachable chat state no user is registered twice,
and two registered users hold the same nickname only if the one registered
later (at the higher position `j` of the server's user list) holds the
default nickname `User<join_time mod 10000>` it was created with. -/
theorem C6_shared_nickname_is_default (w : World) (h : Reachable w) (i j a b : Nat)
    (hij : i < j) (hi : w.server.users[i]? = some a) (hj : w.server.users[j]? = some b)
    (heq : (w.userAt a).nickname = (w.userAt b).nickname) :
    a ≠ b ∧
    (w.userAt b).nickname = default_nickname (w.userAt b).join_time ∧
    default_nickname (w.userAt b).join_time
      = "User".toList ++ fmt_d ((w.userAt b).join_time % 10000) := by
  obtain ⟨_, hnd, hpw⟩ := reachable_nick_inv h
  obtain ⟨hil, hia⟩ := List.getElem?_eq_some.mp hi
  obtain ⟨hjl, hjb⟩ := List.getElem?_eq_some.mp hj
  have hne : a ≠ b := by
    rw [← hia, ← hjb]
    exact (List.pairwise_iff_getElem.mp hnd) i j hil hjl hij
  have hR := (List.pairwise_iff_getElem.mp hpw) i j hil hjl hij
  rw [hia, hjb] at hR
  refine ⟨hne, hR hne heq, ?_⟩
  unfold default_nickname snprintf
  apply List.take_of_length_le
  have h4 : "User".toList.length = 4 := by decide
  have hd : (fmt_d ((w.userAt b).join_time % 10000)).length ≤ 4 := by
    have hlt : (w.userAt b).join_time % 10000 < 10 ^ 4 := Nat.mod_lt _ (by norm_num)
    exact fmt_d_length_le _ 4 (by norm_num) hlt
  simp only [List.length_append, h4, MAX_NICKNAME_LENGTH]
  omega

set_option maxRecDepth 100000 in
/-- Witness for C6: the two users of the counterexample state; user 1, the
later one, holds its default nickname. -/
theorem C6_shared_nickname_is_default_witness :
    ((exchange env5 (exchange env5 world0 1 "hi\n") 2 "hi\n").userAt 1).nickname
      = default_nickname
          ((exchange env5 (exchange env5 world0 1 "hi\n") 2 "hi\n").userAt 1).join_time :=
  (C6_shared_nickname_is_default (exchange env5 (exchange env5 world0 1 "hi\n") 2 "hi\n")
    (reachable_exchange _ _ _ _ (reachable_exchange _ _ _ _ (Reachable.init _ _)))
    0 1 0 1 (by decide) (by decide) (by decide) (by decide)).2.1

set_option maxRecDepth 100000 in
/-- C7 (defect in the code): `A` and `B` are both in `lobby` and every send
accepts all bytes.  When the handler processes `A`'s buffer `hello`, `B`
gets `[12:00:00] <A> hello` staged, but `A` is sent only the prompt: the
confirmation `Message sent to #lobby` staged by `chat_broadcast_to_room` is
overwritten by the prompt before any write, so it is neither in `A`'s
write buffer nor in the bytes delivered to `A`. -/
theorem C7_sender_confirmation_lost :
    (lobbyAB.roomAt 0).users = [0, 1] ∧
    (lobbyAB.userAt 0).nickname = "A".toList ∧ (lobbyAB.userAt 1).nickname = "B".toList ∧
    (lobbyAB.connAt 1).write_buffer = [] ∧ (lobbyAB.connAt 2).write_buffer = [] ∧
    (enhanced_chat_handler env5 (deliver 5 lobbyAB 1 "hello\n".toList) 1).2 = 1 ∧
    ((enhanced_chat_handler env5 (deliver 5 lobbyAB 1 "hello\n".toList) 1).1.connAt
        2).write_buffer = "[12:00:00] <A> hello\n".toList ∧
    ((enhanced_chat_handler env5 (deliver 5 lobbyAB 1 "hello\n".toList) 1).1.connAt
        2).has_data_to_send = true ∧
    ((enhanced_chat_handler env5 (deliver 5 lobbyAB 1 "hello\n".toList) 1).1.connAt
        1).write_buffer = [] ∧
    ((enhanced_chat_handler env5 (deliver 5 lobbyAB 1 "hello\n".toList) 1).1.connAt 1).wire
      = (lobbyAB.connAt 1).wire ++ ">>> ".toList ∧
    ((chat_process_command env5 (deliver 5 lobbyAB 1 "hello\n".toList) 0
        "hello".toList).1.connAt 1).write_buffer = "Message sent to #lobby\n".toList ∧
    ¬ ("Message sent to #lobby".toList <:+:
        ((enhanced_chat_handler env5 (deliver 5 lobbyAB 1 "hello\n".toList) 1).1.connAt
          1).output) := by
  decide

set_option maxRecDepth 100000 in
/-- C8: for every user `u` and existing room `r` (found under the requested
name) that is not full and whose password check passes, in a state where
`u` is listed in `r` exactly when `r` is its current room,
`chat_join_room` returns 0 and afterwards `u` is the last entry of `r`'s
member list and occurs there once, `u`'s current room is `r`, the member
count grew by one if `u` was not a member, `u` has been removed from the
different room it was in, and the output of `u`'s connection ends with the
system message `Welcome to #<r>!` with `r`'s topic and new member count.
In particular `/join lobby` from a fresh user is answered with
`Welcome to #lobby!` and `lobby` gains one member. -/
theorem C8_join_room_success (env : Env) (w : World) (u r : Nat) (name : CStr)
    (password : Option CStr)
    (hfind : chat_find_room w name = some r)
    (hcap : (w.roomAt r).users.length < MAX_USERS_PER_ROOM)
    (hpw : password_rejected (w.roomAt r) password = false)
    (hmem : (w.roomAt r).users.count u = if (w.userAt u).current_room = some r then 1 else 0)
    (hname : (w.roomAt r).name.length < MAX_ROOM_NAME_LENGTH)
    (htopic : (w.roomAt r).topic.length < 256) :
    (chat_join_room env w u name password).2 = 0 ∧
    ((chat_join_room env w u name password).1.roomAt r).users.getLast? = some u ∧
    ((chat_join_room env w u name password).1.roomAt r).users.count u = 1 ∧
    ((chat_join_room env w u name password).1.userAt u).current_room = some r ∧
    (u ∉ (w.roomAt r).users →
      ((chat_join_room env w u name password).1.roomAt r).users
        = (w.roomAt r).users ++ [u] ∧
      ((chat_join_room env w u name password).1.roomAt r).users.length
        = (w.roomAt r).users.length + 1) ∧
    (∀ r0, (w.userAt u).current_room = some r0 → r0 ≠ r →
      ((chat_join_room env w u name password).1.roomAt r0).users
        = (w.roomAt r0).users.erase u) ∧
    (∃ pre : List Char,
      ((chat_join_room env w u name password).1.connAt (w.userAt u).connection).output
        = pre ++ ("*** Welcome to #".toList ++ name ++ "!\nTopic: ".toList ++
            (w.roomAt r).topic ++ "\nUsers online: ".toList ++
            fmt_d ((chat_join_room env w u name password).1.roomAt r).users.length ++
            "\nType /list users to see who's here.\n".toList)) ∧
    ((lobby1.roomAt 0).users.length = (world0.roomAt 0).users.length + 1 ∧
      (lobby1.connAt 1).wire
        = welcome_banner ++
          ("*** Welcome to #lobby!\nTopic: Welcome to MultiServer Chat! Type /help for " ++
            "commands.\nUsers online: 1\nType /list users to see who's here.\n>>> ").toList) := by
  have hnm : (w.roomAt r).name = name := by
    have := List.find?_some hfind
    simpa using this
  have hroom := chat_join_room_found_roomAt env w u r password hpw hcap
  have huser := chat_join_room_found_userAt env w u r password hpw hcap
  have hret := chat_join_room_found_ret env w u r password hpw hcap
  have hl := leave_current_room_users env w u
  have hj : chat_join_room env w u name password = chat_join_room_found env w u r password := by
    unfold chat_join_room
    simp only [hfind]
  have husers : ((chat_join_room_found env w u r password).1.roomAt r).users
      = (if (w.userAt u).current_room = some r then (w.roomAt r).users.erase u
          else (w.roomAt r).users) ++ [u] := by
    rw [hroom]
    simp only [upd_same]
    rw [hl r]
  rw [hj]
  refine ⟨hret, ?_, ?_, ?_, ?_, ?_, ?_, by decide, by decide⟩
  · rw [husers]; simp
  · rw [husers, List.count_append]
    by_cases hc : (w.userAt u).current_room = some r
    · simp only [hc, if_true] at hmem ⊢
      rw [List.count_erase_self, hmem]
      simp
    · simp only [hc, if_false] at hmem ⊢
      rw [hmem]
      simp
  · rw [huser]; simp
  · intro hnot
    have hc : ¬ (w.userAt u).current_room = some r := by
      intro hc
      simp only [hc, if_true] at hmem
      exact hnot (List.count_pos_iff.mp (by omega))
    rw [husers]
    simp [hc]
  · intro r0 h0 hne
    rw [hroom, upd_other _ _ _ _ hne, hl r0]
    simp [h0]
  · obtain ⟨w4, hw4, hr4, hu4⟩ := chat_join_room_found_reply env w u r password hpw hcap
    have hconn : (w4.userAt u).connection = (w.userAt u).connection := by
      rw [hu4, huser]
      simp only [upd_same]
      exact ((leave_current_room_same_names env w u).2.2 u).2.2
    have hr4r : (w4.roomAt r).users = ((chat_join_room_found env w u r password).1.roomAt r).users := by
      rw [hr4]
    have hname4 : (w4.roomAt r).name = name := by
      rw [hr4, hroom]
      simp only [upd_same]
      by_cases hc : (w.userAt u).current_room = some r
      · unfold leave_current_room
        simp only [hc, Option.isSome_some, if_true]
        rw [chat_leave_room_roomAt env w u r hc]
        simp [hnm]
      · unfold leave_current_room
        cases h0 : (w.userAt u).current_room with
        | none => simp [hnm]
        | some r0 =>
          have hne : r ≠ r0 := fun e => hc (by rw [h0, e])
          simp only [Option.isSome_some, if_true]
          rw [chat_leave_room_roomAt env w u r0 h0, upd_other _ _ _ _ hne]
          exact hnm
    have htopic4 : (w4.roomAt r).topic = (w.roomAt r).topic := by
      rw [hr4, hroom]
      simp only [upd_same]
      unfold leave_current_room
      cases h0 : (w.userAt u).current_room with
      | none => simp
      | some r0 =>
        simp only [Option.isSome_some, if_true]
        rw [chat_leave_room_roomAt env w u r0 h0]
        by_cases hr : r = r0
        · subst hr; simp
        · rw [upd_other _ _ _ _ hr]
    have hlen4 : (w4.roomAt r).users.length ≤ MAX_USERS_PER_ROOM := by
      rw [hr4r, husers]
      have := List.length_erase_le u (w.roomAt r).users
      split_ifs <;> simp <;> omega
    have hwl := welcome_text_length (w4.roomAt r) (by rw [hname4, ← hnm]; exact hname)
      (by rw [htopic4]; exact htopic) hlen4
    have hsn : snprintf 512 (welcome_text (w4.roomAt r)) = welcome_text (w4.roomAt r) := by
      unfold snprintf
      exact List.take_of_length_le (by omega)
    refine ⟨(w4.connAt (w4.userAt u).connection).wire, ?_⟩
    rw [← hr4r, hw4, ← hconn, hsn,
      chat_send_system_message_output env w4 u _ (by unfold BUFFER_SIZE; omega)]
    simp only [welcome_text, hname4, htopic4, List.append_assoc]
    rfl

set_option maxRecDepth 100000 in
/-- Witness for C8: the registered user 0 of the state after first contact
joins the empty `lobby`. -/
theorem C8_join_room_success_witness :
    ((chat_join_room env5 (exchange env5 world0 1 "hi\n") 0 "lobby".toList none).1.roomAt
      0).users.getLast? = some 0 :=
  (C8_join_room_success env5 (exchange env5 world0 1 "hi\n") 0 0 "lobby".toList none
    (by decide) (by decide) (by decide) (by decide) (by decide) (by decide)).2.1

/-- C9: for every user `u` whose current room is `r` and who is in `r`'s
member list, `chat_leave_room` returns 0, removes exactly the entry `u`
from `r`'s member list keeping the order of the others, lowers the member
count by one, touches no other room or user, sets `u`'s current room to
none, stages `*** <nick> left the room` on the connection of every
remaining member and on no other connection, and answers `u` with
`You left the room`. -/
theorem C9_leave_room (env : Env) (w : World) (u r : Nat)
    (hcur : (w.userAt u).current_room = some r)
    (hmem : u ∈ (w.roomAt r).users)
    (hnick : (w.userAt u).nickname.length < MAX_NICKNAME_LENGTH) :
    (chat_leave_room env w u).2 = 0 ∧
    ((chat_leave_room env w u).1.roomAt r).users = (w.roomAt r).users.erase u ∧
    (∃ pre post, (w.roomAt r).users = pre ++ u :: post ∧ u ∉ pre ∧
      ((chat_leave_room env w u).1.roomAt r).users = pre ++ post) ∧
    ((chat_leave_room env w u).1.roomAt r).users.length + 1 = (w.roomAt r).users.length ∧
    (∀ r0, r0 ≠ r → (chat_leave_room env w u).1.roomAt r0 = w.roomAt r0) ∧
    ((chat_leave_room env w u).1.userAt u).current_room = none ∧
    (∀ v, v ≠ u → (chat_leave_room env w u).1.userAt v = w.userAt v) ∧
    (∀ m ∈ (w.roomAt r).users.erase u,
      (w.userAt m).connection ≠ (w.userAt u).connection →
      ((chat_leave_room env w u).1.connAt (w.userAt m).connection).write_buffer
          = "*** ".toList ++ (w.userAt u).nickname ++ " left the room\n".toList ∧
        ((chat_leave_room env w u).1.connAt (w.userAt m).connection).has_data_to_send = true ∧
        ((chat_leave_room env w u).1.connAt (w.userAt m).connection).write_buffer_sent = 0) ∧
    (∀ c, c ≠ (w.userAt u).connection →
      (¬ ∃ m ∈ (w.roomAt r).users.erase u, (w.userAt m).connection = c) →
      (chat_leave_room env w u).1.connAt c = w.connAt c) ∧
    ((chat_leave_room env w u).1.connAt (w.userAt u).connection).output
      = (w.connAt (w.userAt u).connection).wire ++ "*** You left the room\n".toList := by
  have hroom := chat_leave_room_roomAt env w u r hcur
  have huser := chat_leave_room_userAt env w u r hcur
  obtain ⟨w3, hw3, hc3, hconn⟩ := chat_leave_room_conns env w u r hcur
  rw [departure_line _ hnick] at hconn
  have hne : "*** ".toList ++ (w.userAt u).nickname ++ " left the room\n".toList ≠ [] := by
    simp
  refine ⟨chat_leave_room_ret env w u r hcur, ?_, ?_, ?_, ?_, ?_, ?_, ?_, ?_, ?_⟩
  · rw [hroom]; simp
  · obtain ⟨pre, post, h1, h2, h3⟩ := List.exists_erase_eq hmem
    refine ⟨pre, post, h2, h1, ?_⟩
    rw [hroom]
    simpa using h3
  · rw [hroom]
    simp only [upd_same]
    rw [List.length_erase_of_mem hmem]
    have : 0 < (w.roomAt r).users.length := List.length_pos_of_mem hmem
    omega
  · intro r0 h0
    rw [hroom, upd_other _ _ _ _ h0]
  · rw [huser]; simp
  · intro v hv
    rw [huser, upd_other _ _ _ _ hv]
  · intro m hm hcm
    rw [hw3, chat_send_system_message_other env w3 u _ _ (by rw [hc3]; exact hcm), hconn]
    have hex : ∃ v ∈ (w.roomAt r).users.erase u,
        (w.userAt v).connection = (w.userAt m).connection := ⟨m, hm, rfl⟩
    simp only [hex, if_true]
    exact connection_prepare_response_staged _ _ hne
  · intro c hc hno
    rw [hw3, chat_send_system_message_other env w3 u _ _ (by rw [hc3]; exact hc), hconn]
    simp only [hno, if_false]
  · rw [hw3, ← hc3, chat_send_system_message_output env w3 u _ (by decide), hconn]
    split_ifs
    · rw [connection_prepare_response_wire]; rfl
    · rfl

set_option maxRecDepth 100000 in
/-- Witness for C9: user 0, the first of the two members of `lobby`, leaves. -/
theorem C9_leave_room_witness :
    ((chat_leave_room env5 lobby2 0).1.roomAt 0).users = (lobby2.roomAt 0).users.erase 0 ∧
    ((chat_leave_room env5 lobby2 0).1.roomAt 0).users = [1] ∧
    ((chat_leave_room env5 lobby2 0).1.connAt 2).write_buffer
      = "*** User5 left the room\n".toList :=
  ⟨(C9_leave_room env5 lobby2 0 0 (by decide) (by decide) (by decide)).2.1, by decide,
    by decide⟩

/-- C10: for every user in a room, the first `chat_leave_room` succeeds and
a second one right after it returns -1; its whole effect is the system
message `You are not in a room` on the requester's connection: rooms,
member lists and every user's room reference stay as the first call left
them and no other connection is touched, so no announcement is staged. -/
theorem C10_second_leave_rejected (env env2 : Env) (w : World) (u r : Nat)
    (hcur : (w.userAt u).current_room = some r) :
    (chat_leave_room env w u).2 = 0 ∧
    ((chat_leave_room env w u).1.userAt u).current_room = none ∧
    chat_leave_room env2 (chat_leave_room env w u).1 u
      = (chat_send_system_message env2 (chat_leave_room env w u).1 u
          "You are not in a room".toList, -1) ∧
    (chat_leave_room env2 (chat_leave_room env w u).1 u).2 = -1 ∧
    same_chat (chat_leave_room env2 (chat_leave_room env w u).1 u).1 (chat_leave_room env w u).1 ∧
    (∀ c, c ≠ (w.userAt u).connection →
      (chat_leave_room env2 (chat_leave_room env w u).1 u).1.connAt c
        = (chat_leave_room env w u).1.connAt c) ∧
    ((chat_leave_room env2 (chat_leave_room env w u).1 u).1.connAt
        (w.userAt u).connection).output
      = ((chat_leave_room env w u).1.connAt (w.userAt u).connection).wire
          ++ "*** You are not in a room\n".toList := by
  have huser := chat_leave_room_userAt env w u r hcur
  have hnone : ((chat_leave_room env w u).1.userAt u).current_room = none := by
    rw [huser]; simp
  have hconn : ((chat_leave_room env w u).1.userAt u).connection = (w.userAt u).connection := by
    rw [huser]; simp
  have h2 := chat_leave_room_none env2 _ u hnone
  refine ⟨chat_leave_room_ret env w u r hcur, hnone, h2, ?_, ?_, ?_, ?_⟩
  · rw [h2]
  · rw [h2]; exact chat_send_system_message_same _ _ _ _
  · intro c hc
    rw [h2]
    exact chat_send_system_message_other env2 _ u c _ (by rw [hconn]; exact hc)
  · rw [h2, ← hconn]
    exact chat_send_system_message_output env2 _ u _ (by decide)

set_option maxRecDepth 100000 in
/-- Witness for C10: user 0 of `lobby2` leaves twice; and, end to end, a
connection that sends `/leave` twice in one buffer. -/
theorem C10_second_leave_rejected_witness :
    (chat_leave_room env5 (chat_leave_room env5 lobby2 0).1 0).2 = -1 ∧
    ((exchange env5 lobby2 1 "/leave\n/leave\n").roomAt 0).users = [1] ∧
    ((exchange env5 lobby2 1 "/leave\n/leave\n").connAt 2).write_buffer
      = "*** User5 left the room\n".toList ∧
    ((exchange env5 lobby2 1 "/leave\n/leave\n").connAt 1).wire
      = (lobby2.connAt 1).wire ++
        "*** You left the room\n>>> *** You are not in a room\n>>> ".toList :=
  ⟨(C10_second_leave_rejected env5 env5 lobby2 0 0 (by decide)).2.2.2.1, by decide, by decide,
    by decide⟩

/-- C20: in every reachable chat state each user occurs at most once in a
member list and in the member list of at most one room, and its
current-room reference is `r` exactly when it is in `r`'s member list;
`chat_leave_room` and `chat_join_room` (a join or a room switch) by a
registered user lead again to a state with these properties. -/
theorem C20_memberships_consistent (w : World) (h : Reachable w) :
    memberships_consistent w ∧
    (∀ u r, (w.roomAt r).users.count u ≤ 1) ∧
    (∀ u r1 r2, u ∈ (w.roomAt r1).users → u ∈ (w.roomAt r2).users → r1 = r2) ∧
    (∀ u r, (w.userAt u).current_room = some r ↔ u ∈ (w.roomAt r).users) ∧
    (∀ (env : Env) (u : Nat), memberships_consistent (chat_leave_room env w u).1) ∧
    (∀ (env : Env) (u : Nat) (name : CStr) (password : Option CStr), u ∈ w.server.users →
      memberships_consistent (chat_join_room env w u name password).1) := by
  have hinv := reachable_member_inv h
  have h1 : memberships_consistent w := hinv.1
  have hiff : ∀ u r, (w.userAt u).current_room = some r ↔ u ∈ (w.roomAt r).users := by
    intro u r
    have := h1 u r
    constructor
    · intro e
      rw [e] at this
      simp only [if_true] at this
      exact List.count_pos_iff.mp (by omega)
    · intro hm
      by_contra hne
      simp only [hne, if_false] at this
      exact absurd (List.count_pos_iff.mpr hm) (by omega)
  refine ⟨h1, ?_, ?_, hiff, ?_, ?_⟩
  · intro u r
    rw [h1 u r]
    split_ifs <;> omega
  · intro u r1 r2 hm1 hm2
    have e1 := (hiff u r1).mpr hm1
    have e2 := (hiff u r2).mpr hm2
    rw [e1] at e2
    exact Option.some.inj e2
  · intro env u
    exact (chat_leave_room_member_inv env w u hinv).1
  · intro env u name password hu
    exact (chat_join_room_member_inv env w u name password (hinv.2.2.2.2 u hu) hinv).1

set_option maxRecDepth 100000 in
/-- Witness for C20: the state with two members in `lobby`; user 1 is listed
there once and `lobby` is its current room. -/
theorem C20_memberships_consistent_witness :
    Reachable lobby2 ∧ (lobby2.roomAt 0).users.count 1 ≤ 1 ∧
    (lobby2.userAt 1).current_room = some 0 ∧ (lobby2.roomAt 0).users = [0, 1] :=
  ⟨reachable_exchange _ _ _ _ (reachable_exchange _ _ _ _ (Reachable.init _ _)),
    (C20_memberships_consistent lobby2
      (reachable_exchange _ _ _ _ (reachable_exchange _ _ _ _ (Reachable.init _ _)))).2.1 1 0,
    by decide, by decide⟩

set_option maxRecDepth 100000 in
/-- Counterexample to C11 as stated: users 0 and 1 were created in the same
second and both hold `User5`; after user 1's `/join lobby` succeeds, the
`/list users` response staged for it lists `User5` twice. -/
theorem C11_counterexample :
    Reachable lobby1_and_guest ∧
    lobby1_and_guest.server.users = [0, 1] ∧
    (chat_join_room env5 lobby1_and_guest 1 "lobby".toList none).2 = 0 ∧
    ((chat_join_room env5 lobby1_and_guest 1 "lobby".toList none).1.userAt 1).nickname
      = "User5".toList ∧
    ((chat_handle_list_command env5
        (chat_join_room env5 lobby1_and_guest 1 "lobby".toList none).1 1
        (some "users".toList)).connAt 2).write_buffer
      = "=== Users in #lobby ===\nUser5\nUser5\n===================\n".toList ∧
    (users_listing (chat_join_room env5 lobby1_and_guest 1 "lobby".toList none).1 0).count
      "User5".toList = 2 :=
  ⟨reachable_exchange _ _ _ _ (reachable_exchange _ _ _ _ (Reachable.init _ _)),
    by decide, by decide, by decide, by decide, by decide⟩

/-- C11 (amended): in every reachable chat state, after a successful
`/join lobby` of a registered user `u` that made `r` its current room, `r`
is named `lobby`, `u` occurs exactly once in `r`'s member list, and the
`/list users` response staged for `u` is the header, one line per member
in member order, and the footer; `u`'s nickname is therefore listed at
least once, and exactly once when no other member of the room holds the
same nickname. -/
theorem C11_list_users_after_join (env env2 : Env) (w : World) (u r : Nat)
    (password : Option CStr) (h : Reachable w) (hu : u ∈ w.server.users)
    (hret : (chat_join_room env w u "lobby".toList password).2 = 0)
    (hr : ((chat_join_room env w u "lobby".toList password).1.userAt u).current_room
      = some r) :
    ((chat_join_room env w u "lobby".toList password).1.roomAt r).name = "lobby".toList ∧
    ((chat_join_room env w u "lobby".toList password).1.roomAt r).users.count u = 1 ∧
    chat_handle_list_command env2 (chat_join_room env w u "lobby".toList password).1 u
        (some "users".toList)
      = stage (chat_join_room env w u "lobby".toList password).1
          ((chat_join_room env w u "lobby".toList password).1.userAt u).connection
          ("=== Users in #lobby ===\n".toList ++
            render_lines
              (users_listing (chat_join_room env w u "lobby".toList password).1 r) ++
            "===================\n".toList) ∧
    1 ≤ (users_listing (chat_join_room env w u "lobby".toList password).1 r).count
          ((chat_join_room env w u "lobby".toList password).1.userAt u).nickname ∧
    ((∀ v ∈ ((chat_join_room env w u "lobby".toList password).1.roomAt r).users, v ≠ u →
        ((chat_join_room env w u "lobby".toList password).1.userAt v).nickname
          ≠ ((chat_join_room env w u "lobby".toList password).1.userAt u).nickname) →
      (users_listing (chat_join_room env w u "lobby".toList password).1 r).count
          ((chat_join_room env w u "lobby".toList password).1.userAt u).nickname = 1) := by
  have hinv := reachable_member_inv h
  have hfit := nicknames_fit_of_same_names
    (chat_join_room_same_names env w u "lobby".toList password) (reachable_nicknames_fit h)
  have hinv2 := chat_join_room_member_inv env w u "lobby".toList password
    (hinv.2.2.2.2 u hu) hinv
  have hname : ((chat_join_room env w u "lobby".toList password).1.roomAt r).name
      = "lobby".toList := by
    obtain ⟨r0, hr0, hn⟩ := chat_join_room_current_room env w u "lobby".toList password hret
    rw [hr] at hr0
    rw [Option.some.inj hr0]
    rcases hn with hn | hn
    · exact hn
    · rw [hn]; decide
  generalize (chat_join_room env w u "lobby".toList password).1 = w2 at hfit hinv2 hr hname ⊢
  have hcount : (w2.roomAt r).users.count u = 1 := by
    rw [hinv2.1 u r, hr]; simp
  have hlist := chat_handle_list_command_users env2 w2 u r hfit hr
  rw [hname] at hlist
  have hhead : snprintf BUFFER_SIZE
      ("=== Users in #".toList ++ "lobby".toList ++ " ===\n".toList)
        = "=== Users in #lobby ===\n".toList := by decide
  rw [hhead] at hlist
  refine ⟨hname, hcount, hlist, ?_, ?_⟩
  · unfold users_listing
    have := count_le_count_map (fun v => (w2.userAt v).nickname) (w2.roomAt r).users u
    omega
  · intro huniq
    unfold users_listing
    rw [count_map_of_unique (fun v => (w2.userAt v).nickname) (w2.roomAt r).users u huniq]
    exact hcount

set_option maxRecDepth 100000 in
/-- Witness for C11: the first registered user joins the empty `lobby`. -/
theorem C11_list_users_after_join_witness :
    ((chat_join_room env5 (exchange env5 world0 1 "hi\n") 0 "lobby".toList none).1.roomAt
      0).users.count 0 = 1 :=
  (C11_list_users_after_join env5 env5 (exchange env5 world0 1 "hi\n") 0 0 none
    (reachable_exchange _ _ _ _ (Reachable.init _ _)) (by decide) (by decide)
    (by decide)).2.1

/-- C17: for a chat state below the global user cap and a connection with
non-empty read buffer and no chat user, `enhanced_chat_handler` first
registers one new user bound to the connection and sends the welcome banner
ending in the prompt, then runs the line loop; afterwards the user list has
grown by exactly that user, the connection is keep-alive,
`total_users_served` has grown by one and `peak_concurrent_users` is the
maximum of its old value and the new user count.  When the connection
already has a user, the user list, the allocator and the user statistics
are unchanged. -/
theorem C17_first_contact_registers_user (env : Env) (w : World) (conn : Nat)
    (hbuf : (w.connAt conn).read_buffer ≠ []) :
    (chat_find_user_by_connection w conn = none →
      w.server.users.length < MAX_CONNECTIONS →
      enhanced_chat_handler env w conn
        = chat_handler_lines env conn (chat_register_user env w conn).2
            (chat_register_user env w conn).1
            (split_lines ((chat_register_user env w conn).1.connAt conn).read_buffer).1 ∧
      ((chat_register_user env w conn).1.connAt conn).output
        = (w.connAt conn).wire ++ welcome_banner ∧
      (∃ pre, welcome_banner = pre ++ ">>> ".toList) ∧
      (enhanced_chat_handler env w conn).1.server.users = w.server.users ++ [w.next_user] ∧
      (enhanced_chat_handler env w conn).1.server.users.length = w.server.users.length + 1 ∧
      ((enhanced_chat_handler env w conn).1.userAt w.next_user).connection = conn ∧
      chat_find_user_by_connection (enhanced_chat_handler env w conn).1 conn
        = some w.next_user ∧
      ((enhanced_chat_handler env w conn).1.connAt conn).keep_alive = true ∧
      (enhanced_chat_handler env w conn).1.server.total_users_served
        = w.server.total_users_served + 1 ∧
      (enhanced_chat_handler env w conn).1.server.peak_concurrent_users
        = max w.server.peak_concurrent_users (w.server.users.length + 1)) ∧
    (∀ user, chat_find_user_by_connection w conn = some user →
      (enhanced_chat_handler env w conn).1.server.users = w.server.users ∧
      (enhanced_chat_handler env w conn).1.next_user = w.next_user ∧
      (enhanced_chat_handler env w conn).1.server.total_users_served
        = w.server.total_users_served ∧
      (enhanced_chat_handler env w conn).1.server.peak_concurrent_users
        = w.server.peak_concurrent_users) := by
  constructor
  · intro hnone hroom
    have hh := enhanced_chat_handler_new_user env w conn hbuf hnone hroom
    obtain ⟨he2, hu, hn, ha⟩ := chat_register_user_effect env w conn
    obtain ⟨hc1, hc2, hc3, hc4⟩ := chat_register_user_counters env w conn
    have hreg := chat_handler_lines_registry env conn (chat_register_user env w conn).2
      (split_lines ((chat_register_user env w conn).1.connAt conn).read_buffer).1
      (chat_register_user env w conn).1
    have hst := chat_handler_lines_static env conn (chat_register_user env w conn).2
      (split_lines ((chat_register_user env w conn).1.connAt conn).read_buffer).1
      (chat_register_user env w conn).1
    rw [← hh] at hreg hst
    obtain ⟨r1, r2, r3, _, _, r6⟩ := hreg
    have hconn : ((enhanced_chat_handler env w conn).1.userAt w.next_user).connection = conn := by
      rw [r6, ha]; simp
    refine ⟨hh, hc4, ⟨_, by unfold welcome_banner; rfl⟩, by rw [r1, hu], ?_, hconn, ?_,
      by rw [(hst conn).1, hc3], by rw [r2, hc1], by rw [r3, hc2]⟩
    · rw [r1, hu]; simp
    · have hmem : w.next_user ∈ (enhanced_chat_handler env w conn).1.server.users := by
        rw [r1, hu]; simp
      have hsome : (chat_find_user_by_connection (enhanced_chat_handler env w conn).1
          conn).isSome = true := by
        unfold chat_find_user_by_connection
        rw [List.find?_isSome]
        exact ⟨w.next_user, hmem, by simp [hconn]⟩
      obtain ⟨y, hy⟩ := Option.isSome_iff_exists.mp hsome
      rw [hy]
      congr 1
      have hpy : ((enhanced_chat_handler env w conn).1.userAt y).connection = conn := by
        have := List.find?_some hy
        simpa using this
      have hym : y ∈ (enhanced_chat_handler env w conn).1.server.users :=
        List.mem_of_find?_eq_some hy
      by_contra hne
      rw [r1, hu] at hym
      rcases List.mem_append.mp hym with hyu | hyn
      · rw [r6, ha, upd_other _ _ _ _ hne] at hpy
        unfold chat_find_user_by_connection at hnone
        rw [List.find?_eq_none] at hnone
        have := hnone y hyu
        simp [hpy] at this
      · exact hne (List.mem_singleton.mp hyn)
  · intro user hfind
    have hh := enhanced_chat_handler_known_user env w conn user hbuf hfind
    have hreg := chat_handler_lines_registry env conn user
      (split_lines (w.connAt conn).read_buffer).1 w
    rw [← hh] at hreg
    exact ⟨hreg.1, hreg.2.2.2.2.1, hreg.2.1, hreg.2.2.1⟩

/-- C18: for a chat state whose user count has reached `MAX_CONNECTIONS` and
a connection with non-empty read buffer and no chat user,
`enhanced_chat_handler` only stages `Server full. Try again later.` on that
connection and returns -1; no user is created and the chat state (users,
rooms, counters) is unchanged. -/
theorem C18_server_full (env : Env) (w : World) (conn : Nat)
    (hbuf : (w.connAt conn).read_buffer ≠ [])
    (hnone : chat_find_user_by_connection w conn = none)
    (hfull : w.server.users.length ≥ MAX_CONNECTIONS) :
    MAX_CONNECTIONS = 1000 ∧
    (enhanced_chat_handler env w conn).2 = -1 ∧
    (enhanced_chat_handler env w conn).1
      = stage w conn "Server full. Try again later.\n".toList ∧
    same_chat (enhanced_chat_handler env w conn).1 w ∧
    ((enhanced_chat_handler env w conn).1.connAt conn).write_buffer
      = "Server full. Try again later.\n".toList ∧
    ((enhanced_chat_handler env w conn).1.connAt conn).has_data_to_send = true ∧
    ((enhanced_chat_handler env w conn).1.connAt conn).wire = (w.connAt conn).wire ∧
    (∀ c, c ≠ conn → (enhanced_chat_handler env w conn).1.connAt c = w.connAt c) := by
  have h0 : ¬ (w.connAt conn).read_buffer_used = 0 := by
    unfold Connection.read_buffer_used
    intro h
    exact hbuf (List.length_eq_zero.mp h)
  have hh : enhanced_chat_handler env w conn
      = (stage w conn "Server full. Try again later.\n".toList, -1) := by
    unfold enhanced_chat_handler
    simp only [h0, hnone, hfull, if_true, if_false]
  rw [hh]
  have hst := connection_prepare_response_staged (w.connAt conn)
    "Server full. Try again later.\n".toList (by decide)
  refine ⟨rfl, rfl, rfl, stage_same _ _ _, ?_, ?_, ?_, ?_⟩
  · simp only [stage, upd_same]; exact hst.1
  · simp only [stage, upd_same]; exact hst.2.1
  · simp only [stage, upd_same]; exact connection_prepare_response_wire _ _
  · intro c hc
    simp only [stage, upd_other _ _ _ _ hc]

set_option maxRecDepth 1000000 in
/-- Witness for C18: a server with 1000 registered users and connection 1,
which has no user, sending `hi`. -/
theorem C18_server_full_witness :
    (enhanced_chat_handler env5 world_full 1).2 = -1 :=
  (C18_server_full env5 world_full 1 (by decide) (by decide) (by decide)).2.1

set_option maxRecDepth 100000 in
/-- Witness for C17: connection 1 makes first contact with the new server. -/
theorem C17_first_contact_registers_user_witness :
    (enhanced_chat_handler env5 (deliver 5 world0 1 "hi\n".toList) 1).1.server.users
      = (deliver 5 world0 1 "hi\n".toList).server.users
        ++ [(deliver 5 world0 1 "hi\n".toList).next_user] ∧
    (enhanced_chat_handler env5 (deliver 5 world0 1 "hi\n".toList) 1).1.server.users = [0] ∧
    ((enhanced_chat_handler env5 (deliver 5 world0 1 "hi\n".toList) 1).1.connAt 1).keep_alive
      = true :=
  ⟨((C17_first_contact_registers_user env5 (deliver 5 world0 1 "hi\n".toList) 1
      (by decide)).1 (by decide) (by decide)).2.2.2.1, by decide, by decide⟩

/-- C12: when the read buffer of a connection with chat user `user` holds
only complete newline-terminated lines, none of them a quit token or a
`/quit` command, `enhanced_chat_handler` returns 1 and its effect on the
chat state equals applying `chat_process_command` to each non-empty line
in arrival order, empty lines being skipped; for a connection without a
user the same holds after the registration of its new user. -/
theorem C12_lines_dispatched_in_order (env : Env) (w : World) (conn : Nat)
    (lines : List (List Char))
    (hbuf : (w.connAt conn).read_buffer = render_lines lines)
    (hne : lines ≠ [])
    (hnl : ∀ l ∈ lines, NL ∉ l)
    (hquit : ∀ l ∈ lines, ¬ is_quit_token l ∧ ¬ is_quit_command l) :
    (∀ user, chat_find_user_by_connection w conn = some user →
      (enhanced_chat_handler env w conn).2 = 1 ∧
      same_chat (enhanced_chat_handler env w conn).1
        (run_lines env user w (nonempty_lines lines))) ∧
    (chat_find_user_by_connection w conn = none →
      w.server.users.length < MAX_CONNECTIONS →
      (enhanced_chat_handler env w conn).2 = 1 ∧
      same_chat (enhanced_chat_handler env w conn).1
        (run_lines env (chat_register_user env w conn).2 (chat_register_user env w conn).1
          (nonempty_lines lines))) := by
  have hb : (w.connAt conn).read_buffer ≠ [] := by
    rw [hbuf]; exact render_lines_ne_nil lines hne
  constructor
  · intro user hfind
    rw [enhanced_chat_handler_known_user env w conn user hb hfind, hbuf,
      split_lines_render lines hnl]
    exact chat_handler_lines_all env conn user lines w hquit
  · intro hnone hroom
    rw [enhanced_chat_handler_new_user env w conn hb hnone hroom,
      chat_register_user_read_buffer, hbuf, split_lines_render lines hnl]
    exact chat_handler_lines_all env conn _ lines _ hquit

set_option maxRecDepth 100000 in
/-- Witness for C12: a registered user sends an empty line, a nickname
change and a join in one buffer. -/
theorem C12_lines_dispatched_in_order_witness :
    (enhanced_chat_handler env5
        (deliver 5 (exchange env5 world0 1 "hi\n") 1 "\n/nick bob\n/join lobby\n".toList) 1).2
      = 1 ∧
    ((enhanced_chat_handler env5
        (deliver 5 (exchange env5 world0 1 "hi\n") 1 "\n/nick bob\n/join lobby\n".toList)
        1).1.userAt 0).nickname = "bob".toList ∧
    ((enhanced_chat_handler env5
        (deliver 5 (exchange env5 world0 1 "hi\n") 1 "\n/nick bob\n/join lobby\n".toList)
        1).1.roomAt 0).users = [0] :=
  ⟨((C12_lines_dispatched_in_order env5
      (deliver 5 (exchange env5 world0 1 "hi\n") 1 "\n/nick bob\n/join lobby\n".toList) 1
      ["".toList, "/nick bob".toList, "/join lobby".toList]
      (by decide) (by decide) (by decide) (by decide)).1 0 (by decide)).1,
    by decide, by decide⟩

set_option maxRecDepth 100000 in
/-- Counterexample to C13 as stated: the buffer holds `/quit now`,
`/join lobby` and `quit`; the first line equal to a quit token is the third,
yet the `/quit` command in the first line already makes the handler return
-1, and the second line is never processed: `lobby` stays empty, whereas
after the two lines preceding the quit token the user would be in it. -/
theorem C13_counterexample :
    ¬ is_quit_token "/quit now".toList ∧ ¬ is_quit_token "/join lobby".toList ∧
    is_quit_token "quit".toList ∧
    ((deliver 5 (exchange env5 world0 1 "hi\n") 1
        "/quit now\n/join lobby\nquit\n".toList).connAt 1).read_buffer
      = render_lines ["/quit now".toList, "/join lobby".toList, "quit".toList] ∧
    chat_find_user_by_connection (exchange env5 world0 1 "hi\n") 1 = some 0 ∧
    (enhanced_chat_handler env5
      (deliver 5 (exchange env5 world0 1 "hi\n") 1 "/quit now\n/join lobby\nquit\n".toList)
      1).2 = -1 ∧
    ((enhanced_chat_handler env5
      (deliver 5 (exchange env5 world0 1 "hi\n") 1 "/quit now\n/join lobby\nquit\n".toList)
      1).1.roomAt 0).users = [] ∧
    ((run_lines env5 0
      (deliver 5 (exchange env5 world0 1 "hi\n") 1 "/quit now\n/join lobby\nquit\n".toList)
      ["/quit now".toList, "/join lobby".toList]).roomAt 0).users = [0] := by
  decide

/-- C13 (amended): when the read buffer of a connection holds complete
lines `pre`, then a line `q` that is a quit token, then lines `post`, and no
line of `pre` is a quit token or a `/quit` command, `enhanced_chat_handler`
returns -1, whether the connection has a chat user, gets one on this first
contact, or is refused because the server is full.  For a connection with
chat user `user` it has applied `chat_process_command` to the non-empty
lines of `pre` in order, then sent the goodbye message and cleared the read
buffer, and has processed no line of `post`: the chat state equals the state
after the lines of `pre`.  For a connection without a user the same holds
after the registration of its new user, when fewer than `MAX_CONNECTIONS`
users are registered; otherwise the connection is refused with `Server
full` and no line is processed. -/
theorem C13_quit_stops_processing (env : Env) (w : World) (conn : Nat)
    (pre post : List (List Char)) (q : List Char)
    (hbuf : (w.connAt conn).read_buffer = render_lines (pre ++ q :: post))
    (hnl : ∀ l ∈ pre ++ q :: post, NL ∉ l)
    (hpre : ∀ l ∈ pre, ¬ is_quit_token l ∧ ¬ is_quit_command l)
    (hq : is_quit_token q) :
    (enhanced_chat_handler env w conn).2 = -1 ∧
    (∀ user, chat_find_user_by_connection w conn = some user →
      same_chat (enhanced_chat_handler env w conn).1
        (run_lines env user w (nonempty_lines pre)) ∧
      (∃ w2 : World, same_chat w2 (run_lines env user w (nonempty_lines pre)) ∧
        (enhanced_chat_handler env w conn).1
          = clear_read_buffer
              (flush env (stage w2 conn "Goodbye! Thanks for using MultiServer Chat.\n".toList)
                conn) conn)) ∧
    (chat_find_user_by_connection w conn = none →
      w.server.users.length < MAX_CONNECTIONS →
      same_chat (enhanced_chat_handler env w conn).1
        (run_lines env (chat_register_user env w conn).2 (chat_register_user env w conn).1
          (nonempty_lines pre)) ∧
      (∃ w2 : World,
        same_chat w2
          (run_lines env (chat_register_user env w conn).2 (chat_register_user env w conn).1
            (nonempty_lines pre)) ∧
        (enhanced_chat_handler env w conn).1
          = clear_read_buffer
              (flush env (stage w2 conn "Goodbye! Thanks for using MultiServer Chat.\n".toList)
                conn) conn)) ∧
    (chat_find_user_by_connection w conn = none →
      w.server.users.length ≥ MAX_CONNECTIONS →
      (enhanced_chat_handler env w conn).1
        = stage w conn "Server full. Try again later.\n".toList ∧
      same_chat (enhanced_chat_handler env w conn).1 w) := by
  have hb : (w.connAt conn).read_buffer ≠ [] := by
    rw [hbuf]; exact render_lines_ne_nil _ (by simp)
  have h0 : ¬ (w.connAt conn).read_buffer_used = 0 := by
    unfold Connection.read_buffer_used
    intro h
    exact hb (List.length_eq_zero.mp h)
  have hknown : ∀ user, chat_find_user_by_connection w conn = some user →
      (enhanced_chat_handler env w conn).2 = -1 ∧
      same_chat (enhanced_chat_handler env w conn).1
        (run_lines env user w (nonempty_lines pre)) ∧
      (∃ w2 : World, same_chat w2 (run_lines env user w (nonempty_lines pre)) ∧
        (enhanced_chat_handler env w conn).1
          = clear_read_buffer
              (flush env (stage w2 conn "Goodbye! Thanks for using MultiServer Chat.\n".toList)
                conn) conn) := by
    intro user hfind
    obtain ⟨w2, hw2, hrun⟩ := chat_handler_lines_quit env conn user pre post q w hpre hq
    rw [enhanced_chat_handler_known_user env w conn user hb hfind, hbuf,
      split_lines_render _ hnl, hrun]
    refine ⟨rfl, ?_, w2, hw2, rfl⟩
    exact same_chat_trans (clear_read_buffer_same _ _)
      (same_chat_trans (flush_same _ _ _) (same_chat_trans (stage_same _ _ _) hw2))
  have hnew : chat_find_user_by_connection w conn = none →
      w.server.users.length < MAX_CONNECTIONS →
      (enhanced_chat_handler env w conn).2 = -1 ∧
      same_chat (enhanced_chat_handler env w conn).1
        (run_lines env (chat_register_user env w conn).2 (chat_register_user env w conn).1
          (nonempty_lines pre)) ∧
      (∃ w2 : World,
        same_chat w2
          (run_lines env (chat_register_user env w conn).2 (chat_register_user env w conn).1
            (nonempty_lines pre)) ∧
        (enhanced_chat_handler env w conn).1
          = clear_read_buffer
              (flush env (stage w2 conn "Goodbye! Thanks for using MultiServer Chat.\n".toList)
                conn) conn) := by
    intro hnone hroom
    obtain ⟨w2, hw2, hrun⟩ := chat_handler_lines_quit env conn (chat_register_user env w conn).2
      pre post q (chat_register_user env w conn).1 hpre hq
    rw [enhanced_chat_handler_new_user env w conn hb hnone hroom,
      chat_register_user_read_buffer, hbuf, split_lines_render _ hnl, hrun]
    refine ⟨rfl, ?_, w2, hw2, rfl⟩
    exact same_chat_trans (clear_read_buffer_same _ _)
      (same_chat_trans (flush_same _ _ _) (same_chat_trans (stage_same _ _ _) hw2))
  have hfull : chat_find_user_by_connection w conn = none →
      w.server.users.length ≥ MAX_CONNECTIONS →
      enhanced_chat_handler env w conn
        = (stage w conn "Server full. Try again later.\n".toList, -1) := by
    intro hnone hf
    unfold enhanced_chat_handler
    simp only [h0, hnone, hf, if_true, if_false]
  refine ⟨?_, fun user hfind => (hknown user hfind).2, fun hnone hroom => (hnew hnone hroom).2,
    ?_⟩
  · cases hfind : chat_find_user_by_connection w conn with
    | some user => exact (hknown user hfind).1
    | none =>
      by_cases hroom : w.server.users.length < MAX_CONNECTIONS
      · exact (hnew hfind hroom).1
      · rw [hfull hfind (by omega)]
  · intro hnone hf
    rw [hfull hnone hf]
    exact ⟨rfl, stage_same _ _ _⟩

set_option maxRecDepth 100000 in
/-- Witness for C13: a new connection sends `/join lobby`, `quit` and
`/leave` in one buffer on first contact, and a registered user sends the
same buffer; in both cases the join is processed, the leave is not. -/
theorem C13_quit_stops_processing_witness :
    chat_find_user_by_connection
      (deliver 5 world0 1 "/join lobby\nquit\n/leave\n".toList) 1 = none ∧
    (enhanced_chat_handler env5
      (deliver 5 world0 1 "/join lobby\nquit\n/leave\n".toList) 1).2 = -1 ∧
    ((enhanced_chat_handler env5
      (deliver 5 world0 1 "/join lobby\nquit\n/leave\n".toList) 1).1.roomAt 0).users = [0] ∧
    (enhanced_chat_handler env5
      (deliver 5 (exchange env5 world0 1 "hi\n") 1 "/join lobby\nquit\n/leave\n".toList)
      1).2 = -1 ∧
    ((enhanced_chat_handler env5
      (deliver 5 (exchange env5 world0 1 "hi\n") 1 "/join lobby\nquit\n/leave\n".toList)
      1).1.roomAt 0).users = [0] :=
  ⟨by decide,
    (C13_quit_stops_processing env5
      (deliver 5 world0 1 "/join lobby\nquit\n/leave\n".toList) 1
      ["/join lobby".toList] ["/leave".toList] "quit".toList
      (by decide) (by decide) (by decide) (by decide)).1,
    by decide,
    (C13_quit_stops_processing env5
      (deliver 5 (exchange env5 world0 1 "hi\n") 1 "/join lobby\nquit\n/leave\n".toList) 1
      ["/join lobby".toList] ["/leave".toList] "quit".toList
      (by decide) (by decide) (by decide) (by decide)).1,
    by decide⟩

/-- C14: on a registry whose active count is at least its capacity,
`connection_pool_add` returns -1 and leaves the slots, the active count and
the lifetime total unchanged; in every registry state reachable from
`connection_pool_create` the active count is at most the capacity; and
`server_handle_new_connection` on such a registry fails, leaves the registry
as it was (the new connection is in no slot it was not in before) and
destroys the new connection. -/
theorem C14_add_to_full_registry (run : Nat → Nat → World → World) (now : Nat) (p : Process)
    (conn : Nat) (listener : Listener)
    (h : p.pool.active_connections ≥ (p.pool.max_connections : Int)) :
    connection_pool_add p.pool conn = (p.pool, -1) ∧
    (∀ q : Process, PoolReachable q →
      q.pool.active_connections ≤ (q.pool.max_connections : Int)) ∧
    (server_handle_new_connection run now p conn listener).2 = -1 ∧
    (server_handle_new_connection run now p conn listener).1.pool = p.pool ∧
    (server_handle_new_connection run now p conn listener).1.destroyed
      = p.destroyed ++ [conn] := by
  have hadd := connection_pool_add_full p.pool conn h
  refine ⟨hadd, pool_active_le, ?_, ?_, ?_⟩
  · simp only [server_handle_new_connection, hadd]
    simp
  · simp only [server_handle_new_connection, hadd]
    simp [connection_destroy]
  · simp only [server_handle_new_connection, hadd]
    simp [connection_destroy]

/-- C14 at a registry of one slot that holds connection 1: connection 2 is
rejected and destroyed. -/
theorem C14_add_to_full_registry_witness :
    process_full.pool.active_connections ≥ (process_full.pool.max_connections : Int) ∧
    (connection_pool_add process_full.pool 2 = (process_full.pool, -1) ∧
    (∀ q : Process, PoolReachable q →
      q.pool.active_connections ≤ (q.pool.max_connections : Int)) ∧
    (server_handle_new_connection no_callbacks 7 process_full 2 Listener.chat).2 = -1 ∧
    (server_handle_new_connection no_callbacks 7 process_full 2 Listener.chat).1.pool
      = process_full.pool ∧
    (server_handle_new_connection no_callbacks 7 process_full 2 Listener.chat).1.destroyed
      = process_full.destroyed ++ [2]) :=
  ⟨by decide, C14_add_to_full_registry no_callbacks 7 process_full 2 Listener.chat (by decide)⟩

/-- C15: in every registry state reachable from `connection_pool_create` by
calls of `connection_pool_add`, `connection_pool_remove` and
`connection_pool_cleanup_idle`, `active_connections` equals the number of
slots that hold a connection. -/
theorem C15_active_equals_occupied (p : Process) (h : PoolReachable p) :
    p.pool.active_connections = (occupied p.pool.connections : Int) :=
  pool_active_eq_occupied p h

/-- C15 at the registry of three slots after adding connections 1 and 2,
sweeping at time 7 with timeout 1 and removing connection 2. -/
theorem C15_active_equals_occupied_witness :
    PoolReachable
      (connection_pool_remove no_callbacks
        (connection_pool_cleanup_idle no_callbacks 7 process2 1) 2) ∧
    (connection_pool_remove no_callbacks
        (connection_pool_cleanup_idle no_callbacks 7 process2 1) 2).pool.active_connections
      = (occupied (connection_pool_remove no_callbacks
          (connection_pool_cleanup_idle no_callbacks 7 process2 1) 2).pool.connections : Int) :=
  have hr : PoolReachable
      (connection_pool_remove no_callbacks
        (connection_pool_cleanup_idle no_callbacks 7 process2 1) 2) :=
    PoolReachable.remove _ _ _ (PoolReachable.cleanup _ _ _ _
      (PoolReachable.add _ 2 (PoolReachable.add _ 1
        (PoolReachable.traffic _ _ (PoolReachable.create world0 3)))))
  ⟨hr, C15_active_equals_occupied _ hr⟩

/-- C16: when release callbacks leave the activity stamps alone, after
`connection_pool_cleanup_idle` a slot holds a connection exactly when it
held that connection before and `now - last_activity` does not exceed the
timeout; so a connection is in the registry exactly when it was there and is
not idle, the number of slots is unchanged, the active count has dropped by
the number of slots emptied, the lifetime total is unchanged, and a
registered connection silent for 2 seconds is removed and destroyed by a
sweep with timeout 1. -/
theorem C16_idle_sweep (run : Nat → Nat → World → World)
    (hrun : ∀ f d w c, ((run f d w).connAt c).last_activity = (w.connAt c).last_activity)
    (now : Nat) (p : Process) (timeout : Int) :
    (∀ (i c : Nat), (connection_pool_cleanup_idle run now p timeout).pool.connections[i]?
        = some (some c) ↔
      p.pool.connections[i]? = some (some c) ∧ ¬ is_idle now timeout p.world c) ∧
    (∀ c, some c ∈ (connection_pool_cleanup_idle run now p timeout).pool.connections ↔
      some c ∈ p.pool.connections ∧ ¬ is_idle now timeout p.world c) ∧
    (connection_pool_cleanup_idle run now p timeout).pool.connections.length
      = p.pool.connections.length ∧
    (connection_pool_cleanup_idle run now p timeout).pool.active_connections
      = p.pool.active_connections - ((occupied p.pool.connections : Int)
          - (occupied (connection_pool_cleanup_idle run now p timeout).pool.connections : Int)) ∧
    (connection_pool_cleanup_idle run now p timeout).pool.total_connections
      = p.pool.total_connections ∧
    (∀ c, some c ∈ p.pool.connections → timeout = 1 →
      (now : Int) - ((p.world.connAt c).last_activity : Int) = 2 →
      some c ∉ (connection_pool_cleanup_idle run now p timeout).pool.connections ∧
      c ∈ (connection_pool_cleanup_idle run now p timeout).destroyed) := by
  obtain ⟨h1, h2, h3, h4, _⟩ := connection_pool_cleanup_idle_spec run hrun now p timeout
  have hslot : ∀ (i c : Nat), (connection_pool_cleanup_idle run now p timeout).pool.connections[i]?
        = some (some c) ↔
      p.pool.connections[i]? = some (some c) ∧ ¬ is_idle now timeout p.world c := by
    intro i c
    rw [h1, List.getElem?_map]
    cases hi : p.pool.connections[i]? with
    | none => simp
    | some s =>
      cases s with
      | none => simp [swept, idle_in]
      | some d =>
        by_cases hd : is_idle now timeout p.world d
        · simp only [Option.map_some', swept, idle_in, hd, decide_True, if_true,
            Option.some.injEq]
          constructor
          · intro h
            exact absurd h (by simp)
          · rintro ⟨h, hn⟩
            rw [← h] at hn
            exact absurd hd hn
        · simp only [Option.map_some', swept, idle_in, hd, decide_False, Bool.false_eq_true,
            if_false, Option.some.injEq]
          constructor
          · intro h
            rw [← h]
            exact ⟨rfl, hd⟩
          · rintro ⟨h, _⟩
            exact h
  have hmem : ∀ c, some c ∈ (connection_pool_cleanup_idle run now p timeout).pool.connections ↔
      some c ∈ p.pool.connections ∧ ¬ is_idle now timeout p.world c := by
    intro c
    constructor
    · intro h
      obtain ⟨i, hi⟩ := List.getElem?_of_mem h
      obtain ⟨a, b⟩ := (hslot i c).1 hi
      exact ⟨List.mem_iff_getElem?.2 ⟨i, a⟩, b⟩
    · rintro ⟨h, hn⟩
      obtain ⟨i, hi⟩ := List.getElem?_of_mem h
      exact List.mem_iff_getElem?.2 ⟨i, (hslot i c).2 ⟨hi, hn⟩⟩
  refine ⟨hslot, hmem, ?_, ?_, h3, ?_⟩
  · rw [h1, List.length_map]
  · rw [h2, h1]
    have := occupied_swept now timeout p.world p.pool.connections
    omega
  · intro c hc ht h2s
    have hidle : is_idle now timeout p.world c := by
      unfold is_idle
      rw [ht, h2s]
      decide
    refine ⟨fun h => ((hmem c).1 h).2 hidle, ?_⟩
    rw [h4]
    apply List.mem_append_right
    rw [List.mem_filterMap]
    refine ⟨some c, ?_, rfl⟩
    rw [List.mem_filter]
    exact ⟨hc, by simp [idle_in, hidle]⟩

/-- C16 at the registry holding connection 1 (last active at 5) and
connection 2 (last active at 6), swept at time 7 with timeout 1: the first
is removed and destroyed, the second keeps its slot. -/
theorem C16_idle_sweep_witness :
    (∀ f d w c, ((no_callbacks f d w).connAt c).last_activity = (w.connAt c).last_activity) ∧
    ((∀ (i c : Nat), (connection_pool_cleanup_idle no_callbacks 7 process2 1).pool.connections[i]?
        = some (some c) ↔
      process2.pool.connections[i]? = some (some c) ∧ ¬ is_idle 7 1 process2.world c) ∧
    (∀ c, some c ∈ (connection_pool_cleanup_idle no_callbacks 7 process2 1).pool.connections ↔
      some c ∈ process2.pool.connections ∧ ¬ is_idle 7 1 process2.world c) ∧
    (connection_pool_cleanup_idle no_callbacks 7 process2 1).pool.connections.length
      = process2.pool.connections.length ∧
    (connection_pool_cleanup_idle no_callbacks 7 process2 1).pool.active_connections
      = process2.pool.active_connections - ((occupied process2.pool.connections : Int)
          - (occupied (connection_pool_cleanup_idle no_callbacks 7 process2 1).pool.connections
              : Int)) ∧
    (connection_pool_cleanup_idle no_callbacks 7 process2 1).pool.total_connections
      = process2.pool.total_connections ∧
    (∀ c, some c ∈ process2.pool.connections → (1 : Int) = 1 →
      ((7 : Nat) : Int) - ((process2.world.connAt c).last_activity : Int) = 2 →
      some c ∉ (connection_pool_cleanup_idle no_callbacks 7 process2 1).pool.connections ∧
      c ∈ (connection_pool_cleanup_idle no_callbacks 7 process2 1).destroyed)) ∧
    process2.pool.connections = [some 1, some 2, none] ∧
    (connection_pool_cleanup_idle no_callbacks 7 process2 1).pool.connections
      = [none, some 2, none] ∧
    (connection_pool_cleanup_idle no_callbacks 7 process2 1).pool.active_connections = 1 ∧
    (connection_pool_cleanup_idle no_callbacks 7 process2 1).destroyed = [1] :=
  ⟨fun _ _ _ _ => rfl, C16_idle_sweep no_callbacks (fun _ _ _ _ => rfl) 7 process2 1,
    by decide, by decide, by decide, by decide⟩

set_option maxRecDepth 100000 in
/-- C19: closing a chat connection does not destroy its chat user.  The
chat handler never attaches a session or a release callback to a
connection; and when connection 1 of the state `lobby1` is closed by
`connection_pool_remove`, whatever the release callbacks do, the connection
is destroyed and leaves its slot while the chat state is untouched: user 0
is still registered, still listed in its room, still bound to the destroyed
connection, its nickname is still taken and the user count is still 1. -/
theorem C19_closed_connection_keeps_user (run : Nat → Nat → World → World) :
    (∀ (env : Env) (w : World) (conn c : Nat),
      ((enhanced_chat_handler env w conn).1.connAt c).protocol_data
          = (w.connAt c).protocol_data ∧
      ((enhanced_chat_handler env w conn).1.connAt c).cleanup_func
          = (w.connAt c).cleanup_func) ∧
    lobby1_process.pool.connections = [some 1, none] ∧
    chat_find_user_by_connection lobby1_process.world 1 = some 0 ∧
    (lobby1_process.world.userAt 0).current_room = some 0 ∧
    (connection_pool_remove run lobby1_process 1).pool.connections = [none, none] ∧
    (connection_pool_remove run lobby1_process 1).destroyed = [1] ∧
    (connection_pool_remove run lobby1_process 1).world.server.users = [0] ∧
    (connection_pool_remove run lobby1_process 1).world.server.users.length
      = lobby1_process.world.server.users.length ∧
    ((connection_pool_remove run lobby1_process 1).world.userAt 0).connection = 1 ∧
    ((connection_pool_remove run lobby1_process 1).world.userAt 0).current_room = some 0 ∧
    ((connection_pool_remove run lobby1_process 1).world.roomAt 0).users = [0] ∧
    chat_find_user_by_nickname (connection_pool_remove run lobby1_process 1).world
      "User5".toList = some 0 := by
  have hslot : slot_of 1 lobby1_process.pool.connections = some 0 := by decide
  have hdata : (lobby1.connAt 1).protocol_data = none := by decide
  have hw : (connection_pool_remove run lobby1_process 1).world = lobby1 := by
    unfold connection_pool_remove
    rw [hslot]
    exact connection_destroy_world run _ 1 hdata
  have hp : (connection_pool_remove run lobby1_process 1).pool.connections = [none, none] := by
    unfold connection_pool_remove
    rw [hslot]
    rfl
  have hd : (connection_pool_remove run lobby1_process 1).destroyed = [1] := by
    unfold connection_pool_remove
    rw [hslot]
    rfl
  rw [hw]
  refine ⟨enhanced_chat_handler_protocol_data, by decide, ?_, ?_, hp, hd, ?_, rfl, ?_, ?_, ?_, ?_⟩
  all_goals decide

/-- C26: `server_detect_protocol` returns unknown for fewer than 3 bytes;
for 3 bytes or more it returns the chat protocol exactly when the data
begins with `CHAT `, `JOIN ` or `MSG `, the HTTP protocol in every other
case, in particular when the data begins with one of the six HTTP verb
tokens, and never unknown. -/
theorem C26_detect_protocol (d : List Char) :
    (d.length < 3 → server_detect_protocol d d.length = ProtocolType.PROTOCOL_UNKNOWN) ∧
    (3 ≤ d.length →
      (server_detect_protocol d d.length = ProtocolType.PROTOCOL_CHAT ↔
        ("CHAT ".toList <+: d ∨ "JOIN ".toList <+: d ∨ "MSG ".toList <+: d)) ∧
      (server_detect_protocol d d.length ≠ ProtocolType.PROTOCOL_CHAT →
        server_detect_protocol d d.length = ProtocolType.PROTOCOL_HTTP) ∧
      (∀ verb ∈ ["GET ", "POST ", "HEAD ", "PUT ", "DELETE ", "OPTIONS "],
        verb.toList <+: d → server_detect_protocol d d.length = ProtocolType.PROTOCOL_HTTP) ∧
      server_detect_protocol d d.length ≠ ProtocolType.PROTOCOL_UNKNOWN) := by
  have hH := detect_http_cond d
  have hC := detect_chat_cond d
  unfold server_detect_protocol
  refine ⟨fun h => by simp only [h, if_true], fun h3 => ?_⟩
  have h3n : ¬ d.length < 3 := by omega
  rw [if_neg h3n]
  by_cases hh : ("GET ".toList <+: d ∨ "POST ".toList <+: d ∨ "HEAD ".toList <+: d ∨
      "PUT ".toList <+: d ∨ "DELETE ".toList <+: d ∨ "OPTIONS ".toList <+: d)
  · have hnc := fun hc => chat_token_not_http d hc hh
    rw [if_pos (hH.2 hh)]
    refine ⟨⟨fun h => (by cases h), fun hc => absurd hc hnc⟩, fun _ => rfl, fun _ _ _ => rfl,
      fun h => by cases h⟩
  · have hHf : ¬ ((strncmp_zero d "GET ".toList 4 || strncmp_zero d "POST ".toList 5 ||
      strncmp_zero d "HEAD ".toList 5 || strncmp_zero d "PUT ".toList 4 ||
      strncmp_zero d "DELETE ".toList 7 || strncmp_zero d "OPTIONS ".toList 8) = true) :=
      fun h => hh (hH.1 h)
    rw [if_neg hHf]
    by_cases hc : ("CHAT ".toList <+: d ∨ "JOIN ".toList <+: d ∨ "MSG ".toList <+: d)
    · rw [if_pos (hC.2 hc)]
      refine ⟨⟨fun _ => hc, fun _ => rfl⟩, fun h => absurd rfl h, ?_, fun h => by cases h⟩
      intro verb hv hp
      exfalso
      apply hh
      simp only [List.mem_cons, List.mem_singleton, List.not_mem_nil, or_false] at hv
      rcases hv with rfl | rfl | rfl | rfl | rfl | rfl
      · exact Or.inl hp
      · exact Or.inr (Or.inl hp)
      · exact Or.inr (Or.inr (Or.inl hp))
      · exact Or.inr (Or.inr (Or.inr (Or.inl hp)))
      · exact Or.inr (Or.inr (Or.inr (Or.inr (Or.inl hp))))
      · exact Or.inr (Or.inr (Or.inr (Or.inr (Or.inr hp))))
    · have hCf : ¬ ((strncmp_zero d "CHAT ".toList 5 || strncmp_zero d "JOIN ".toList 5 ||
          strncmp_zero d "MSG ".toList 4) = true) := fun h => hc (hC.1 h)
      rw [if_neg hCf]
      refine ⟨⟨fun h => (by cases h), fun h => absurd h hc⟩, fun _ => rfl, fun _ _ _ => rfl,
        fun h => by cases h⟩

/-- C29: for a connection with staged data (flag set, `sent < used`) and a
send result `k` with `0 < k <= used - sent`, `connection_write` offers the
`used - sent` bytes from offset `write_buffer_sent` on, the socket takes the
first `k` of them, and `k` is returned; if `k` is less than the tail,
`write_buffer_sent` advances by `k` and the buffer and the flag stay; if `k`
equals the tail, the flag is cleared and `write_buffer_used` and
`write_buffer_sent` are 0; `sent <= used` holds afterwards; a would-block
result returns 0 and changes nothing; and on any connection whose flag is
not set the call returns 0 and changes nothing, whatever the socket would
do. -/
theorem C29_connection_write (now : Nat) (conn : Connection) (k : Nat)
    (hflag : conn.has_data_to_send = true)
    (hsent : conn.write_buffer_sent < conn.write_buffer_used)
    (hk0 : 0 < k) (hk : k ≤ conn.write_buffer_used - conn.write_buffer_sent) :
    write_remaining conn = conn.write_buffer_used - conn.write_buffer_sent ∧
    write_remaining conn = (conn.write_buffer.drop conn.write_buffer_sent).length ∧
    (connection_write now (SendResult.sent k) conn).2 = (k : Int) ∧
    (connection_write now (SendResult.sent k) conn).1.wire
      = conn.wire ++ (conn.write_buffer.drop conn.write_buffer_sent).take k ∧
    (k < conn.write_buffer_used - conn.write_buffer_sent →
      (connection_write now (SendResult.sent k) conn).1.write_buffer_sent
        = conn.write_buffer_sent + k ∧
      (connection_write now (SendResult.sent k) conn).1.write_buffer = conn.write_buffer ∧
      (connection_write now (SendResult.sent k) conn).1.has_data_to_send = true) ∧
    (k = conn.write_buffer_used - conn.write_buffer_sent →
      (connection_write now (SendResult.sent k) conn).1.has_data_to_send = false ∧
      (connection_write now (SendResult.sent k) conn).1.write_buffer_used = 0 ∧
      (connection_write now (SendResult.sent k) conn).1.write_buffer_sent = 0 ∧
      (connection_write now (SendResult.sent k) conn).1.wire
        = conn.wire ++ conn.write_buffer.drop conn.write_buffer_sent) ∧
    (connection_write now (SendResult.sent k) conn).1.write_buffer_sent
      ≤ (connection_write now (SendResult.sent k) conn).1.write_buffer_used ∧
    connection_write now SendResult.wouldBlock conn = (conn, 0) ∧
    (∀ (c : Connection) (r : SendResult), c.has_data_to_send = false →
      connection_write now r c = (c, 0)) := by
  have hrem : write_remaining conn = conn.write_buffer_used - conn.write_buffer_sent := by
    unfold write_remaining
    rw [if_pos (Nat.le_of_lt hsent)]
  have hrem0 : ¬ write_remaining conn = 0 := by
    rw [hrem]
    omega
  have hflag2 : ¬ conn.has_data_to_send = false := by
    rw [hflag]
    simp
  obtain ⟨j, rfl⟩ : ∃ j, k = j + 1 := ⟨k - 1, by omega⟩
  have hlast : ∀ (c : Connection) (r : SendResult), c.has_data_to_send = false →
      connection_write now r c = (c, 0) := by
    intro c r hc
    unfold connection_write
    rw [if_pos hc]
  have hwb : connection_write now SendResult.wouldBlock conn = (conn, 0) := by
    unfold connection_write
    rw [if_neg hflag2, if_neg hrem0]
  have hdrop : (conn.write_buffer.drop conn.write_buffer_sent).length
      = conn.write_buffer_used - conn.write_buffer_sent := by
    rw [List.length_drop]
    rfl
  by_cases hlt : j + 1 < conn.write_buffer_used - conn.write_buffer_sent
  · have hge : ¬ (conn.write_buffer_sent + (j + 1) ≥ conn.write_buffer_used) := by omega
    have hw : connection_write now (SendResult.sent (j + 1)) conn
        = ({ conn with
              write_buffer_sent := conn.write_buffer_sent + (j + 1)
              last_activity := now
              wire := conn.wire ++
                (conn.write_buffer.drop conn.write_buffer_sent).take (j + 1) },
            ((j + 1 : Nat) : Int)) := by
      unfold connection_write
      rw [if_neg hflag2, if_neg hrem0]
      simp only [Connection.write_buffer_used] at hge ⊢
      rw [if_neg hge]
    rw [hw]
    refine ⟨hrem, hrem.trans hdrop.symm, rfl, rfl, fun _ => ⟨rfl, rfl, hflag⟩, ?_, ?_, hwb, hlast⟩
    · intro h
      omega
    · show conn.write_buffer_sent + (j + 1) ≤ conn.write_buffer.length
      unfold Connection.write_buffer_used at hlt
      omega
  · have heq : j + 1 = conn.write_buffer_used - conn.write_buffer_sent := by omega
    have hge : conn.write_buffer_sent + (j + 1) ≥ conn.write_buffer_used := by omega
    have hw : connection_write now (SendResult.sent (j + 1)) conn
        = ({ conn with
              write_buffer_sent := 0
              write_buffer := []
              has_data_to_send := false
              last_activity := now
              wire := conn.wire ++
                (conn.write_buffer.drop conn.write_buffer_sent).take (j + 1) },
            ((j + 1 : Nat) : Int)) := by
      unfold connection_write
      rw [if_neg hflag2, if_neg hrem0]
      simp only [Connection.write_buffer_used] at hge ⊢
      rw [if_pos hge]
    rw [hw]
    refine ⟨hrem, hrem.trans hdrop.symm, rfl, rfl, fun h => absurd h hlt, ?_, ?_, hwb, hlast⟩
    · intro _
      refine ⟨rfl, rfl, rfl, ?_⟩
      show conn.wire ++ (conn.write_buffer.drop conn.write_buffer_sent).take (j + 1) = _
      rw [List.take_of_length_le (by rw [hdrop]; omega)]
    · exact Nat.zero_le _

/-- C29 on the connection with `abcdef` staged and `ab` sent: the socket
takes 3 of the 4 bytes offered. -/
theorem C29_connection_write_witness :
    (connection_write 9 (SendResult.sent 3) conn_partial).2 = 3 ∧
    (connection_write 9 (SendResult.sent 3) conn_partial).1.wire = "abcde".toList ∧
    (connection_write 9 (SendResult.sent 3) conn_partial).1.write_buffer_sent = 5 ∧
    (connection_write 9 (SendResult.sent 3) conn_partial).1.has_data_to_send = true :=
  have h := C29_connection_write 9 conn_partial 3 (by decide) (by decide) (by decide)
    (by decide)
  ⟨h.2.2.1, h.2.2.2.1, (h.2.2.2.2.1 (by decide)).1, (h.2.2.2.2.1 (by decide)).2.2⟩

/-- C30: staging a non-empty payload `p2` leaves the write buffer holding
exactly `p2` with `used = |p2|`, `sent = 0`, the flag set and a capacity
that is the larger of the old capacity and `|p2|`, whatever was staged or
sent before, and touches nothing else of the connection; staging a
non-empty `p1` and then `p2` gives the same buffer contents, offsets and
flag as staging `p2` alone, and none of `p1` is left to be sent. -/
theorem C30_stage_overwrites (conn : Connection) (p1 p2 : List Char)
    (h1 : p1 ≠ []) (h2 : p2 ≠ []) :
    (connection_prepare_response conn p2).write_buffer = p2 ∧
    (connection_prepare_response conn p2).write_buffer_used = p2.length ∧
    (connection_prepare_response conn p2).write_buffer_sent = 0 ∧
    (connection_prepare_response conn p2).has_data_to_send = true ∧
    (connection_prepare_response conn p2).write_buffer_size
      = max conn.write_buffer_size p2.length ∧
    p2.length ≤ (connection_prepare_response conn p2).write_buffer_size ∧
    (connection_prepare_response conn p2).wire = conn.wire ∧
    (connection_prepare_response conn p2).read_buffer = conn.read_buffer ∧
    (connection_prepare_response (connection_prepare_response conn p1) p2).write_buffer
      = (connection_prepare_response conn p2).write_buffer ∧
    (connection_prepare_response (connection_prepare_response conn p1) p2).write_buffer_used
      = (connection_prepare_response conn p2).write_buffer_used ∧
    (connection_prepare_response (connection_prepare_response conn p1) p2).write_buffer_sent
      = (connection_prepare_response conn p2).write_buffer_sent ∧
    (connection_prepare_response (connection_prepare_response conn p1) p2).has_data_to_send
      = (connection_prepare_response conn p2).has_data_to_send ∧
    (connection_prepare_response (connection_prepare_response conn p1) p2).output
      = conn.wire ++ p2 := by
  have hl1 : ¬ p1.length = 0 := fun h => h1 (List.length_eq_zero.mp h)
  have hl2 : ¬ p2.length = 0 := fun h => h2 (List.length_eq_zero.mp h)
  have hs : ∀ c : Connection, connection_prepare_response c p2
      = { c with
          write_buffer_size :=
            if p2.length > c.write_buffer_size then p2.length else c.write_buffer_size
          write_buffer := p2
          write_buffer_sent := 0
          has_data_to_send := true } := by
    intro c
    unfold connection_prepare_response
    rw [if_neg hl2]
  have hw1 : (connection_prepare_response conn p1).wire = conn.wire :=
    connection_prepare_response_wire conn p1
  rw [hs (connection_prepare_response conn p1), hs conn]
  refine ⟨rfl, rfl, rfl, rfl, ?_, ?_, rfl, rfl, rfl, rfl, rfl, rfl, ?_⟩
  · show (if p2.length > conn.write_buffer_size then p2.length else conn.write_buffer_size) = _
    split_ifs with h
    · exact (Nat.max_eq_right (Nat.le_of_lt h)).symm
    · exact (Nat.max_eq_left (by omega)).symm
  · show p2.length ≤
      (if p2.length > conn.write_buffer_size then p2.length else conn.write_buffer_size)
    split_ifs with h
    · exact Nat.le_refl _
    · omega
  · show (connection_prepare_response conn p1).wire ++ List.drop 0 p2 = conn.wire ++ p2
    rw [hw1]
    rfl

/-- C30 on a fresh connection: `first` then `second`. -/
theorem C30_stage_overwrites_witness :
    (connection_prepare_response
      (connection_prepare_response (connection_create 0) "first".toList)
      "second".toList).output = "second".toList :=
  (C30_stage_overwrites (connection_create 0) "first".toList "second".toList (by decide)
    (by decide)).2.2.2.2.2.2.2.2.2.2.2.2

/-- C23: when the room count has reached `MAX_ROOMS` and no existing room
has the requested name, `chat_join_room` returns -1, answers the requester
with `Cannot create room: Maximum rooms reached`, and leaves the room list,
every room, every user and the allocators as they were, touching no other
connection; and in every reachable chat state the room count is at most
`MAX_ROOMS`. -/
theorem C23_room_cap (env : Env) (w : World) (u : Nat) (name : CStr) (password : Option CStr)
    (hfull : w.server.rooms.length ≥ MAX_ROOMS)
    (hnew : ∀ r ∈ w.server.rooms, (w.roomAt r).name ≠ name) :
    (chat_join_room env w u name password).2 = -1 ∧
    ((chat_join_room env w u name password).1.connAt (w.userAt u).connection).output
      = (w.connAt (w.userAt u).connection).wire
          ++ "*** Cannot create room: Maximum rooms reached\n".toList ∧
    (chat_join_room env w u name password).1.server = w.server ∧
    (chat_join_room env w u name password).1.roomAt = w.roomAt ∧
    (chat_join_room env w u name password).1.userAt = w.userAt ∧
    (chat_join_room env w u name password).1.next_room = w.next_room ∧
    (∀ c, c ≠ (w.userAt u).connection →
      (chat_join_room env w u name password).1.connAt c = w.connAt c) ∧
    (∀ x : World, Reachable x → x.server.rooms.length ≤ MAX_ROOMS) := by
  have hj : chat_join_room env w u name password
      = (chat_send_system_message env w u
          "Cannot create room: Maximum rooms reached".toList, -1) := by
    unfold chat_join_room
    rw [chat_find_room_none w name hnew]
    simp only []
    rw [if_pos hfull]
  have hs := chat_send_system_message_same env w u
    "Cannot create room: Maximum rooms reached".toList
  rw [hj]
  refine ⟨rfl, ?_, hs.1, hs.2.1, hs.2.2.1, hs.2.2.2.1, ?_, fun x hx => reachable_rooms_le hx⟩
  · exact chat_send_system_message_output env w u _ (by decide)
  · intro c hc
    exact chat_send_system_message_other env w u c _ hc

set_option maxRecDepth 100000 in
/-- C23 at a state with 100 registered rooms: user 0 asks for the unknown
room `den`. -/
theorem C23_room_cap_witness :
    (chat_join_room env5 world_rooms_full 0 "den".toList none).2 = -1 ∧
    (chat_join_room env5 world_rooms_full 0 "den".toList none).1.server
      = world_rooms_full.server :=
  have h := C23_room_cap env5 world_rooms_full 0 "den".toList none (by decide) (by decide)
  ⟨h.1, h.2.2.1⟩

/-- C22: below the room cap, for a room name `n` of at most 31 bytes that
no registered room has, `chat_join_room` returns 0 and appends exactly one
room to the room list; the new room is named `n`, has no password, an empty
topic and the user as its only member, and every room that existed keeps
its name, its topic and its position in the list.  The same holds for the
command line `/join n` when `n` is a token (non-empty, without a space). -/
theorem C22_join_creates_room (env : Env) (w : World) (u : Nat) (n : CStr)
    (password : Option CStr)
    (hcap : w.server.rooms.length < MAX_ROOMS)
    (hlen : n.length ≤ 31)
    (hnew : ∀ r ∈ w.server.rooms, (w.roomAt r).name ≠ n)
    (hrooms : ∀ r ∈ w.server.rooms, r < w.next_room)
    (hcur : ∀ r, (w.userAt u).current_room = some r → r < w.next_room) :
    (chat_join_room env w u n password).2 = 0 ∧
    room_created w (chat_join_room env w u n password).1 u n ∧
    (chat_join_room env w u n password).1.server.rooms.length = w.server.rooms.length + 1 ∧
    (∀ (i r : Nat), w.server.rooms[i]? = some r →
      (chat_join_room env w u n password).1.server.rooms[i]? = some r) ∧
    (n ≠ [] → ' ' ∉ n →
      (chat_process_command env w u ("/join ".toList ++ n)).2 = 0 ∧
      room_created w (chat_process_command env w u ("/join ".toList ++ n)).1 u n) := by
  have hfresh : w.next_room ∉ w.server.rooms := fun h => Nat.lt_irrefl _ (hrooms _ h)
  have hlen2 : n.length < MAX_ROOM_NAME_LENGTH := by
    unfold MAX_ROOM_NAME_LENGTH
    omega
  have key : ∀ (x : World) (pw : Option CStr), x.server.rooms = w.server.rooms →
      x.roomAt = w.roomAt → x.next_room = w.next_room →
      (x.userAt u).current_room = (w.userAt u).current_room →
      (chat_join_room env x u n pw).2 = 0 ∧
      room_created w (chat_join_room env x u n pw).1 u n := by
    intro x pw hr hra hn hc
    have h := chat_join_room_new env x u n pw (by rw [hr]; exact hcap) hlen2
      (by rw [hr, hra]; exact hnew) (by rw [hc, hn]; exact hcur)
    rw [hr, hn, hra] at h
    refine ⟨h.1, h.2.1, hfresh, h.2.2.2.2.1, h.2.2.2.2.2.1, h.2.2.2.2.2.2.1,
      h.2.2.2.2.2.2.2.2.1, h.2.2.2.2.2.2.2.2.2.1, ?_⟩
    intro r hr2
    have hne : r ≠ w.next_room := fun e => hfresh (e ▸ hr2)
    exact ⟨(h.2.2.2.2.2.2.2.2.2.2 r hne).1, (h.2.2.2.2.2.2.2.2.2.2 r hne).2.1⟩
  have h0 := key w password rfl rfl rfl rfl
  refine ⟨h0.1, h0.2, ?_, ?_, ?_⟩
  · rw [h0.2.1]
    simp
  · intro i r hi
    rw [h0.2.1]
    have hlt : i < w.server.rooms.length := by
      by_contra hc
      rw [List.getElem?_eq_none (by omega)] at hi
      cases hi
    rw [List.getElem?_append_left hlt]
    exact hi
  · intro hne hsp
    rw [chat_process_command_join env w u n hne hsp]
    have h1 := key
      { w with userAt := upd w.userAt u { w.userAt u with last_activity := env.now } } none
      rfl rfl rfl (by simp)
    exact ⟨rfl, h1.2⟩

set_option maxRecDepth 100000 in
/-- C22 at the state `lobby1`: user 0 joins the unknown room `den`. -/
theorem C22_join_creates_room_witness :
    (chat_join_room env5 lobby1 0 "den".toList none).1.server.rooms = [0, 1] ∧
    ((chat_join_room env5 lobby1 0 "den".toList none).1.roomAt 1).name = "den".toList ∧
    ((chat_join_room env5 lobby1 0 "den".toList none).1.roomAt 1).users = [0] ∧
    ((chat_process_command env5 lobby1 0 "/join den".toList).1.roomAt 1).users = [0] :=
  have hc : (lobby1.userAt 0).current_room = some 0 := by decide
  have h := C22_join_creates_room env5 lobby1 0 "den".toList none (by decide) (by decide)
    (by decide) (by decide)
    (fun r hr => by
      rw [hc] at hr
      cases hr
      decide)
  ⟨h.2.1.1, h.2.1.2.2.1, h.2.1.2.2.2.2.2.1,
    (h.2.2.2.2 (by decide) (by decide)).2.2.2.2.2.2.1⟩

/-- C24: `chat_broadcast_to_room` for a message that is not truncated stages
`[HH:MM:SS] <nick> m` and a newline on the connection of every member other
than the sender (where that connection is not the sender's own), stages
only the confirmation `Message sent to #<room>` on the sender's connection,
leaves every connection that belongs neither to the sender nor to another
member of the room exactly as it was, and changes no room, user or
counter. -/
theorem C24_broadcast_to_room (env : Env) (w : World) (r s : Nat) (m : CStr)
    (hfit : ("[".toList ++ env.hms ++ "] <".toList ++ (w.userAt s).nickname ++ "> ".toList
      ++ m ++ [NL]).length < BUFFER_SIZE)
    (hname : (w.roomAt r).name.length < MAX_ROOM_NAME_LENGTH) :
    (∀ v ∈ (w.roomAt r).users, v ≠ s →
      (w.userAt v).connection ≠ (w.userAt s).connection →
      ((chat_broadcast_to_room env w r m s).connAt (w.userAt v).connection).write_buffer
        = "[".toList ++ env.hms ++ "] <".toList ++ (w.userAt s).nickname ++ "> ".toList
            ++ m ++ [NL] ∧
      ((chat_broadcast_to_room env w r m s).connAt (w.userAt v).connection).write_buffer_sent
        = 0 ∧
      ((chat_broadcast_to_room env w r m s).connAt (w.userAt v).connection).has_data_to_send
        = true) ∧
    ((chat_broadcast_to_room env w r m s).connAt (w.userAt s).connection).write_buffer
      = "Message sent to #".toList ++ (w.roomAt r).name ++ [NL] ∧
    ((chat_broadcast_to_room env w r m s).connAt (w.userAt s).connection).write_buffer_sent
      = 0 ∧
    ((chat_broadcast_to_room env w r m s).connAt (w.userAt s).connection).has_data_to_send
      = true ∧
    (∀ c, c ≠ (w.userAt s).connection →
      (¬ ∃ v ∈ (w.roomAt r).users, v ≠ s ∧ (w.userAt v).connection = c) →
      (chat_broadcast_to_room env w r m s).connAt c = w.connAt c) ∧
    (∀ c, ((chat_broadcast_to_room env w r m s).connAt c).wire = (w.connAt c).wire) ∧
    same_chat (chat_broadcast_to_room env w r m s) w := by
  have hb := broadcast_text_fit env (w.userAt s).nickname m hfit
  have hc := confirmation_text_fit (w.roomAt r).name hname
  have hbne : "[".toList ++ env.hms ++ "] <".toList ++ (w.userAt s).nickname ++ "> ".toList
      ++ m ++ [NL] ≠ [] := by simp
  have hcne : "Message sent to #".toList ++ (w.roomAt r).name ++ [NL] ≠ [] := by simp
  refine ⟨?_, ?_, ?_, ?_, ?_, ?_, chat_broadcast_to_room_same env w r m s⟩
  · intro v hv hvs hconn
    have hex : ∃ x ∈ (w.roomAt r).users, x ≠ s ∧
        (w.userAt x).connection = (w.userAt v).connection := ⟨v, hv, hvs, rfl⟩
    rw [chat_broadcast_to_room_connAt, if_neg (Ne.symm hconn), if_pos hex, hb]
    have hst := connection_prepare_response_staged (w.connAt (w.userAt v).connection) _ hbne
    exact ⟨hst.1, hst.2.2, hst.2.1⟩
  · rw [chat_broadcast_to_room_connAt, if_pos rfl, hc]
    exact (connection_prepare_response_staged _ _ hcne).1
  · rw [chat_broadcast_to_room_connAt, if_pos rfl, hc]
    exact (connection_prepare_response_staged _ _ hcne).2.2
  · rw [chat_broadcast_to_room_connAt, if_pos rfl, hc]
    exact (connection_prepare_response_staged _ _ hcne).2.1
  · intro c hcs hno
    rw [chat_broadcast_to_room_connAt, if_neg (Ne.symm hcs), if_neg hno]
  · intro c
    rw [chat_broadcast_to_room_connAt]
    split_ifs <;> simp only [connection_prepare_response_wire]

set_option maxRecDepth 100000 in
/-- C24 at the state `lobbyAB` (A on connection 1, B on connection 2, both
in `lobby`): A says `hello`. -/
theorem C24_broadcast_to_room_witness :
    ((chat_broadcast_to_room env5 lobbyAB 0 "hello".toList 0).connAt 2).write_buffer
      = "[12:00:00] <A> hello\n".toList ∧
    ((chat_broadcast_to_room env5 lobbyAB 0 "hello".toList 0).connAt 1).write_buffer
      = "Message sent to #lobby\n".toList :=
  have h := C24_broadcast_to_room env5 lobbyAB 0 0 "hello".toList (by decide) (by decide)
  ⟨(h.1 1 (by decide) (by decide) (by decide)).1, h.2.1⟩

set_option maxRecDepth 100000 in
/-- Counterexample to C25 as stated: in `lobbyAB_int_max` the `int` counter
`total_messages` stands at `INT_MAX` = 2147483647; A (user 0, in `lobby`)
says `hello`, the line is broadcast, and `total_messages++` leaves
-2147483648 in the counter, not one more than before. -/
theorem C25_counterexample :
    strtok_space "hello".toList = (some "hello".toList, []) ∧
    (lobbyAB_int_max.userAt 0).current_room = some 0 ∧
    lobbyAB_int_max.server.total_messages = 2147483647 ∧
    (chat_process_command env5 lobbyAB_int_max 0 "hello".toList).2 = 0 ∧
    ((chat_process_command env5 lobbyAB_int_max 0 "hello".toList).1.connAt 2).write_buffer
      = "[12:00:00] <A> hello\n".toList ∧
    (chat_process_command env5 lobbyAB_int_max 0 "hello".toList).1.server.total_messages
      = -2147483648 ∧
    (chat_process_command env5 lobbyAB_int_max 0 "hello".toList).1.server.total_messages
      ≠ lobbyAB_int_max.server.total_messages + 1 := by
  decide

/-- C25 (amended): for a line whose first token does not start with `/`: if
the user is in a room, `chat_process_command` returns 0, leaves on the
connections exactly what `chat_broadcast_to_room` does for the whole line,
and applies `total_messages++` to the `int` counter, which increases it by
exactly one whenever it is not at `INT_MAX` = 2147483647, changing nothing
else of the server, the rooms or the memberships; if the user is in no room
it returns 0,
answers the user with the hint `You must join a room to chat. Type /join
lobby`, touches no other connection and leaves `total_messages` as it was.
No line whose first token starts with `/` changes `total_messages`. -/
theorem C25_chat_message_counter (env : Env) (w : World) (u : Nat) (input command rest : CStr)
    (htok : strtok_space input = (some command, rest))
    (hplain : command.head? ≠ some '/') :
    (∀ r, (w.userAt u).current_room = some r →
      (chat_process_command env w u input).2 = 0 ∧
      (chat_process_command env w u input).1.connAt
        = (chat_broadcast_to_room env w r input u).connAt ∧
      (chat_process_command env w u input).1.server.total_messages
        = int_incr w.server.total_messages ∧
      (w.server.total_messages ≠ INT_MAX →
        (chat_process_command env w u input).1.server.total_messages
          = w.server.total_messages + 1) ∧
      (chat_process_command env w u input).1.server.rooms = w.server.rooms ∧
      (chat_process_command env w u input).1.server.users = w.server.users ∧
      (chat_process_command env w u input).1.roomAt = w.roomAt ∧
      (∀ v, ((chat_process_command env w u input).1.userAt v).current_room
        = (w.userAt v).current_room)) ∧
    ((w.userAt u).current_room = none →
      (chat_process_command env w u input).2 = 0 ∧
      (chat_process_command env w u input).1.server.total_messages
        = w.server.total_messages ∧
      ((chat_process_command env w u input).1.connAt (w.userAt u).connection).output
        = (w.connAt (w.userAt u).connection).wire
            ++ "*** You must join a room to chat. Type /join lobby\n".toList ∧
      (∀ c, c ≠ (w.userAt u).connection →
        (chat_process_command env w u input).1.connAt c = w.connAt c)) ∧
    (∀ line cmd rest2 : CStr, strtok_space line = (some cmd, rest2) →
      cmd.head? = some '/' →
      (chat_process_command env w u line).1.server.total_messages
        = w.server.total_messages) := by
  rw [chat_process_command_plain env w u input command rest htok hplain]
  generalize hw1 : ({ w with
      userAt := upd w.userAt u { w.userAt u with last_activity := env.now } } : World) = w1
  have hsrv : w1.server = w.server := by rw [← hw1]
  have hroomAt : w1.roomAt = w.roomAt := by rw [← hw1]
  have hconnAt : w1.connAt = w.connAt := by rw [← hw1]
  have huser : ∀ v, (w1.userAt v).connection = (w.userAt v).connection ∧
      (w1.userAt v).nickname = (w.userAt v).nickname ∧
      (w1.userAt v).current_room = (w.userAt v).current_room := by
    intro v
    rw [← hw1]
    by_cases hv : v = u
    · subst hv
      simp
    · simp [upd_other _ _ _ _ hv]
  refine ⟨?_, ?_, ?_⟩
  · intro r hr
    have hr1 : (w1.userAt u).current_room = some r := by rw [(huser u).2.2]; exact hr
    have hb := chat_broadcast_to_room_same env w1 r input u
    unfold chat_message
    simp only [hr1]
    refine ⟨trivial, ?_, ?_, ?_, ?_, ?_, ?_, ?_⟩
    · funext c
      show (chat_broadcast_to_room env w1 r input u).connAt c = _
      rw [chat_broadcast_to_room_connAt, chat_broadcast_to_room_connAt]
      simp only [hroomAt, hconnAt, (huser _).1, (huser _).2.1]
    · show int_incr (chat_broadcast_to_room env w1 r input u).server.total_messages = _
      rw [hb.1, hsrv]
    · intro hmax
      show int_incr (chat_broadcast_to_room env w1 r input u).server.total_messages = _
      rw [hb.1, hsrv]
      exact int_incr_below _ hmax
    · show (chat_broadcast_to_room env w1 r input u).server.rooms = _
      rw [hb.1, hsrv]
    · show (chat_broadcast_to_room env w1 r input u).server.users = _
      rw [hb.1, hsrv]
    · show (chat_broadcast_to_room env w1 r input u).roomAt = _
      rw [hb.2.1, hroomAt]
    · intro v
      show ((chat_broadcast_to_room env w1 r input u).userAt v).current_room = _
      rw [hb.2.2.1, (huser v).2.2]
  · intro hn
    have hn1 : (w1.userAt u).current_room = none := by rw [(huser u).2.2]; exact hn
    have hs := chat_send_system_message_same env w1 u
      "You must join a room to chat. Type /join lobby".toList
    unfold chat_message
    simp only [hn1]
    refine ⟨trivial, ?_, ?_, ?_⟩
    · rw [hs.1, hsrv]
    · have ho := chat_send_system_message_output env w1 u
        "You must join a room to chat. Type /join lobby".toList (by decide)
      rw [(huser u).1, hconnAt] at ho
      exact ho
    · intro c hc
      rw [chat_send_system_message_other env w1 u c _ (by rw [(huser u).1]; exact hc), hconnAt]
  · intro line cmd rest2 h1 h2
    exact chat_process_command_command_total env w u line cmd rest2 h1 h2

set_option maxRecDepth 100000 in
/-- C25 at the state `lobbyAB`: A (user 0, in `lobby`) says `hello there`. -/
theorem C25_chat_message_counter_witness :
    (chat_process_command env5 lobbyAB 0 "hello there".toList).1.server.total_messages
      = lobbyAB.server.total_messages + 1 ∧
    ((chat_process_command env5 lobbyAB 0 "hello there".toList).1.connAt 2).write_buffer
      = "[12:00:00] <A> hello there\n".toList ∧
    (chat_process_command env5 lobbyAB 0 "/stats".toList).1.server.total_messages
      = lobbyAB.server.total_messages :=
  have h := C25_chat_message_counter env5 lobbyAB 0 "hello there".toList "hello".toList
    "there".toList (by decide) (by decide)
  ⟨(h.1 0 (by decide)).2.2.2.1 (by decide),
    by
      rw [(h.1 0 (by decide)).2.1]
      decide,
    h.2.2 "/stats".toList "/stats".toList [] (by decide) (by decide)⟩

/-- C28: for a connection with a buffer of at least one byte,
`connection_read` returns -1 and changes nothing (whatever the socket
holds) once `read_buffer_used >= read_buffer_size - 1`; otherwise the length
it passes to `recv` is `read_buffer_size - read_buffer_used - 1`; so if
`recv` returns at most the length asked for, a connection with
`read_buffer_used <= read_buffer_size - 1` has `read_buffer_used <=
read_buffer_size - 1 < read_buffer_size` after the read as well (the index
of the terminating NUL is inside the buffer) and the same capacity; and a
connection made by `connection_create` starts within this bound. -/
theorem C28_read_bounded (now : Nat) (conn : Connection) (r : RecvResult)
    (hcap : 0 < conn.read_buffer_size) :
    read_limit conn = conn.read_buffer_size - 1 ∧
    (conn.read_buffer_used ≥ conn.read_buffer_size - 1 →
      connection_read now r conn = (conn, -1)) ∧
    (conn.read_buffer_used < conn.read_buffer_size - 1 →
      recv_length conn = conn.read_buffer_size - conn.read_buffer_used - 1 ∧
      conn.read_buffer_used + recv_length conn = conn.read_buffer_size - 1) ∧
    (conn.read_buffer_used ≤ conn.read_buffer_size - 1 →
      (∀ bytes, r = RecvResult.data bytes → bytes.length ≤ recv_length conn) →
      (connection_read now r conn).1.read_buffer_used ≤ conn.read_buffer_size - 1 ∧
      (connection_read now r conn).1.read_buffer_used < conn.read_buffer_size ∧
      (connection_read now r conn).1.read_buffer_size = conn.read_buffer_size) ∧
    (0 < (connection_create now).read_buffer_size ∧
      (connection_create now).read_buffer_used ≤ (connection_create now).read_buffer_size - 1) := by
  have hlim : read_limit conn = conn.read_buffer_size - 1 := by
    unfold read_limit
    rw [if_neg (by omega)]
  have hlen : conn.read_buffer_used < conn.read_buffer_size - 1 →
      recv_length conn = conn.read_buffer_size - conn.read_buffer_used - 1 := by
    intro h
    unfold recv_length
    rw [if_pos (by omega)]
  refine ⟨hlim, ?_, ?_, ?_, ?_⟩
  · intro hfull
    unfold connection_read
    rw [hlim, if_pos hfull]
  · intro h
    rw [hlen h]
    exact ⟨rfl, by omega⟩
  · intro hinv hrecv
    by_cases hfull : conn.read_buffer_used ≥ conn.read_buffer_size - 1
    · have hr : connection_read now r conn = (conn, -1) := by
        unfold connection_read
        rw [hlim, if_pos hfull]
      rw [hr]
      exact ⟨hinv, show conn.read_buffer_used < conn.read_buffer_size by omega, rfl⟩
    · have hlt : conn.read_buffer_used < conn.read_buffer_size - 1 := by omega
      cases r with
      | data bytes =>
        cases bytes with
        | nil =>
          have hr : connection_read now (RecvResult.data []) conn = (conn, 0) := by
            unfold connection_read
            rw [hlim, if_neg hfull]
          rw [hr]
          exact ⟨hinv, show conn.read_buffer_used < conn.read_buffer_size by omega, rfl⟩
        | cons b bs =>
          have hb := hrecv (b :: bs) rfl
          rw [hlen hlt] at hb
          rw [connection_read_data now conn b bs (by rw [hlim]; exact hlt)]
          simp only [Connection.read_buffer_used, List.length_append] at hlt hb ⊢
          exact ⟨by omega, by omega, trivial⟩
      | wouldBlock =>
        have hr : connection_read now RecvResult.wouldBlock conn = (conn, 0) := by
          unfold connection_read
          rw [hlim, if_neg hfull]
        rw [hr]
        exact ⟨hinv, show conn.read_buffer_used < conn.read_buffer_size by omega, rfl⟩
      | error =>
        have hr : connection_read now RecvResult.error conn = (conn, -1) := by
          unfold connection_read
          rw [hlim, if_neg hfull]
        rw [hr]
        exact ⟨hinv, show conn.read_buffer_used < conn.read_buffer_size by omega, rfl⟩
  · refine ⟨?_, ?_⟩
    · show 0 < BUFFER_SIZE
      decide
    · show ([] : List Char).length ≤ BUFFER_SIZE - 1
      decide

/-- C28 on a fresh connection that receives three bytes. -/
theorem C28_read_bounded_witness :
    (connection_read 7 (RecvResult.data "abc".toList) (connection_create 0)).1.read_buffer_used
      ≤ (connection_create 0).read_buffer_size - 1 :=
  ((C28_read_bounded 7 (connection_create 0) (RecvResult.data "abc".toList)
    (by decide)).2.2.2.1 (by decide)
    (fun bytes h => by
      cases h
      decide)).1

/-- Counterexample to C37 as stated: the registry `pool_int_max` has three
slots, two of them occupied, an active count of 2 and a lifetime total of
`INT_MAX` = 2147483647; `connection_pool_add` stores connection 3 in slot 2
and `total_connections++` leaves -2147483648 in the `int` counter, not one
more than before. -/
theorem C37_counterexample :
    pool_int_max.active_connections = (occupied pool_int_max.connections : Int) ∧
    pool_int_max.active_connections < (pool_int_max.max_connections : Int) ∧
    pool_int_max.total_connections = 2147483647 ∧
    (connection_pool_add pool_int_max 3).2 = 2 ∧
    (connection_pool_add pool_int_max 3).1.connections = [some 1, some 2, some 3] ∧
    (connection_pool_add pool_int_max 3).1.total_connections = -2147483648 ∧
    (connection_pool_add pool_int_max 3).1.total_connections
      ≠ pool_int_max.total_connections + 1 := by
  decide

/-- C37 (amended): in a registry whose active count equals the number of
occupied slots and is below the capacity, `connection_pool_add` finds a
free slot: there is an index `i` of an empty slot with every lower slot
occupied, the call returns `i` (not the error value), afterwards slot `i`
holds the connection, every other slot is unchanged, the active count has
grown by one, and `total_connections++` was applied to the `int` lifetime
total, which increases it by exactly one whenever it is not at `INT_MAX` =
2147483647. -/
theorem C37_add_finds_free_slot (pool : ConnectionPool) (conn : Nat)
    (hinv : pool.active_connections = (occupied pool.connections : Int))
    (hroom : pool.active_connections < (pool.max_connections : Int)) :
    ∃ i : Nat,
      i < pool.max_connections ∧
      pool.connections[i]? = some none ∧
      (∀ j, j < i → ∃ c, pool.connections[j]? = some (some c)) ∧
      (connection_pool_add pool conn).2 = (i : Int) ∧
      (connection_pool_add pool conn).2 ≠ -1 ∧
      (connection_pool_add pool conn).1.connections[i]? = some (some conn) ∧
      (∀ j, j ≠ i →
        (connection_pool_add pool conn).1.connections[j]? = pool.connections[j]?) ∧
      (connection_pool_add pool conn).1.connections.length = pool.connections.length ∧
      (connection_pool_add pool conn).1.active_connections = pool.active_connections + 1 ∧
      (connection_pool_add pool conn).1.total_connections
        = int_incr pool.total_connections ∧
      (pool.total_connections ≠ INT_MAX →
        (connection_pool_add pool conn).1.total_connections = pool.total_connections + 1) := by
  have hlt : occupied pool.connections < pool.connections.length := by
    unfold ConnectionPool.max_connections at hroom
    omega
  obtain ⟨i, hi⟩ := first_free_of_occupied_lt pool.connections hlt
  obtain ⟨h1, h2⟩ := first_free_spec pool.connections i hi
  have hil : i < pool.connections.length := by
    by_contra hc
    rw [List.getElem?_eq_none (by omega)] at h1
    cases h1
  rw [connection_pool_add_free pool conn i hroom hi]
  refine ⟨i, hil, h1, h2, rfl, ?_, ?_, ?_, ?_, rfl, rfl, ?_⟩
  · show (i : Int) ≠ -1
    omega
  · exact getElem?_set_same _ _ _ hil
  · intro j hj
    exact getElem?_set_other _ _ _ _ hj
  · simp
  · intro hmax
    exact int_incr_below _ hmax

/-- C37 at the registry of three slots holding connections 1 and 2:
connection 3 goes to slot 2. -/
theorem C37_add_finds_free_slot_witness :
    ∃ i : Nat,
      i < process2.pool.max_connections ∧
      process2.pool.connections[i]? = some none ∧
      (∀ j, j < i → ∃ c, process2.pool.connections[j]? = some (some c)) ∧
      (connection_pool_add process2.pool 3).2 = (i : Int) ∧
      (connection_pool_add process2.pool 3).2 ≠ -1 ∧
      (connection_pool_add process2.pool 3).1.connections[i]? = some (some 3) ∧
      (∀ j, j ≠ i →
        (connection_pool_add process2.pool 3).1.connections[j]?
          = process2.pool.connections[j]?) ∧
      (connection_pool_add process2.pool 3).1.connections.length
        = process2.pool.connections.length ∧
      (connection_pool_add process2.pool 3).1.active_connections
        = process2.pool.active_connections + 1 ∧
      (connection_pool_add process2.pool 3).1.total_connections
        = process2.pool.total_connections + 1 :=
  have h := C37_add_finds_free_slot process2.pool 3 (by decide) (by decide)
  h.imp (fun _ hi =>
    ⟨hi.1, hi.2.1, hi.2.2.1, hi.2.2.2.1, hi.2.2.2.2.1, hi.2.2.2.2.2.1, hi.2.2.2.2.2.2.1,
      hi.2.2.2.2.2.2.2.1, hi.2.2.2.2.2.2.2.2.1, hi.2.2.2.2.2.2.2.2.2.2 (by decide)⟩)

/-- C38: `server_handle_connection_write` returns -1 and leaves the state
alone when `connection_write` fails; otherwise it returns the byte count and
sets the state to Closing when, after the write, no data is left to send and
the connection is not keep-alive; a keep-alive connection, or one with data
left to send, keeps its state; nothing but the state differs from what
`connection_write` left. -/
theorem C38_write_marks_closing (now : Nat) (r : SendResult) (conn : Connection) :
    ((connection_write now r conn).2 < 0 →
      server_handle_connection_write now r conn = ((connection_write now r conn).1, -1) ∧
      (server_handle_connection_write now r conn).1.state = conn.state) ∧
    (¬ (connection_write now r conn).2 < 0 →
      (server_handle_connection_write now r conn).2 = (connection_write now r conn).2 ∧
      ((connection_write now r conn).1.has_data_to_send = false → conn.keep_alive = false →
        (server_handle_connection_write now r conn).1
          = { (connection_write now r conn).1 with
              state := ConnectionState.CONN_STATE_CLOSING })) ∧
    (conn.keep_alive = true →
      (server_handle_connection_write now r conn).1 = (connection_write now r conn).1 ∧
      (server_handle_connection_write now r conn).1.state = conn.state) ∧
    ((connection_write now r conn).1.has_data_to_send = true →
      (server_handle_connection_write now r conn).1 = (connection_write now r conn).1 ∧
      (server_handle_connection_write now r conn).1.state = conn.state) ∧
    ((server_handle_connection_write now r conn).1.state
        = ConnectionState.CONN_STATE_CLOSING ↔
      conn.state = ConnectionState.CONN_STATE_CLOSING ∨
      (¬ (connection_write now r conn).2 < 0 ∧
        (connection_write now r conn).1.has_data_to_send = false ∧
        conn.keep_alive = false)) := by
  have hst := connection_write_static now r conn
  have hka : (connection_write now r conn).1.keep_alive = conn.keep_alive := hst.1
  have hstate : (connection_write now r conn).1.state = conn.state := hst.2.2.2.1
  unfold server_handle_connection_write
  generalize connection_write now r conn = W at hka hstate ⊢
  refine ⟨?_, ?_, ?_, ?_, ?_⟩
  · intro hneg
    rw [if_pos hneg]
    exact ⟨rfl, hstate⟩
  · intro hneg
    rw [if_neg hneg]
    by_cases hc : W.1.has_data_to_send = false ∧ W.1.keep_alive = false
    · rw [if_pos hc]
      exact ⟨rfl, fun _ _ => rfl⟩
    · rw [if_neg hc]
      exact ⟨rfl, fun h1 h2 => absurd ⟨h1, hka.trans h2⟩ hc⟩
  · intro hk
    have hc : ¬ (W.1.has_data_to_send = false ∧ W.1.keep_alive = false) := by
      rintro ⟨_, h2⟩
      rw [hka, hk] at h2
      cases h2
    by_cases hneg : W.2 < 0
    · rw [if_pos hneg]
      exact ⟨rfl, hstate⟩
    · rw [if_neg hneg, if_neg hc]
      exact ⟨rfl, hstate⟩
  · intro hf
    have hc : ¬ (W.1.has_data_to_send = false ∧ W.1.keep_alive = false) := by
      rintro ⟨h1, _⟩
      rw [hf] at h1
      cases h1
    by_cases hneg : W.2 < 0
    · rw [if_pos hneg]
      exact ⟨rfl, hstate⟩
    · rw [if_neg hneg, if_neg hc]
      exact ⟨rfl, hstate⟩
  · by_cases hneg : W.2 < 0
    · rw [if_pos hneg]
      show W.1.state = _ ↔ _
      rw [hstate]
      exact ⟨fun h => Or.inl h, fun h => h.elim id (fun h2 => absurd hneg h2.1)⟩
    · rw [if_neg hneg]
      by_cases hc : W.1.has_data_to_send = false ∧ W.1.keep_alive = false
      · rw [if_pos hc]
        exact ⟨fun _ => Or.inr ⟨hneg, hc.1, hka.symm.trans hc.2⟩, fun _ => rfl⟩
      · rw [if_neg hc]
        show W.1.state = _ ↔ _
        rw [hstate]
        exact ⟨fun h => Or.inl h,
          fun h => h.elim id (fun h2 => absurd ⟨h2.2.1, hka.trans h2.2.2⟩ hc)⟩

/-- C40: in every connection state reachable from `connection_create` by
`connection_prepare_response` and `connection_write` calls whose `send`
returns at most the bytes offered, `has_data_to_send` is set exactly when
`write_buffer_sent < write_buffer_used`, `write_buffer_used` is at most
`write_buffer_size`, and the remaining byte count computed by
`connection_write` is not 0 while the flag is set. -/
theorem C40_flag_means_unsent_data (conn : Connection) (h : ConnReachable conn) :
    (conn.has_data_to_send = true ↔ conn.write_buffer_sent < conn.write_buffer_used) ∧
    conn.write_buffer_used ≤ conn.write_buffer_size ∧
    (conn.has_data_to_send = true → write_remaining conn ≠ 0) := by
  obtain ⟨h1, h2⟩ := conn_invariant conn h
  refine ⟨h1, h2, ?_⟩
  intro hf
  have hlt := h1.1 hf
  unfold write_remaining
  rw [if_pos (Nat.le_of_lt hlt)]
  omega

/-- C40 at the connection that staged `abcdef` and then sent 2 bytes. -/
theorem C40_flag_means_unsent_data_witness :
    ConnReachable
      (connection_write 9 (SendResult.sent 2)
        (connection_prepare_response (connection_create 0) "abcdef".toList)).1 ∧
    ((connection_write 9 (SendResult.sent 2)
        (connection_prepare_response (connection_create 0) "abcdef".toList)).1.has_data_to_send
      = true ↔
      (connection_write 9 (SendResult.sent 2)
        (connection_prepare_response (connection_create 0) "abcdef".toList)).1.write_buffer_sent
      < (connection_write 9 (SendResult.sent 2)
        (connection_prepare_response (connection_create 0)
          "abcdef".toList)).1.write_buffer_used) :=
  have hr : ConnReachable
      (connection_write 9 (SendResult.sent 2)
        (connection_prepare_response (connection_create 0) "abcdef".toList)).1 :=
    ConnReachable.write 9 _ _ (ConnReachable.stage _ _ (ConnReachable.create 0))
      (fun k hk => by
        cases hk
        decide)
  ⟨hr, (C40_flag_means_unsent_data _ hr).1⟩

set_option maxRecDepth 100000 in
/-- C31 (defect in the code): a read that returns end-of-stream does not
close the connection.  For every registered connection that is not Closing
and whose read buffer is not full, after `server_handle_connection_read`
(which returns 0) and the reactor's handling of the read event, the registry
and the list of destroyed connections are unchanged and the connection is
exactly as before, its state included; for connection 1 of `lobby1_process`
slot 0 still holds the connection, nothing has been destroyed and the state
is still `CONN_STATE_NEW`. -/
theorem C31_end_of_stream_keeps_connection :
    (∀ (env : Env) (run : Nat → Nat → World → World)
        (http_handler : Option (World → Nat → World × Int)) (p : Process) (conn : Nat),
      (p.world.connAt conn).read_buffer_used < read_limit (p.world.connAt conn) →
      (p.world.connAt conn).state ≠ ConnectionState.CONN_STATE_CLOSING →
      (server_handle_connection_read env http_handler p.world conn (RecvResult.data [])).2 = 0 ∧
      (server_run_connection env run http_handler p conn (some (RecvResult.data []))
        none).pool = p.pool ∧
      (server_run_connection env run http_handler p conn (some (RecvResult.data []))
        none).destroyed = p.destroyed ∧
      (server_run_connection env run http_handler p conn (some (RecvResult.data []))
        none).world.connAt conn = p.world.connAt conn) ∧
    lobby1_process.pool.connections = [some 1, none] ∧
    (server_run_connection env5 no_callbacks none lobby1_process 1 (some (RecvResult.data []))
      none).pool.connections = [some 1, none] ∧
    (server_run_connection env5 no_callbacks none lobby1_process 1 (some (RecvResult.data []))
      none).destroyed = [] ∧
    ((server_run_connection env5 no_callbacks none lobby1_process 1 (some (RecvResult.data []))
      none).world.connAt 1).state = ConnectionState.CONN_STATE_NEW ∧
    (server_run_connection env5 no_callbacks none lobby1_process 1 (some RecvResult.error)
      none).pool.connections = [none, none] := by
  refine ⟨?_, by decide, by decide, by decide, by decide, by decide⟩
  intro env run http_handler p conn hroom hstate
  rw [server_run_connection_eof env run http_handler p conn hroom hstate,
    server_handle_connection_read_eof env http_handler p.world conn hroom]
  exact ⟨rfl, rfl, rfl, upd_same _ _ _⟩

/-- C32: `chat_process_command` returns the close signal -1 exactly when the
first token of the line is `/quit`, and 0 for every other line.  A token
with a leading `/` outside the command table is answered with the
unknown-command hint, `/join` and `/nick` without arguments with their
usage line, `/list` with an argument other than `rooms` or `users` with its
usage line, `/leave` outside a room with `You are not in a room`, and plain
text outside a room with the join hint. -/
theorem C32_only_quit_disconnects (env : Env) (w : World) (u : Nat) (input : CStr) :
    ((chat_process_command env w u input).2 = -1 ↔
      (strtok_space input).1 = some "/quit".toList) ∧
    ((strtok_space input).1 ≠ some "/quit".toList →
      (chat_process_command env w u input).2 = 0) ∧
    (∀ command rest : CStr, strtok_space input = (some command, rest) →
      command.head? = some '/' → command ∉ command_table →
      ((chat_process_command env w u input).1.connAt (w.userAt u).connection).output
        = (w.connAt (w.userAt u).connection).wire
            ++ "*** Unknown command. Type /help for available commands.\n".toList) ∧
    (strtok_space input = (some "/join".toList, []) →
      ((chat_process_command env w u input).1.connAt (w.userAt u).connection).output
        = (w.connAt (w.userAt u).connection).wire
            ++ "*** Usage: /join <room> [password]\n".toList) ∧
    (strtok_space input = (some "/nick".toList, []) →
      ((chat_process_command env w u input).1.connAt (w.userAt u).connection).output
        = (w.connAt (w.userAt u).connection).wire
            ++ "*** Usage: /nick <new_nickname>\n".toList) ∧
    (∀ a : CStr, strtok_space input = (some "/list".toList, a) → a ≠ [] →
      a ≠ "rooms".toList → a ≠ "users".toList →
      ((chat_process_command env w u input).1.connAt (w.userAt u).connection).output
        = (w.connAt (w.userAt u).connection).wire
            ++ "*** Usage: /list [rooms|users]\n".toList) ∧
    (∀ rest : CStr, strtok_space input = (some "/leave".toList, rest) →
      (w.userAt u).current_room = none →
      ((chat_process_command env w u input).1.connAt (w.userAt u).connection).output
        = (w.connAt (w.userAt u).connection).wire ++ "*** You are not in a room\n".toList) ∧
    (∀ command rest : CStr, strtok_space input = (some command, rest) →
      command.head? ≠ some '/' → (w.userAt u).current_room = none →
      ((chat_process_command env w u input).1.connAt (w.userAt u).connection).output
        = (w.connAt (w.userAt u).connection).wire
            ++ "*** You must join a room to chat. Type /join lobby\n".toList) := by
  have hret := chat_process_command_ret env w u input
  refine ⟨⟨?_, ?_⟩, hret, ?_, ?_, ?_, ?_, ?_, ?_⟩
  · intro h
    by_contra hne
    rw [hret hne] at h
    cases h
  · intro h
    rcases hst : strtok_space input with ⟨tok, rest⟩
    rw [hst] at h
    simp only at h
    subst h
    rw [chat_process_command_quit env w u input rest hst]
  · intro command rest htok hslash hno
    rw [chat_process_command_unknown env w u input command rest htok hslash hno]
    exact stamped_reply_output env w u _ (by decide)
  · intro htok
    rw [chat_process_command_join_args env w u input [] htok]
    exact stamped_reply_output env w u _ (by decide)
  · intro htok
    rw [chat_process_command_nick_args env w u input [] htok]
    exact stamped_reply_output env w u _ (by decide)
  · intro a htok h0 h1 h2
    rw [chat_process_command_list env w u input a htok]
    have hr : strtok_rest a = some a := by
      unfold strtok_rest
      rw [if_neg h0]
    have e1 : ¬ (some a = none ∨ some a = some "rooms".toList) := by
      rintro (h | h)
      · cases h
      · exact h1 (Option.some.inj h)
    have e2 : ¬ (some a = some "users".toList) := fun h => h2 (Option.some.inj h)
    rw [hr]
    unfold chat_handle_list_command
    rw [if_neg e1, if_neg e2]
    exact stamped_reply_output env w u _ (by decide)
  · intro rest htok hcur
    rw [chat_process_command_leave env w u input rest htok]
    have hc := (stamped_current_room env w u).trans hcur
    rw [chat_leave_room_none env _ u hc]
    exact stamped_reply_output env w u "You are not in a room".toList (by decide)
  · intro command rest htok hplain hcur
    rw [chat_process_command_plain env w u input command rest htok hplain]
    have hc := (stamped_current_room env w u).trans hcur
    rw [chat_message_none env _ u input hc]
    exact stamped_reply_output env w u
      "You must join a room to chat. Type /join lobby".toList (by decide)

set_option maxRecDepth 100000 in
/-- Counterexample to C39 as stated: the lines `/help me` and `/help`, tab,
`me` have the same first whitespace-delimited token `/help`, but only the
first is dispatched to the help command; the second is answered with the
unknown-command hint, because for `strtok(s, " ")` the tab is part of the
token. -/
theorem C39_counterexample :
    spec_first_token "/help me".toList = some "/help".toList ∧
    spec_first_token "/help\tme".toList = some "/help".toList ∧
    (strtok_space "/help\tme".toList).1 = some "/help\tme".toList ∧
    ((chat_process_command env5 lobby1 0 "/help me".toList).1.connAt 1).output
      = (lobby1.connAt 1).wire ++ help_text ∧
    ((chat_process_command env5 lobby1 0 "/help\tme".toList).1.connAt 1).output
      = (lobby1.connAt 1).wire
          ++ "*** Unknown command. Type /help for available commands.\n".toList := by
  decide

/-- C39 (amended): the command is determined by the first space-delimited
token: leading spaces are skipped and the token ends at the first
following space (a tab is part of the token), and the text after that
space is the argument.  A token with a leading `/` that is not exactly one
of the eight commands of the table, such as `/JOIN`, yields the
unknown-command hint and the result 0; the tokens `/join`, `/nick` and
`/list` pass the remainder of the line to their handlers. -/
theorem C39_dispatch_by_space_token (env : Env) (w : World) (u : Nat) :
    (∀ (k : Nat) (tok tail : CStr), tok ≠ [] → ' ' ∉ tok →
      strtok_space (List.replicate k ' ' ++ tok ++ ' ' :: tail) = (some tok, tail) ∧
      strtok_space (List.replicate k ' ' ++ tok) = (some tok, [])) ∧
    (∀ input command rest : CStr, strtok_space input = (some command, rest) →
      command.head? = some '/' → command ∉ command_table →
      chat_process_command env w u input
        = (chat_send_system_message env
            { w with userAt := upd w.userAt u { w.userAt u with last_activity := env.now } } u
            "Unknown command. Type /help for available commands.".toList, 0)) ∧
    "/JOIN".toList ∉ command_table ∧
    chat_process_command env w u "/JOIN lobby".toList
      = (chat_send_system_message env
          { w with userAt := upd w.userAt u { w.userAt u with last_activity := env.now } } u
          "Unknown command. Type /help for available commands.".toList, 0) ∧
    (∀ input rest : CStr, strtok_space input = (some "/join".toList, rest) →
      chat_process_command env w u input
        = (chat_handle_join_command env
            { w with userAt := upd w.userAt u { w.userAt u with last_activity := env.now } } u
            (strtok_rest rest), 0)) ∧
    (∀ input rest : CStr, strtok_space input = (some "/nick".toList, rest) →
      chat_process_command env w u input
        = (chat_handle_nick_command env
            { w with userAt := upd w.userAt u { w.userAt u with last_activity := env.now } } u
            (strtok_rest rest), 0)) ∧
    (∀ input rest : CStr, strtok_space input = (some "/list".toList, rest) →
      chat_process_command env w u input
        = (chat_handle_list_command env
            { w with userAt := upd w.userAt u { w.userAt u with last_activity := env.now } } u
            (strtok_rest rest), 0)) ∧
    (∀ input command rest : CStr, strtok_space input = (some command, rest) →
      command.head? ≠ some '/' →
      chat_process_command env w u input
        = chat_message env
            { w with userAt := upd w.userAt u { w.userAt u with last_activity := env.now } }
            u input) := by
  refine ⟨fun k tok tail h1 h2 => strtok_space_spec k tok tail h1 h2, ?_, by decide, ?_, ?_, ?_,
    ?_, ?_⟩
  · intro input command rest h1 h2 h3
    exact chat_process_command_unknown env w u input command rest h1 h2 h3
  · exact chat_process_command_unknown env w u "/JOIN lobby".toList "/JOIN".toList
      "lobby".toList (by decide) (by decide) (by decide)
  · intro input rest h
    exact chat_process_command_join_args env w u input rest h
  · intro input rest h
    exact chat_process_command_nick_args env w u input rest h
  · intro input rest h
    exact chat_process_command_list env w u input rest h
  · intro input command rest h1 h2
    exact chat_process_command_plain env w u input command rest h1 h2

/-- C33: in every chat state reachable from `chat_server_create` a room
named `lobby` is found by `chat_find_room`; and a call of the chat handler
removes no room: the room list before is an initial part of the room list
after, so the room count does not decrease, and every room keeps its
name. -/
theorem C33_lobby_always_exists (w : World) (h : Reachable w) :
    (chat_find_room w "lobby".toList).isSome = true ∧
    (∃ r ∈ w.server.rooms, (w.roomAt r).name = "lobby".toList) ∧
    (∀ (env : Env) (conn : Nat),
      w.server.rooms <+: (enhanced_chat_handler env w conn).1.server.rooms ∧
      w.server.rooms.length ≤ (enhanced_chat_handler env w conn).1.server.rooms.length ∧
      (∀ r ∈ w.server.rooms,
        ((enhanced_chat_handler env w conn).1.roomAt r).name = (w.roomAt r).name)) ∧
    (∀ (env : Env) (u : Nat) (input : CStr),
      w.server.rooms <+: (chat_process_command env w u input).1.server.rooms) := by
  have hl := reachable_lobby h
  have halloc := (reachable_member_inv h).2.1
  refine ⟨hl, ?_, ?_, ?_⟩
  · unfold chat_find_room at hl
    rw [List.find?_isSome] at hl
    obtain ⟨r, hr, hn⟩ := hl
    exact ⟨r, hr, by simpa using hn⟩
  · intro env conn
    have hk := enhanced_chat_handler_rooms_kept env w conn
    exact ⟨hk.1, hk.1.length_le, fun r hr => hk.2.2 r (halloc r hr)⟩
  · intro env u input
    exact (chat_process_command_rooms_kept env w u input).1

set_option maxRecDepth 100000 in
/-- C33 at the state after user 0 has moved from `lobby` to a new room. -/
theorem C33_lobby_always_exists_witness :
    Reachable (exchange env5 lobby1 1 "/join den\n") ∧
    (chat_find_room (exchange env5 lobby1 1 "/join den\n") "lobby".toList).isSome = true :=
  have hr : Reachable (exchange env5 lobby1 1 "/join den\n") :=
    reachable_exchange _ _ _ _ (reachable_exchange _ _ _ _ (Reachable.init _ _))
  ⟨hr, (C33_lobby_always_exists _ hr).1⟩

set_option maxRecDepth 100000 in
/-- C36 (defect in the code): two rooms get the same name.  A room name of
32 bytes is cut to 31 bytes when the room is created, while `chat_find_room`
compares the stored name with the full argument; so when user 0 sends
`/join` with the same 32-byte name twice, the second join does not find the
room created by the first and creates another one: the room list then holds
the two different rooms 1 and 2 with equal names. -/
theorem C36_duplicate_room_names :
    (exchange env5 (exchange env5 lobby1 1 "/join abcdefghijklmnopqrstuvwxyz012345\n") 1
      "/join abcdefghijklmnopqrstuvwxyz012345\n").server.rooms = [0, 1, 2] ∧
    ((exchange env5 (exchange env5 lobby1 1 "/join abcdefghijklmnopqrstuvwxyz012345\n") 1
      "/join abcdefghijklmnopqrstuvwxyz012345\n").roomAt 1).name
      = "abcdefghijklmnopqrstuvwxyz01234".toList ∧
    ((exchange env5 (exchange env5 lobby1 1 "/join abcdefghijklmnopqrstuvwxyz012345\n") 1
      "/join abcdefghijklmnopqrstuvwxyz012345\n").roomAt 2).name
      = "abcdefghijklmnopqrstuvwxyz01234".toList ∧
    Reachable (exchange env5 (exchange env5 lobby1 1 "/join abcdefghijklmnopqrstuvwxyz012345\n")
      1 "/join abcdefghijklmnopqrstuvwxyz012345\n") ∧
    (exchange env5 (exchange env5 lobby1 1 "/join abcdefghijklmnopqrstuvwxyz01234\n") 1
      "/join abcdefghijklmnopqrstuvwxyz01234\n").server.rooms = [0, 1] := by
  refine ⟨by decide, by decide, by decide, ?_, by decide⟩
  exact reachable_exchange _ _ _ _ (reachable_exchange _ _ _ _
    (reachable_exchange _ _ _ _ (Reachable.init _ _)))

set_option maxRecDepth 100000 in
/-- C34 (defect in the code): the configured caps are parsed, stored and
printed but never used.  The configuration `config_small` sets
`max_users_per_room = 2` and `max_rooms = 1` in its section `chat` and
passes `config_validate`, which does not look at these two settings; yet in
the reachable state `lobby2`, where `lobby` holds 2 members, the join of a
third user is admitted, and in the reachable state `lobby1`, which has 1
room, `/join den` creates a second room.  The caps that `chat_join_room`
enforces are the constants `MAX_USERS_PER_ROOM` = 50 and `MAX_ROOMS` = 100,
the default values of the two settings. -/
theorem C34_configured_caps_ignored :
    config_small.max_users_per_room = 2 ∧ config_small.max_rooms = 1 ∧
    config_validate config_small true = 0 ∧
    (∀ (config : ServerConfig) (a b : Int) (ok : Bool),
      config_validate { config with max_rooms := a, max_users_per_room := b } ok
        = config_validate config ok) ∧
    Reachable lobby2 ∧
    (lobby2.roomAt 0).users = [0, 1] ∧
    ((exchange env5 lobby2 3 "/join lobby\n").roomAt 0).users = [0, 1, 2] ∧
    Reachable lobby1 ∧
    lobby1.server.rooms = [0] ∧
    (exchange env5 lobby1 1 "/join den\n").server.rooms = [0, 1] ∧
    MAX_USERS_PER_ROOM = 50 ∧ MAX_ROOMS = 100 ∧
    config_set_defaults.max_users_per_room = (MAX_USERS_PER_ROOM : Int) ∧
    config_set_defaults.max_rooms = (MAX_ROOMS : Int) := by
  refine ⟨by decide, by decide, by decide, fun _ _ _ _ => rfl, ?_, by decide, by decide, ?_,
    by decide, by decide, rfl, rfl, by decide, by decide⟩
  · exact reachable_exchange _ _ _ _ (reachable_exchange _ _ _ _ (Reachable.init _ _))
  · exact reachable_exchange _ _ _ _ (Reachable.init _ _)

set_option maxRecDepth 100000 in
/-- C35 (defect in the code): a room message is lost when the sender's next
message is processed before the recipient's buffer is written.  A and B are
in `lobby` and nothing is pending for B; A's two lines `one` and `two`
arrive in one read.  Both are counted as messages, but after the handler has
run nothing has been sent to B and B's write buffer holds the line for `two`
only: the line for `one` was staged by `connection_prepare_response` and
replaced by the next one before any `connection_write`.  A single line
`one` does reach B's buffer. -/
theorem C35_first_message_lost :
    (lobbyAB.roomAt 0).users = [0, 1] ∧
    (lobbyAB.userAt 1).connection = 2 ∧
    (lobbyAB.connAt 2).has_data_to_send = false ∧
    (exchange env5 lobbyAB 1 "one\ntwo\n").server.total_messages
      = lobbyAB.server.total_messages + 2 ∧
    ((exchange env5 lobbyAB 1 "one\ntwo\n").connAt 2).wire = (lobbyAB.connAt 2).wire ∧
    ((exchange env5 lobbyAB 1 "one\ntwo\n").connAt 2).write_buffer
      = "[12:00:00] <A> two\n".toList ∧
    ((exchange env5 lobbyAB 1 "one\ntwo\n").connAt 2).output
      = (lobbyAB.connAt 2).wire ++ "[12:00:00] <A> two\n".toList ∧
    ((exchange env5 lobbyAB 1 "one\n").connAt 2).output
      = (lobbyAB.connAt 2).wire ++ "[12:00:00] <A> one\n".toList := by
  decide

end MultiServer
